import Mathlib

/-!
# Countdown widget: colour translator and countdown state

A shallow embedding of `Content/WebFiles/timer.js`.

Modelling conventions.

* A JavaScript string is a list of Unicode characters (`JSString`).  Where the
  source counts or indexes UTF-16 code units (`.length`, `hex[0]`,
  `substring`), the model goes through `jsLength` and `codeUnits`.
* A JavaScript number is `JSNum`: `NaN`, the two infinities, or a rational.
  The numbers the program computes with are binary64: the results of `*`, `/`
  and of reading a numeral are rounded to the nearest binary64 number, ties to
  even (`toDouble`), and a number prints as the shortest digits that read back
  as the same binary64 number.  The two zeros are not told apart: the program
  never divides by a computed zero, and a zero prints as `0` whatever its
  sign.
* A JavaScript value is `JSValue`: the values `JSON.parse` can produce, plus
  `undefined`.  Converting an object that has an own property `toString` to a
  string or a number throws a `TypeError` (`JSON.parse` makes no functions, so
  such a property is never callable): the conversions return `Except`.
* Built-ins of the language runtime that the source calls (`parseFloat`,
  `parseInt`, `Math.round`, `String.prototype.trim`, number-to-string
  conversion, the regular expressions) are transcribed from ECMAScript.
-/

namespace Timer

/-! ## Strings and characters -/

/-- A JavaScript string, as its sequence of Unicode characters. -/
abbrev JSString := List Char

/-- ECMAScript `WhiteSpace` and `LineTerminator` code points: what
`String.prototype.trim`, `parseFloat` and `parseInt` skip. -/
def isWhiteSpaceCode (n : Nat) : Bool :=
  n == 0x09 || n == 0x0A || n == 0x0B || n == 0x0C || n == 0x0D || n == 0x20 ||
  n == 0xA0 || n == 0x1680 || (0x2000 ≤ n && n ≤ 0x200A) || n == 0x2028 ||
  n == 0x2029 || n == 0x202F || n == 0x205F || n == 0x3000 || n == 0xFEFF

/-- Whitespace test on a character. -/
def isWhiteSpace (c : Char) : Bool := isWhiteSpaceCode c.toNat

/-- The class `[0-9]`. -/
def isDecimalDigit (c : Char) : Bool := 48 ≤ c.toNat && c.toNat ≤ 57

/-- The class `[0-9A-Fa-f]`. -/
def isHexDigit (c : Char) : Bool :=
  (48 ≤ c.toNat && c.toNat ≤ 57) || (65 ≤ c.toNat && c.toNat ≤ 70) ||
  (97 ≤ c.toNat && c.toNat ≤ 102)

/-- The class `[0-9.]` of the source's regular expressions. -/
def isNumChar (c : Char) : Bool := isDecimalDigit c || c == '.'

/-- Value of a code point as a digit in bases up to 36 (`0-9`, `a-z`, `A-Z`). -/
def digitValue (n : Nat) : Option Nat :=
  if 48 ≤ n ∧ n ≤ 57 then some (n - 48)
  else if 97 ≤ n ∧ n ≤ 122 then some (n - 87)
  else if 65 ≤ n ∧ n ≤ 90 then some (n - 55)
  else none

/-- Is the code point a digit of the given radix? -/
def isRadixDigit (radix n : Nat) : Bool :=
  match digitValue n with
  | some d => decide (d < radix)
  | none => false

/-- Digit value of a code point that is a digit (0 otherwise). -/
def digitOf (n : Nat) : Nat := (digitValue n).getD 0

/-- Value of a numeral given by its digit code points, most significant first. -/
def numeralValue (radix : Nat) (ds : List Nat) : Nat :=
  ds.foldl (fun acc d => acc * radix + digitOf d) 0

/-- The UTF-16 code units of a string. -/
def codeUnits : JSString → List Nat
  | [] => []
  | c :: t =>
    if c.toNat < 0x10000 then c.toNat :: codeUnits t
    else (0xD800 + (c.toNat - 0x10000) / 0x400) ::
      (0xDC00 + (c.toNat - 0x10000) % 0x400) :: codeUnits t

/-- The `.length` of a string: its number of UTF-16 code units. -/
def jsLength (s : JSString) : Nat := (codeUnits s).length

/-- `String.prototype.trimStart`. -/
def trimStart (s : JSString) : JSString := s.dropWhile isWhiteSpace

/-- `String.prototype.trim`. -/
def trim (s : JSString) : JSString :=
  ((s.dropWhile isWhiteSpace).reverse.dropWhile isWhiteSpace).reverse

/-- `s.startsWith(p)`. -/
def startsWith (s p : JSString) : Bool := p.isPrefixOf s

/-- `s.endsWith(p)`. -/
def endsWith (s p : JSString) : Bool := p.reverse.isPrefixOf s.reverse

/-! ## Numbers -/

/-- A JavaScript number. -/
inductive JSNum where
  | nan
  | inf (neg : Bool)
  | fin (q : ℚ)
  deriving DecidableEq

/-- Rounding of a rational to the nearest integer, a tie going to the even
one. -/
def roundHalfEven (q : ℚ) : ℤ :=
  if q - ⌊q⌋ < 1 / 2 then ⌊q⌋
  else if 1 / 2 < q - ⌊q⌋ then ⌊q⌋ + 1
  else if ⌊q⌋ % 2 = 0 then ⌊q⌋ else ⌊q⌋ + 1

/-- The exponent `e` of the binade `[2^e, 2^(e+1))` of a positive rational, not
below `-1022`, where the subnormal numbers begin. -/
def binadeExponent (a : ℚ) : ℤ := max (Int.log 2 a) (-1022)

/-- The binary64 number nearest to a rational, ties to even: the significand
has 53 bits, so the result is a multiple of `2^(e-52)`; from `2^1024` on the
result is an infinity. -/
def toDouble (q : ℚ) : JSNum :=
  if (2 : ℚ) ^ (1024 : ℕ) ≤ roundHalfEven (|q| / 2 ^ (binadeExponent |q| - 52)) *
      2 ^ (binadeExponent |q| - 52) then .inf (decide (q < 0))
  else .fin (if q < 0 then
      -(roundHalfEven (|q| / 2 ^ (binadeExponent |q| - 52)) * 2 ^ (binadeExponent |q| - 52))
    else roundHalfEven (|q| / 2 ^ (binadeExponent |q| - 52)) * 2 ^ (binadeExponent |q| - 52))

namespace JSNum

/-- The operator `*`: the product rounded to binary64. -/
def mul : JSNum → JSNum → JSNum
  | nan, _ => nan
  | _, nan => nan
  | inf a, inf b => inf (a != b)
  | inf a, fin q => if q = 0 then nan else inf (a != decide (q < 0))
  | fin q, inf b => if q = 0 then nan else inf (decide (q < 0) != b)
  | fin p, fin q => toDouble (p * q)

/-- The operator `/`: the quotient rounded to binary64 (a zero divisor is
taken as `+0`). -/
def div : JSNum → JSNum → JSNum
  | nan, _ => nan
  | _, nan => nan
  | inf _, inf _ => nan
  | inf a, fin q => inf (a != decide (q < 0))
  | fin _, inf _ => fin 0
  | fin p, fin q =>
    if q = 0 then (if p = 0 then nan else inf (decide (p < 0))) else toDouble (p / q)

/-- Unary minus. -/
def neg : JSNum → JSNum
  | nan => nan
  | inf a => inf (!a)
  | fin q => fin (-q)

/-- The function `Math.round`: the nearest integer, a half going up.  The
result needs no rounding: below `2^52` in size it is a whole number of at most
53 bits, and from `2^52` on a binary64 number is whole and is its own
result. -/
def round : JSNum → JSNum
  | nan => nan
  | inf a => inf a
  | fin q => fin (⌊q + 1 / 2⌋ : ℤ)

/-- The function `isNaN` on a number. -/
def isNaN : JSNum → Bool
  | nan => true
  | _ => false

end JSNum

/-! ## Parsing numbers -/

/-- An optional sign in front of a numeral: whether it is `-`, and what follows. -/
def splitSign : JSString → Bool × JSString
  | '-' :: t => (true, t)
  | '+' :: t => (false, t)
  | s => (false, s)

/-- The exponent part `e[+-]digits` of a decimal literal, when there is one:
its value and what follows it. -/
def exponentPart : JSString → Option (ℤ × JSString)
  | c :: t =>
    if c == 'e' || c == 'E' then
      let ds := (splitSign t).2.takeWhile isDecimalDigit
      if ds.isEmpty then none
      else
        let v : ℤ := numeralValue 10 (ds.map Char.toNat)
        some (if (splitSign t).1 then -v else v, (splitSign t).2.dropWhile isDecimalDigit)
    else none
  | [] => none

/-- The longest `StrUnsignedDecimalLiteral` (without `Infinity`) that starts the
string: integer digits, an optional fraction, an optional exponent.  Gives the
digits read as one numeral `m`, the power of ten `e` that scales it (the
literal denotes `m * 10^e`) and the rest of the string; `none` when there is
no digit. -/
def decimalParts (s : JSString) : Option (ℕ × ℤ × JSString) :=
  let ip := s.takeWhile isDecimalDigit
  let r1 := s.dropWhile isDecimalDigit
  let fp := match r1 with
    | '.' :: t => t.takeWhile isDecimalDigit
    | _ => []
  let r2 := match r1 with
    | '.' :: t => t.dropWhile isDecimalDigit
    | _ => r1
  if ip.isEmpty && fp.isEmpty then none
  else
    let m := numeralValue 10 ((ip ++ fp).map Char.toNat)
    match exponentPart r2 with
    | some (e, r3) => some (m, e - fp.length, r3)
    | none => some (m, -(fp.length : ℤ), r2)

/-- The value and the rest of the longest unsigned decimal literal that starts
the string. -/
def unsignedDecimal (s : JSString) : Option (ℚ × JSString) :=
  match decimalParts s with
  | some (m, e, r) => some ((m : ℚ) * (10 : ℚ) ^ e, r)
  | none => none

/-- The longest `StrDecimalLiteral` that starts the string: its value, rounded
to binary64, and the rest of the string. -/
def decimalLiteral (s : JSString) : Option (JSNum × JSString) :=
  if "Infinity".toList.isPrefixOf (splitSign s).2 then
    some (.inf (splitSign s).1, (splitSign s).2.drop 8)
  else
    match unsignedDecimal (splitSign s).2 with
    | some (q, r) => some (toDouble (if (splitSign s).1 then -q else q), r)
    | none => none

/-- The function `parseFloat` on a string: the value of the longest decimal
literal after leading whitespace, rounded to binary64; `NaN` when there is
none. -/
def parseFloat (s : JSString) : JSNum :=
  match decimalLiteral (trimStart s) with
  | some (x, _) => x
  | none => .nan

/-- A literal `0x…`, `0o…` or `0b…` without its marker: all of it must be digits
of the radix. -/
def radixLiteral (radix : Nat) (ds : JSString) : JSNum :=
  if !ds.isEmpty && ds.all (fun c => isRadixDigit radix c.toNat) then
    toDouble (numeralValue radix (ds.map Char.toNat))
  else .nan

/-- The conversion `StringToNumber` (what `Number(s)` and arithmetic do to a
string): the whole trimmed string must be a numeric literal, the empty string
is 0. -/
def stringToNumber (s : JSString) : JSNum :=
  match trim s with
  | [] => .fin 0
  | '0' :: 'x' :: ds => radixLiteral 16 ds
  | '0' :: 'X' :: ds => radixLiteral 16 ds
  | '0' :: 'o' :: ds => radixLiteral 8 ds
  | '0' :: 'O' :: ds => radixLiteral 8 ds
  | '0' :: 'b' :: ds => radixLiteral 2 ds
  | '0' :: 'B' :: ds => radixLiteral 2 ds
  | t =>
    match decimalLiteral t with
    | some (x, []) => x
    | _ => .nan

/-- The integer that `parseInt(s, radix)` reads for an explicit radix, on the
code units of `s`: leading whitespace, a sign, for radix 16 an optional `0x`,
then the longest run of digits; `none` when there is no digit or the radix is
not in 2..36. -/
def parseIntCore (s : List Nat) (radix : Nat) : Option ℤ :=
  if radix < 2 || 36 < radix then none
  else
    let t := s.dropWhile isWhiteSpaceCode
    let negative := t.head? == some 45
    let u := if t.head? == some 45 || t.head? == some 43 then t.drop 1 else t
    let v := if radix == 16 &&
        (u.take 2 == [48, 120] || u.take 2 == [48, 88]) then u.drop 2 else u
    let ds := v.takeWhile (isRadixDigit radix)
    if ds.isEmpty then none
    else
      let m : ℤ := numeralValue radix ds
      some (if negative then -m else m)

/-- The function `parseInt(s, radix)`: the integer read, rounded to binary64;
`NaN` when no integer can be read. -/
def parseInt (s : List Nat) (radix : Nat) : JSNum :=
  match parseIntCore s radix with
  | some m => toDouble m
  | none => .nan

/-! ## Printing numbers -/

/-- Drop the zeros at the end of a numeral. -/
def dropTrailingZeros (ds : List Char) : List Char :=
  (ds.reverse.dropWhile (· == '0')).reverse

/-- The decimal exponent `n` of a positive rational: `10^(n-1) ≤ q < 10^n`. -/
def decimalExponent (q : ℚ) : ℤ := Int.log 10 q + 1

/-- The layout of `Number::toString` for significant digits `ds` (no trailing
zero) and decimal exponent `n`. -/
def layoutDigits (ds : List Char) (n : ℤ) : JSString :=
  let k : ℤ := ds.length
  if -5 ≤ n ∧ n ≤ 21 then
    if k ≤ n then ds ++ List.replicate (n - k).toNat '0'
    else if 0 < n then ds.take n.toNat ++ '.' :: ds.drop n.toNat
    else '0' :: '.' :: List.replicate (-n).toNat '0' ++ ds
  else
    let e := (if n - 1 < 0 then '-' else '+') :: Nat.toDigits 10 (n - 1).natAbs
    if ds.length = 1 then ds ++ 'e' :: e
    else ds.take 1 ++ '.' :: ds.drop 1 ++ 'e' :: e

/-- The `k`-digit numeral `s` for which `s * 10^(n-k)` reads back as `q`, if
there is one: of the two `k`-digit decimals next to `q`, the closer one that
rounds to `q` (the even one on a tie). -/
def bestCandidate (q : ℚ) (n : ℤ) (k : ℕ) : Option ℕ :=
  let lo := ⌊q / 10 ^ (n - k)⌋.toNat
  let dLo := q - lo * 10 ^ (n - k)
  let dHi := (lo + 1 : ℕ) * 10 ^ (n - k) - q
  if toDouble (lo * 10 ^ (n - k)) == .fin q &&
      (decide (dLo < dHi) || (decide (dLo = dHi) && lo % 2 == 0) ||
        toDouble ((lo + 1 : ℕ) * 10 ^ (n - k)) != .fin q) then some lo
  else if toDouble ((lo + 1 : ℕ) * 10 ^ (n - k)) == .fin q then some (lo + 1)
  else none

/-- The least number of digits `k`, from `k` on, for which a `k`-digit numeral
reads back as `q`, with that numeral (`fuel` bounds the search). -/
def searchDigits (q : ℚ) (n : ℤ) : ℕ → ℕ → Option (ℕ × ℕ)
  | 0, _ => none
  | fuel + 1, k =>
    match bestCandidate q n k with
    | some s => some (s, k)
    | none => searchDigits q n fuel (k + 1)

/-- A positive finite number as a string: the digits `s` and the exponent `n`
of `Number::toString`, with as few digits as read back as the same binary64
number (17 always suffice), laid out.  A whole number below `2^53` has no
shorter numeral than its own, which is what the first branch prints. -/
def positiveToString (q : ℚ) : JSString :=
  if q.den = 1 ∧ q.num < 2 ^ 53 then Nat.toDigits 10 q.num.toNat
  else
    match searchDigits q (decimalExponent q) 17 1 with
    | some (s, k) =>
      if s = 10 ^ k then layoutDigits ['1'] (decimalExponent q + 1)
      else layoutDigits (dropTrailingZeros (Nat.toDigits 10 s)) (decimalExponent q)
    | none =>
      layoutDigits
        (dropTrailingZeros (Nat.toDigits 10 ⌊q * (10 : ℚ) ^ (17 - decimalExponent q)⌋.toNat))
        (decimalExponent q)

/-- The conversion `Number::toString` (radix 10). -/
def numberToString : JSNum → JSString
  | .nan => "NaN".toList
  | .inf false => "Infinity".toList
  | .inf true => "-Infinity".toList
  | .fin q =>
    if q = 0 then ['0']
    else if q < 0 then '-' :: positiveToString (-q)
    else positiveToString q

/-! ## Values -/

/-- An exception. -/
inductive JSError where
  | typeError
  deriving DecidableEq

/-- Equality of two results (a value or an exception) is decidable. -/
instance decEqExcept {ε α : Type} [DecidableEq ε] [DecidableEq α] : DecidableEq (Except ε α)
  | .ok a, .ok b => if h : a = b then isTrue (congrArg Except.ok h)
      else isFalse (fun h2 => h (Except.ok.inj h2))
  | .error a, .error b => if h : a = b then isTrue (congrArg Except.error h)
      else isFalse (fun h2 => h (Except.error.inj h2))
  | .ok _, .error _ => isFalse (fun h => Except.noConfusion h)
  | .error _, .ok _ => isFalse (fun h => Except.noConfusion h)

/-- A JavaScript value: what `JSON.parse` can return, and `undefined`.  An
object is the list of its own properties (the first entry for a key is the
property), an array the list of its elements. -/
inductive JSValue where
  | undefined
  | null
  | bool (b : Bool)
  | num (x : JSNum)
  | str (s : JSString)
  | arr (items : List JSValue)
  | obj (fields : List (JSString × JSValue))

/-- Has the object an own property with this key? -/
def hasOwnKey (key : JSString) (fields : List (JSString × JSValue)) : Bool :=
  fields.any (fun f => f.1 == key)

/-- The conversion of an object to a primitive (`OrdinaryToPrimitive`, for
either hint).  Without an own `toString` the inherited one answers
`[object Object]`; an own `toString` is not callable, the inherited `valueOf`
returns the object itself and an own `valueOf` is not callable, so the
conversion throws a `TypeError`. -/
def objectToPrimitive (fields : List (JSString × JSValue)) : Except JSError JSString :=
  if hasOwnKey "toString".toList fields then .error .typeError
  else .ok "[object Object]".toList

/-- The separator `,` of `Array.prototype.join` in front of what follows. -/
def joinRest (first : JSString) (isLast : Bool) (rest : Except JSError JSString) :
    Except JSError JSString :=
  if isLast then .ok first
  else
    match rest with
    | .ok r => .ok (first ++ ',' :: r)
    | .error e => .error e

mutual
/-- The conversion `ToString`, as a template literal or `parseFloat` applies
it. -/
def toStringJS : JSValue → Except JSError JSString
  | .undefined => .ok "undefined".toList
  | .null => .ok "null".toList
  | .bool true => .ok "true".toList
  | .bool false => .ok "false".toList
  | .num x => .ok (numberToString x)
  | .str s => .ok s
  | .arr items => joinItems items
  | .obj fields => objectToPrimitive fields
/-- The method `Array.prototype.join` with the default separator `,`:
`undefined` and `null` elements print as the empty string, the others as
their own strings. -/
def joinItems : List JSValue → Except JSError JSString
  | [] => .ok []
  | .undefined :: rest => joinRest [] rest.isEmpty (joinItems rest)
  | .null :: rest => joinRest [] rest.isEmpty (joinItems rest)
  | v :: rest =>
    match toStringJS v with
    | .ok s => joinRest s rest.isEmpty (joinItems rest)
    | .error e => .error e
end

/-- The conversion `ToNumber`. -/
def toNumber : JSValue → Except JSError JSNum
  | .undefined => .ok .nan
  | .null => .ok (.fin 0)
  | .bool true => .ok (.fin 1)
  | .bool false => .ok (.fin 0)
  | .num x => .ok x
  | .str s => .ok (stringToNumber s)
  | .arr items =>
    match joinItems items with
    | .ok s => .ok (stringToNumber s)
    | .error e => .error e
  | .obj fields =>
    match objectToPrimitive fields with
    | .ok s => .ok (stringToNumber s)
    | .error e => .error e

/-- The conversion `ToBoolean` (truthiness). -/
def toBoolean : JSValue → Bool
  | .undefined => false
  | .null => false
  | .bool b => b
  | .num .nan => false
  | .num (.inf _) => true
  | .num (.fin q) => decide (q ≠ 0)
  | .str s => !s.isEmpty
  | .arr _ => true
  | .obj _ => true

/-- The test `typeof v === 'object' && v !== null`. -/
def isObject : JSValue → Bool
  | .arr _ => true
  | .obj _ => true
  | _ => false

/-- The test `key in v` on an object value, for the keys the source asks for
(`R`, `G`, `B`): they are own properties or absent, since neither
`Object.prototype` nor `Array.prototype` has them, and an array has only
index keys and `length`. -/
def hasProperty (key : JSString) : JSValue → Bool
  | .obj fields => fields.any (fun f => f.1 == key)
  | _ => false

/-- The property read `v.key`, for the keys the source reads (`R`, `G`, `B`,
`A`, `lowTimeThreshold`, `timerColor`, `lowTimeColor`), none of which is on a
built-in prototype: `undefined` when the property is absent. -/
def getProperty (key : JSString) : JSValue → JSValue
  | .obj fields =>
    match fields.find? (fun f => f.1 == key) with
    | some f => f.2
    | none => .undefined
  | _ => .undefined

/-- The operator `||`. -/
def orElse (a b : JSValue) : JSValue := if toBoolean a then a else b

/-- The test `v !== undefined`. -/
def isDefined : JSValue → Bool
  | .undefined => false
  | _ => true

/-! ## Regular expressions of the source -/

/-- A match of `=([0-9.]+)` at the start of the string (what follows the field
letter): the captured group. -/
def matchValueHere : JSString → Option JSString
  | '=' :: u =>
    if (u.takeWhile isNumChar).isEmpty then none else some (u.takeWhile isNumChar)
  | _ => none

/-- The call `s.match(/K=([0-9.]+)/)` for a field letter `K`: group 1 of the
leftmost match, `none` for `null`. -/
def matchField (key : Char) : JSString → Option JSString
  | [] => none
  | c :: t =>
    match (if c == key then matchValueHere t else none) with
    | some cap => some cap
    | none => matchField key t

/-- The call `s.match(/[0-9.]+/g)`: the maximal runs of `[0-9.]`, in order
(the empty list for `null`). -/
def matchAllNumbers : JSString → List JSString
  | [] => []
  | c :: t =>
    if isNumChar c then
      match t.head?.map isNumChar, matchAllNumbers t with
      | some true, run :: runs => (c :: run) :: runs
      | _, runs => [c] :: runs
    else matchAllNumbers t

/-- The test `/^[0-9A-Fa-f]+$/.test(s)`. -/
def isHex (s : JSString) : Bool := !s.isEmpty && s.all isHexDigit

/-! ## The colour translator -/

/-- The template literal of the source, with its four holes filled. -/
def rgbaString (r g b a : JSString) : JSString :=
  "rgba(".toList ++ r ++ ", ".toList ++ g ++ ", ".toList ++ b ++ ", ".toList ++ a ++ ")".toList

/-- A colour channel of the object form: `Math.round((v || 0) * 255)`. -/
def channelOfValue (v : JSValue) : Except JSError JSNum :=
  match toNumber (orElse v (.num (.fin 0))) with
  | .ok x => .ok (JSNum.mul x (.fin 255)).round
  | .error e => .error e

/-- A colour channel of the struct-string form:
`Math.round(parseFloat(m[1]) * 255)`. -/
def channelOfMatch (cap : JSString) : JSNum :=
  (JSNum.mul (parseFloat cap) (.fin 255)).round

/-- Step 2 of `parseUnrealColor`, the struct string: the result when the
trimmed input is parenthesised and `R`, `G` and `B` all match. -/
def parseStruct (cleanInput : JSString) : Option JSString :=
  if startsWith cleanInput ['('] && endsWith cleanInput [')'] then
    match matchField 'R' cleanInput, matchField 'G' cleanInput,
        matchField 'B' cleanInput with
    | some rMatch, some gMatch, some bMatch =>
      let a := match matchField 'A' cleanInput with
        | some aMatch => parseFloat aMatch
        | none => .fin 1
      some (rgbaString (numberToString (channelOfMatch rMatch))
        (numberToString (channelOfMatch gMatch))
        (numberToString (channelOfMatch bMatch)) (numberToString a))
    | _, _, _ => none
  else none

/-- Steps 3 and 4 of `parseUnrealColor`: a bare hex string of 3, 6 or 8 digits
gets its `#`, anything else is returned as it is. -/
def hexOrPassThrough (cleanInput : JSString) : JSString :=
  if isHex cleanInput && (jsLength cleanInput == 3 || jsLength cleanInput == 6 ||
      jsLength cleanInput == 8) then '#' :: cleanInput
  else cleanInput

/-- Step 1 of `parseUnrealColor`, the object with `R`, `G` and `B`: the three
channels, the alpha and the template literal, in the order of the source.  A
conversion that throws ends the call. -/
def parseObject (input : JSValue) : Except JSError JSString :=
  match channelOfValue (getProperty ['R'] input) with
  | .error e => .error e
  | .ok r =>
    match channelOfValue (getProperty ['G'] input) with
    | .error e => .error e
    | .ok g =>
      match channelOfValue (getProperty ['B'] input) with
      | .error e => .error e
      | .ok b =>
        match toStringJS (if isDefined (getProperty ['A'] input) then getProperty ['A'] input
            else .num (.fin 1)) with
        | .error e => .error e
        | .ok a =>
          .ok (rgbaString (numberToString r) (numberToString g) (numberToString b) a)

/-- The function `parseUnrealColor(input)` of `timer.js`: the string it
returns, or the exception it throws. -/
def parseUnrealColor (input : JSValue) : Except JSError JSString :=
  if !toBoolean input then .ok "white".toList
  else if isObject input && (hasProperty ['R'] input && hasProperty ['G'] input &&
      hasProperty ['B'] input) then parseObject input
  else
    match input with
    | .str s =>
      match parseStruct (trim s) with
      | some css => .ok css
      | none => .ok (hexOrPassThrough (trim s))
    | _ => .ok "white".toList

/-- The object literal `{ R: r, G: g, B: b, A: a }`. -/
def colorObject (r g b a : JSNum) : JSValue :=
  .obj [(['R'], .num r), (['G'], .num g), (['B'], .num b), (['A'], .num a)]

/-- The expression `parseInt(units, 16) / 255`. -/
def hexByte (units : List Nat) : JSNum := JSNum.div (parseInt units 16) (.fin 255)

/-- The body of `formatColorForUnreal` for a non-empty string. -/
def formatColorString (cssColor : JSString) : JSValue :=
  if startsWith cssColor ['#'] then
    let hex := codeUnits (cssColor.drop 1)
    if hex.length == 3 then
      colorObject (hexByte ((hex.take 1) ++ (hex.take 1)))
        (hexByte (((hex.drop 1).take 1) ++ ((hex.drop 1).take 1)))
        (hexByte (((hex.drop 2).take 1) ++ ((hex.drop 2).take 1))) (.fin 1)
    else
      colorObject (hexByte (hex.take 2)) (hexByte ((hex.drop 2).take 2))
        (hexByte ((hex.drop 4).take 2))
        (if hex.length == 8 then hexByte ((hex.drop 6).take 2) else .fin 1)
  else
    match (if startsWith cssColor "rgb".toList then matchAllNumbers cssColor else []) with
    | p0 :: p1 :: p2 :: rest =>
      colorObject (JSNum.div (parseFloat p0) (.fin 255)) (JSNum.div (parseFloat p1) (.fin 255))
        (JSNum.div (parseFloat p2) (.fin 255))
        (match rest with
          | p3 :: _ => parseFloat p3
          | [] => .fin 1)
    | _ => colorObject (.fin 1) (.fin 1) (.fin 1) (.fin 1)

/-- The function `formatColorForUnreal(cssColor)` of `timer.js`.  A falsy
argument gives the default; on any other value that is not a string the call
`cssColor.startsWith` throws a `TypeError`. -/
def formatColorForUnreal (cssColor : JSValue) : Except JSError JSValue :=
  if !toBoolean cssColor then .ok (colorObject (.fin 1) (.fin 1) (.fin 1) (.fin 1))
  else
    match cssColor with
    | .str s => .ok (formatColorString s)
    | _ => .error .typeError

/-! ## The countdown state holder -/

/-- The operator `<` on numbers: false as soon as an operand is `NaN`. -/
def JSNum.lt : JSNum → JSNum → Bool
  | .nan, _ => false
  | _, .nan => false
  | .inf a, .inf b => a && !b
  | .inf a, .fin _ => a
  | .fin _, .inf b => !b
  | .fin p, .fin q => decide (p < q)

/-- The operator `<=` on numbers: false as soon as an operand is `NaN`. -/
def JSNum.le : JSNum → JSNum → Bool
  | .nan, _ => false
  | _, .nan => false
  | .inf a, .inf b => a || !b
  | .inf a, .fin _ => a
  | .fin _, .inf b => !b
  | .fin p, .fin q => decide (p ≤ q)

/-- The function `Math.floor`; the whole part of a binary64 number is a
binary64 number. -/
def JSNum.floor : JSNum → JSNum
  | .nan => .nan
  | .inf a => .inf a
  | .fin q => .fin (⌊q⌋ : ℤ)

/-- The operator `%`: the remainder has the sign of the dividend; `NaN` for
an infinite dividend or a zero divisor; the dividend itself for an infinite
divisor.  The remainder of two binary64 numbers is a binary64 number: the
operator does not round. -/
def JSNum.mod : JSNum → JSNum → JSNum
  | .nan, _ => .nan
  | _, .nan => .nan
  | .inf _, _ => .nan
  | .fin p, .inf _ => .fin p
  | .fin p, .fin q =>
    if q = 0 then .nan
    else .fin (p - q * (if 0 ≤ p / q then (⌊p / q⌋ : ℤ) else (⌈p / q⌉ : ℤ)))

/-- The comparison `x <= v` of a number with any value: the value is
converted with `ToNumber`, which may throw. -/
def leValue (x : JSNum) (v : JSValue) : Except JSError Bool :=
  match toNumber v with
  | .ok y => .ok (JSNum.le x y)
  | .error e => .error e

/-- The call `parseFloat(v)` on any value.  A string is parsed; any other
value is first converted to a string, which may throw, and for a number that
conversion followed by `parseFloat` gives the number back. -/
def parseFloatValue : JSValue → Except JSError JSNum
  | .num x => .ok x
  | v =>
    match toStringJS v with
    | .ok s => .ok (parseFloat s)
    | .error e => .error e

/-- The constant `DEFAULT_DURATION`. -/
def DEFAULT_DURATION : JSNum := .fin 60

/-- The module variable `config`.  The two colours are strings: the initial
literals, then results of `parseUnrealColor`. -/
structure Config where
  lowTimeThreshold : JSValue
  timerColor : JSString
  lowTimeColor : JSString

/-- The element `#timer-text` of the page, as far as the source touches it:
`style.color`, whether `classList` has `critical`, and `innerText`.  An
assignment stores the value. -/
structure Label where
  color : JSString
  critical : Bool
  innerText : JSString

/-- The module state of `timer.js` together with the label. -/
structure State where
  countdownInterval : JSValue
  timeLeft : JSNum
  isRunning : Bool
  config : Config
  label : Label

/-- The state when the script has loaded, for a given label of the page. -/
def initialState (label : Label) : State :=
  { countdownInterval := .undefined
    timeLeft := .fin 0
    isRunning := false
    config :=
      { lowTimeThreshold := .num (.fin 30)
        timerColor := "white".toList
        lowTimeColor := "red".toList }
    label := label }

/-- The label after `window.onload`: no inline colour, not critical, the
waiting text. -/
def pageLabel : Label :=
  { color := [], critical := false, innerText := "WAITING FOR UE...".toList }

/-- The function `stopTimerInternal()`. -/
def stopTimerInternal (st : State) : State :=
  { st with
    countdownInterval := if toBoolean st.countdownInterval then .null else st.countdownInterval
    isRunning := false }

/-- One field of the label text: `n < 10 ? "0" + n : n`, then printed. -/
def padField (n : JSNum) : JSString :=
  if JSNum.lt n (.fin 10) then '0' :: numberToString n else numberToString n

/-- The text `updateDisplay()` writes for a stored `timeLeft`: the quotient
`t / 60` is rounded to binary64 before `Math.floor`. -/
def displayText (timeLeft : JSNum) : JSString :=
  let t := if JSNum.lt (.fin 0) timeLeft then timeLeft else .fin 0
  let minutes := (JSNum.div t (.fin 60)).floor
  let seconds := (JSNum.mod t (.fin 60)).floor
  padField minutes ++ ':' :: padField seconds

/-- The function `updateDisplay()`. -/
def updateDisplay (st : State) : State :=
  { st with label := { st.label with innerText := displayText st.timeLeft } }

/-- What `if (optionsJson)` and `JSON.parse(optionsJson)` make of the second
argument of `startCountdown`: a falsy argument, a text on which `JSON.parse`
throws, or the parsed value. -/
inductive OptionsJson where
  | absent
  | malformed
  | parsed (opts : JSValue)

/-- What a call leaves behind: the module state and the label after it, and
the exception that ended it, if one did. -/
structure Outcome where
  state : State
  error : Option JSError

/-- One of the two colour assignments of the `try` block, for the supplied
value `v`: nothing for a falsy value, else the translated colour, or the
exception of the translator. -/
def suppliedColor (v : JSValue) (prior : JSString) : Except JSError JSString :=
  if toBoolean v then parseUnrealColor v else .ok prior

/-- The three assignments inside the `try` block, on the parsed value, in the
order of the source: the config when the block is left, and the exception that
left it, if any.  Reading a property of `null` (or `undefined`) throws a
`TypeError`; so may the translator, and then the assignments after it are not
made. -/
def applyOptions (opts : JSValue) (config : Config) : Config × Option JSError :=
  match opts with
  | .null => (config, some .typeError)
  | .undefined => (config, some .typeError)
  | _ =>
    let c1 : Config :=
      if isDefined (getProperty "lowTimeThreshold".toList opts) then
        { config with lowTimeThreshold := getProperty "lowTimeThreshold".toList opts }
      else config
    match suppliedColor (getProperty "timerColor".toList opts) c1.timerColor with
    | .error e => (c1, some e)
    | .ok timerColor =>
      match suppliedColor (getProperty "lowTimeColor".toList opts) c1.lowTimeColor with
      | .error e => ({ c1 with timerColor := timerColor }, some e)
      | .ok lowTimeColor =>
        ({ c1 with timerColor := timerColor, lowTimeColor := lowTimeColor }, none)

/-- The `if (optionsJson) { try { … } catch (e) { … } }` of `startCountdown`:
an exception of `JSON.parse` or of the block is caught; `config` keeps what was
assigned before it. -/
def parseOptions (optionsJson : OptionsJson) (config : Config) : Config :=
  match optionsJson with
  | .absent => config
  | .malformed => config
  | .parsed opts => (applyOptions opts config).1

/-- The guard of the first assignment of `startCountdown`: the parsed duration,
replaced by `DEFAULT_DURATION` when it is `NaN` or `<= 0`. -/
def durationOrDefault (x : JSNum) : JSNum :=
  if x.isNaN || JSNum.le x (.fin 0) then DEFAULT_DURATION else x

/-- The function `window.startCountdown(duration, optionsJson)`.  The only
exception that can leave it is that of `parseFloat(duration)`, after
`stopTimerInternal()` and before anything else. -/
def startCountdown (duration : JSValue) (optionsJson : OptionsJson) (st : State) : Outcome :=
  match parseFloatValue duration with
  | .error e => { state := stopTimerInternal st, error := some e }
  | .ok x =>
    { state :=
        updateDisplay
          { stopTimerInternal st with
            timeLeft := durationOrDefault x
            config := parseOptions optionsJson st.config
            label :=
              { (if !(parseOptions optionsJson st.config).timerColor.isEmpty then
                  { st.label with color := (parseOptions optionsJson st.config).timerColor }
                  else st.label) with critical := false } }
      error := none }

/-- The function `window.updateTimer(seconds)`.  An exception of
`parseFloat(seconds)` leaves the state as it was; an exception of the
comparison with the threshold leaves it with the new `timeLeft` only. -/
def updateTimer (seconds : JSValue) (st : State) : Outcome :=
  match parseFloatValue seconds with
  | .error e => { state := st, error := some e }
  | .ok timeLeft =>
    match leValue timeLeft st.config.lowTimeThreshold with
    | .error e => { state := { st with timeLeft := timeLeft }, error := some e }
    | .ok true =>
      { state := updateDisplay { st with
          timeLeft := timeLeft
          label := { st.label with color := st.config.lowTimeColor, critical := true } }
        error := none }
    | .ok false =>
      { state := updateDisplay { st with
          timeLeft := timeLeft
          label :=
            { (if !st.config.timerColor.isEmpty then
                { st.label with color := st.config.timerColor }
                else st.label) with critical := false } }
        error := none }

/-- The function `window.stopCountdown()`. -/
def stopCountdown (st : State) : State := stopTimerInternal st

/-- A call of the host into the page. -/
inductive Call where
  | startCountdown (duration : JSValue) (optionsJson : OptionsJson)
  | updateTimer (seconds : JSValue)
  | stopCountdown

/-- The state after one call, whether it returned or threw. -/
def step (st : State) : Call → State
  | .startCountdown duration optionsJson => (startCountdown duration optionsJson st).state
  | .updateTimer seconds => (updateTimer seconds st).state
  | .stopCountdown => stopCountdown st

/-- The state after a sequence of calls. -/
def run (st : State) (calls : List Call) : State := calls.foldl step st

/-! ## Vocabulary of the specification -/

/-- The string has a match for each of `R=<number>`, `G=<number>` and
`B=<number>`. -/
def hasStructFields (s : JSString) : Bool :=
  (matchField 'R' s).isSome && (matchField 'G' s).isSome && (matchField 'B' s).isSome

/-- A parenthesised struct string containing `R`, `G` and `B` fields. -/
def isStructString (s : JSString) : Bool :=
  startsWith s ['('] && endsWith s [')'] && hasStructFields s

/-- An all-hex-digit string of length 3, 6 or 8. -/
def isBareHex (s : JSString) : Bool :=
  s.all isHexDigit && (s.length == 3 || s.length == 6 || s.length == 8)

/-- The value of a hexadecimal digit character (`0-9`, `a-f`, `A-F`). -/
def hexDigitValue (c : Char) : ℕ := digitOf c.toNat

/-- The byte written by two hexadecimal digits, high digit first. -/
def byteValue (hi lo : Char) : ℕ := 16 * hexDigitValue hi + hexDigitValue lo

/-- A non-negative decimal literal: integer digits, then optionally a point
and fraction digits, with at least one digit in all (`1`, `0.5`, `1.000000`,
`.5`, `5.`). -/
structure DecimalLiteral where
  intDigits : JSString
  fraction : Option JSString
  intDigits_ok : intDigits.all isDecimalDigit = true
  fraction_ok : (fraction.getD []).all isDecimalDigit = true
  has_digit : intDigits ++ fraction.getD [] ≠ []

/-- The text of a decimal literal. -/
def DecimalLiteral.text (d : DecimalLiteral) : JSString :=
  match d.fraction with
  | none => d.intDigits
  | some f => d.intDigits ++ '.' :: f

/-- The number a decimal literal denotes. -/
def DecimalLiteral.value (d : DecimalLiteral) : ℚ :=
  (numeralValue 10 ((d.intDigits ++ d.fraction.getD []).map Char.toNat) : ℚ) /
    10 ^ (d.fraction.getD []).length

/-- The literal `1.000000`. -/
def literalOne : DecimalLiteral :=
  ⟨"1".toList, some "000000".toList, by decide, by decide, by decide⟩

/-- The literal `0.000000`. -/
def literalZero : DecimalLiteral :=
  ⟨"0".toList, some "000000".toList, by decide, by decide, by decide⟩

/-- The literal `0.5`. -/
def literalHalf : DecimalLiteral :=
  ⟨"0".toList, some "5".toList, by decide, by decide, by decide⟩

/-- The literal `0`. -/
def literalNought : DecimalLiteral :=
  ⟨"0".toList, none, by decide, by decide, by decide⟩

/-- The literal `0.4999999999999999999`, of nineteen fraction digits. -/
def literalBelowHalf : DecimalLiteral :=
  ⟨"0".toList, some "4999999999999999999".toList, by decide, by decide, by decide⟩

/-- The literal `0.3333333333333333333`, of nineteen fraction digits. -/
def literalThird : DecimalLiteral :=
  ⟨"0".toList, some "3333333333333333333".toList, by decide, by decide, by decide⟩

/-- A string of the form `#` followed by exactly 3, 6 or 8 hex digits. -/
def isMarkedHex (s : JSString) : Bool :=
  match s with
  | '#' :: h => isBareHex h
  | _ => false

/-- The neutral default `{ R: 1, G: 1, B: 1, A: 1 }`. -/
def neutralColor : JSValue := colorObject (.fin 1) (.fin 1) (.fin 1) (.fin 1)

/-- A natural number zero-padded to two digits. -/
def pad2 (n : ℕ) : JSString :=
  if n < 10 then '0' :: Nat.toDigits 10 n else Nat.toDigits 10 n

/-- A primitive value: neither an array nor an object. -/
def isPrimitive : JSValue → Bool
  | .arr _ => false
  | .obj _ => false
  | _ => true

/-! ## Lemmas on binary64 rounding -/

theorem roundHalfEven_cases (q : ℚ) :
    roundHalfEven q = ⌊q⌋ ∨ roundHalfEven q = ⌊q⌋ + 1 := by
  unfold roundHalfEven
  split_ifs <;> simp

theorem roundHalfEven_le (q : ℚ) : (roundHalfEven q : ℚ) ≤ q + 1 / 2 := by
  have h1 := Int.floor_le q
  unfold roundHalfEven
  split_ifs with ha hb hc
  · linarith
  · push_cast
    have := Int.lt_floor_add_one q
    by_contra hcon
    push_neg at hcon
    have : q - ⌊q⌋ < 1 / 2 := by linarith
    exact ha this
  · linarith
  · push_cast
    push_neg at ha hb
    linarith

theorem sub_le_roundHalfEven (q : ℚ) : q - 1 / 2 ≤ (roundHalfEven q : ℚ) := by
  have h1 := Int.floor_le q
  have h2 := Int.lt_floor_add_one q
  unfold roundHalfEven
  split_ifs with ha hb hc
  · linarith
  · push_cast
    linarith
  · push_neg at ha hb
    linarith
  · push_cast
    linarith

theorem roundHalfEven_eq (q : ℚ) (m : ℤ) (h1 : (m : ℚ) - 1 / 2 < q) (h2 : q < m + 1 / 2) :
    roundHalfEven q = m := by
  have hle := roundHalfEven_le q
  have hge := sub_le_roundHalfEven q
  have a : ((roundHalfEven q : ℤ) : ℚ) < m + 1 := by linarith
  have b : (m : ℚ) - 1 < roundHalfEven q := by linarith
  have a' : roundHalfEven q < m + 1 := by exact_mod_cast a
  have b' : m - 1 < roundHalfEven q := by exact_mod_cast b
  omega

theorem roundHalfEven_intCast (z : ℤ) : roundHalfEven (z : ℚ) = z :=
  roundHalfEven_eq _ z (by linarith) (by linarith)

theorem le_roundHalfEven (q : ℚ) (k : ℤ) (h : (k : ℚ) ≤ q) : k ≤ roundHalfEven q := by
  have hf : k ≤ ⌊q⌋ := Int.le_floor.mpr h
  rcases roundHalfEven_cases q with h' | h' <;> omega

theorem roundHalfEven_le_of_le (q : ℚ) (k : ℤ) (h : q ≤ k) : roundHalfEven q ≤ k := by
  rcases eq_or_lt_of_le h with h' | h'
  · rw [h', roundHalfEven_intCast]
  · have hf : ⌊q⌋ < k := Int.floor_lt.mpr h'
    rcases roundHalfEven_cases q with h'' | h'' <;> omega

theorem log_two_eq {a : ℚ} {e : ℤ} (ha : 0 < a) (h1 : (2 : ℚ) ^ e ≤ a)
    (h2 : a < (2 : ℚ) ^ (e + 1)) : Int.log 2 a = e := by
  have l1 : e ≤ Int.log 2 a := by
    have := (Int.zpow_le_iff_le_log (b := 2) (by norm_num) ha (x := e)).mp (by exact_mod_cast h1)
    exact this
  have l2 : Int.log 2 a < e + 1 := by
    have := (Int.lt_zpow_iff_log_lt (b := 2) (by norm_num) ha (x := e + 1)).mp
      (by exact_mod_cast h2)
    exact this
  omega

theorem zpow_binade_le {a : ℚ} (ha : 0 < a) (hmin : (2 : ℚ) ^ (-1022 : ℤ) ≤ a) :
    (2 : ℚ) ^ binadeExponent a ≤ a := by
  unfold binadeExponent
  rcases le_total (Int.log 2 a) (-1022) with h | h
  · rw [max_eq_right h]
    exact hmin
  · rw [max_eq_left h]
    have := Int.zpow_log_le_self (b := 2) (r := a) (by norm_num) ha
    exact_mod_cast this

theorem lt_zpow_binade (a : ℚ) : a < (2 : ℚ) ^ (binadeExponent a + 1) := by
  have h := Int.lt_zpow_succ_log_self (b := 2) (by norm_num) a
  have h' : a < (2 : ℚ) ^ (Int.log 2 a + 1) := by exact_mod_cast h
  refine lt_of_lt_of_le h' ?_
  apply zpow_le_zpow_right₀ (by norm_num)
  unfold binadeExponent
  have := le_max_left (Int.log 2 a) (-1022)
  omega

theorem binadeExponent_ge (a : ℚ) : -1022 ≤ binadeExponent a := le_max_right _ _

theorem toDouble_of_nonneg {q : ℚ} (hq : 0 ≤ q)
    (hv : (roundHalfEven (q / 2 ^ (binadeExponent q - 52)) : ℚ) * 2 ^ (binadeExponent q - 52) <
      2 ^ (1024 : ℕ)) :
    toDouble q =
      .fin (roundHalfEven (q / 2 ^ (binadeExponent q - 52)) * 2 ^ (binadeExponent q - 52)) := by
  unfold toDouble
  rw [abs_of_nonneg hq, if_neg (not_le.mpr hv), if_neg (not_lt.mpr hq)]

theorem toDouble_zero : toDouble 0 = .fin 0 := by
  have h0 : roundHalfEven ((0 : ℚ) / 2 ^ (binadeExponent 0 - 52)) = 0 := by
    rw [zero_div]
    exact roundHalfEven_intCast 0
  rw [toDouble_of_nonneg (le_refl 0) (by rw [h0]; norm_num), h0]
  norm_num

/-- A multiple `m * 2^j` of a power of two with `m < 2^53`, in range, is a
binary64 number: rounding leaves it as it is. -/
theorem toDouble_mul_zpow (m : ℕ) (j : ℤ) (hm : m < 2 ^ 53) (hj : -1074 ≤ j)
    (hlt : (m : ℚ) * 2 ^ j < 2 ^ (1024 : ℕ)) :
    toDouble ((m : ℚ) * 2 ^ j) = .fin ((m : ℚ) * 2 ^ j) := by
  rcases Nat.eq_zero_or_pos m with h0 | hpos
  · subst h0
    simp [toDouble_zero]
  have h2 : (0 : ℚ) < 2 ^ j := zpow_pos (by norm_num) j
  have ha : (0 : ℚ) < (m : ℚ) * 2 ^ j := mul_pos (by exact_mod_cast hpos) h2
  have hexp : binadeExponent ((m : ℚ) * 2 ^ j) - 52 ≤ j := by
    unfold binadeExponent
    apply sub_le_iff_le_add.mpr
    apply max_le
    · have hlt2 : (m : ℚ) * 2 ^ j < 2 ^ (j + 53) := by
        rw [zpow_add₀ (by norm_num), mul_comm]
        apply mul_lt_mul_of_pos_left _ h2
        have : (m : ℚ) < ((2 ^ 53 : ℕ) : ℚ) := by exact_mod_cast hm
        have h53 : (((2 ^ 53 : ℕ) : ℚ)) = 2 ^ (53 : ℤ) := by norm_num
        rw [← h53]
        exact this
      have := (Int.lt_zpow_iff_log_lt (b := 2) (by norm_num) ha (x := j + 53)).mp
        (by exact_mod_cast hlt2)
      omega
    · omega
  obtain ⟨d, hd⟩ : ∃ d : ℕ, j = binadeExponent ((m : ℚ) * 2 ^ j) - 52 + d :=
    ⟨(j - (binadeExponent ((m : ℚ) * 2 ^ j) - 52)).toNat, by omega⟩
  have hu : (0 : ℚ) < 2 ^ (binadeExponent ((m : ℚ) * 2 ^ j) - 52) := zpow_pos (by norm_num) _
  have hdiv : (m : ℚ) * 2 ^ j / 2 ^ (binadeExponent ((m : ℚ) * 2 ^ j) - 52) =
      (((m * 2 ^ d : ℕ) : ℤ) : ℚ) := by
    rw [div_eq_iff hu.ne']
    nth_rewrite 1 [hd]
    rw [zpow_add₀ (by norm_num), zpow_natCast]
    push_cast
    ring
  have hv : (roundHalfEven ((m : ℚ) * 2 ^ j / 2 ^ (binadeExponent ((m : ℚ) * 2 ^ j) - 52)) : ℚ) *
      2 ^ (binadeExponent ((m : ℚ) * 2 ^ j) - 52) = (m : ℚ) * 2 ^ j := by
    rw [hdiv, roundHalfEven_intCast, ← hdiv]
    field_simp
  rw [toDouble_of_nonneg ha.le (by rw [hv]; exact hlt), hv]

theorem toDouble_natCast (n : ℕ) (h : n < 2 ^ 53) : toDouble (n : ℚ) = .fin (n : ℚ) := by
  have := toDouble_mul_zpow n 0 h (by norm_num) (by
    simp only [zpow_zero, mul_one]
    have : (n : ℚ) < ((2 ^ 53 : ℕ) : ℚ) := by exact_mod_cast h
    refine lt_trans this ?_
    norm_num)
  simpa using this

theorem toDouble_neg (q : ℚ) (hq : 0 < q) (y : ℚ) (h : toDouble q = .fin y) :
    toDouble (-q) = .fin (-y) := by
  unfold toDouble at h ⊢
  rw [abs_neg]
  rw [abs_of_pos hq] at h ⊢
  split_ifs at h with h1 h2
  · exact absurd h2 (not_lt.mpr hq.le)
  · have hneg : -q < 0 := by linarith
    rw [if_neg h1, if_pos hneg]
    injection h with h
    rw [h]

/-- A bound that rounding cannot cross: an integer below `2^53`. -/
theorem toDouble_range (x : ℚ) (n : ℕ) (hx0 : 0 ≤ x) (hxn : x ≤ n) (hn : n < 2 ^ 53) :
    ∃ y : ℚ, toDouble x = .fin y ∧ 0 ≤ y ∧ y ≤ n := by
  have hu : (0 : ℚ) < 2 ^ (binadeExponent x - 52) := zpow_pos (by norm_num) _
  have hexp : binadeExponent x ≤ 52 := by
    unfold binadeExponent
    apply max_le
    · rcases eq_or_lt_of_le hx0 with h0 | hpos
      · rw [← h0]
        simp
      · have hlt : x < 2 ^ (53 : ℤ) := by
          have : (n : ℚ) < ((2 ^ 53 : ℕ) : ℚ) := by exact_mod_cast hn
          have h53 : (((2 ^ 53 : ℕ) : ℚ)) = 2 ^ (53 : ℤ) := by norm_num
          linarith
        have := (Int.lt_zpow_iff_log_lt (b := 2) (by norm_num) hpos (x := 53)).mp
          (by exact_mod_cast hlt)
        omega
    · norm_num
  obtain ⟨d, hd⟩ : ∃ d : ℕ, (0 : ℤ) = binadeExponent x - 52 + d :=
    ⟨(52 - binadeExponent x).toNat, by omega⟩
  have hone : (2 : ℚ) ^ (binadeExponent x - 52) * 2 ^ d = 1 := by
    have : (2 : ℚ) ^ (binadeExponent x - 52) * 2 ^ (d : ℤ) = 2 ^ (0 : ℤ) := by
      rw [← zpow_add₀ (by norm_num), ← hd]
    simpa using this
  have hndiv : (n : ℚ) / 2 ^ (binadeExponent x - 52) = (((n * 2 ^ d : ℕ) : ℤ) : ℚ) := by
    rw [div_eq_iff hu.ne']
    push_cast
    rw [mul_assoc, mul_comm ((2 : ℚ) ^ d), hone, mul_one]
  have hle : roundHalfEven (x / 2 ^ (binadeExponent x - 52)) ≤ ((n * 2 ^ d : ℕ) : ℤ) := by
    apply roundHalfEven_le_of_le
    rw [← hndiv]
    exact div_le_div_of_nonneg_right hxn hu.le
  have hge : (0 : ℤ) ≤ roundHalfEven (x / 2 ^ (binadeExponent x - 52)) := by
    apply le_roundHalfEven
    simpa using div_nonneg hx0 hu.le
  have hvle : (roundHalfEven (x / 2 ^ (binadeExponent x - 52)) : ℚ) *
      2 ^ (binadeExponent x - 52) ≤ n := by
    have : (roundHalfEven (x / 2 ^ (binadeExponent x - 52)) : ℚ) ≤
        (((n * 2 ^ d : ℕ) : ℤ) : ℚ) := by exact_mod_cast hle
    calc (roundHalfEven (x / 2 ^ (binadeExponent x - 52)) : ℚ) * 2 ^ (binadeExponent x - 52)
        ≤ (((n * 2 ^ d : ℕ) : ℤ) : ℚ) * 2 ^ (binadeExponent x - 52) :=
          mul_le_mul_of_nonneg_right this hu.le
      _ = n := by
          rw [← hndiv]
          field_simp
  have hlt : (roundHalfEven (x / 2 ^ (binadeExponent x - 52)) : ℚ) *
      2 ^ (binadeExponent x - 52) < 2 ^ (1024 : ℕ) := by
    have : (n : ℚ) < ((2 ^ 53 : ℕ) : ℚ) := by exact_mod_cast hn
    have h2 : (((2 ^ 53 : ℕ) : ℚ)) < 2 ^ (1024 : ℕ) := by norm_num
    linarith
  refine ⟨_, toDouble_of_nonneg hx0 hlt, ?_, hvle⟩
  apply mul_nonneg _ hu.le
  exact_mod_cast hge

/-- The relative error of rounding, in the normal range. -/
theorem toDouble_error (x : ℚ) (hmin : (2 : ℚ) ^ (-1022 : ℤ) ≤ x) (hmax : x < 2 ^ (1023 : ℕ)) :
    ∃ y : ℚ, toDouble x = .fin y ∧ |y - x| ≤ x / 2 ^ (53 : ℕ) := by
  have hx : 0 < x := lt_of_lt_of_le (zpow_pos (by norm_num) _) hmin
  have hu : (0 : ℚ) < 2 ^ (binadeExponent x - 52) := zpow_pos (by norm_num) _
  have hb := zpow_binade_le hx hmin
  have hr1 := roundHalfEven_le (x / 2 ^ (binadeExponent x - 52))
  have hr2 := sub_le_roundHalfEven (x / 2 ^ (binadeExponent x - 52))
  have hsplit : (2 : ℚ) ^ binadeExponent x = 2 ^ (binadeExponent x - 52) * 2 ^ (52 : ℕ) := by
    have : (2 : ℚ) ^ binadeExponent x = 2 ^ (binadeExponent x - 52) * 2 ^ (52 : ℤ) := by
      rw [← zpow_add₀ (by norm_num)]
      congr 1
      ring
    rw [this]
    norm_cast
  have hxu : x = x / 2 ^ (binadeExponent x - 52) * 2 ^ (binadeExponent x - 52) := by
    field_simp
  have hhalf : (2 : ℚ) ^ (binadeExponent x - 52) / 2 ≤ x / 2 ^ (53 : ℕ) := by
    rw [hsplit] at hb
    rw [div_le_div_iff₀ (by norm_num) (by norm_num)]
    have : (2 : ℚ) ^ (53 : ℕ) = 2 ^ (52 : ℕ) * 2 := by norm_num
    rw [this]
    nlinarith
  have herr : |(roundHalfEven (x / 2 ^ (binadeExponent x - 52)) : ℚ) *
      2 ^ (binadeExponent x - 52) - x| ≤ 2 ^ (binadeExponent x - 52) / 2 := by
    rw [abs_le]
    constructor
    · nlinarith
    · nlinarith
  have hlt : (roundHalfEven (x / 2 ^ (binadeExponent x - 52)) : ℚ) *
      2 ^ (binadeExponent x - 52) < 2 ^ (1024 : ℕ) := by
    have h1 := (abs_le.mp herr).2
    have h2 : x / 2 ^ (53 : ℕ) ≤ x := by
      apply div_le_self hx.le
      norm_num
    have h3 : (2 : ℚ) ^ (1024 : ℕ) = 2 * 2 ^ (1023 : ℕ) := by norm_num
    linarith
  exact ⟨_, toDouble_of_nonneg hx.le hlt, le_trans herr hhalf⟩

/-- Evaluation of the rounding from the binade and the rounded significand. -/
theorem toDouble_eq_of_bounds (q : ℚ) (e m : ℤ) (hq : 0 < q) (he1 : (2 : ℚ) ^ e ≤ q)
    (he2 : q < (2 : ℚ) ^ (e + 1)) (hmin : -1022 ≤ e)
    (hm1 : (m : ℚ) - 1 / 2 < q / 2 ^ (e - 52)) (hm2 : q / 2 ^ (e - 52) < m + 1 / 2)
    (hv : (m : ℚ) * 2 ^ (e - 52) < 2 ^ (1024 : ℕ)) :
    toDouble q = .fin ((m : ℚ) * 2 ^ (e - 52)) := by
  have hb : binadeExponent q = e := by
    unfold binadeExponent
    rw [log_two_eq hq he1 he2, max_eq_left hmin]
  have hr : roundHalfEven (q / 2 ^ (binadeExponent q - 52)) = m := by
    rw [hb]
    exact roundHalfEven_eq _ m hm1 hm2
  rw [toDouble_of_nonneg hq.le (by rw [hr, hb]; exact hv), hr, hb]

theorem toDouble_one : toDouble 1 = .fin 1 := by
  have := toDouble_natCast 1 (by norm_num)
  simpa using this

theorem toDouble_half : toDouble (1 / 2) = .fin (1 / 2) := by
  have := toDouble_mul_zpow 1 (-1) (by norm_num) (by norm_num) (by norm_num)
  have e : ((1 : ℕ) : ℚ) * 2 ^ (-1 : ℤ) = 1 / 2 := by norm_num
  rw [e] at this
  exact this

/-- The absolute error of rounding below `2^(E+1)`: half a unit in the last
place of the binade `E`. -/
theorem toDouble_abs_error (x : ℚ) (E : ℤ) (hx0 : 0 ≤ x) (hx : x < 2 ^ (E + 1))
    (hE1 : -1022 ≤ E) (hE2 : E ≤ 1022) :
    ∃ y : ℚ, toDouble x = .fin y ∧ 0 ≤ y ∧ |y - x| ≤ 2 ^ (E - 53) := by
  rcases eq_or_lt_of_le hx0 with h0 | hpos
  · subst h0
    refine ⟨0, toDouble_zero, le_refl 0, ?_⟩
    simp only [sub_zero, abs_zero]
    positivity
  have hu : (0 : ℚ) < 2 ^ (binadeExponent x - 52) := zpow_pos (by norm_num) _
  have hexp : binadeExponent x ≤ E := by
    unfold binadeExponent
    apply max_le
    · have := (Int.lt_zpow_iff_log_lt (b := 2) (by norm_num) hpos (x := E + 1)).mp
        (by exact_mod_cast hx)
      omega
    · exact hE1
  have hr1 := roundHalfEven_le (x / 2 ^ (binadeExponent x - 52))
  have hr2 := sub_le_roundHalfEven (x / 2 ^ (binadeExponent x - 52))
  have hxu : x / 2 ^ (binadeExponent x - 52) * 2 ^ (binadeExponent x - 52) = x := by
    field_simp
  have hhalf : (2 : ℚ) ^ (binadeExponent x - 52) / 2 = 2 ^ (binadeExponent x - 53) := by
    have : (2 : ℚ) ^ (binadeExponent x - 52) = 2 ^ (binadeExponent x - 53) * 2 ^ (1 : ℤ) := by
      rw [← zpow_add₀ (by norm_num)]
      congr 1
      ring
    rw [this]
    norm_num
  have hmono : (2 : ℚ) ^ (binadeExponent x - 53) ≤ 2 ^ (E - 53) :=
    zpow_le_zpow_right₀ (by norm_num) (by omega)
  have herr : |(roundHalfEven (x / 2 ^ (binadeExponent x - 52)) : ℚ) *
      2 ^ (binadeExponent x - 52) - x| ≤ 2 ^ (binadeExponent x - 52) / 2 := by
    rw [abs_le]
    constructor
    · nlinarith
    · nlinarith
  have hge : (0 : ℤ) ≤ roundHalfEven (x / 2 ^ (binadeExponent x - 52)) := by
    apply le_roundHalfEven
    simpa using div_nonneg hx0 hu.le
  have hlt : (roundHalfEven (x / 2 ^ (binadeExponent x - 52)) : ℚ) *
      2 ^ (binadeExponent x - 52) < 2 ^ (1024 : ℕ) := by
    have h1 := (abs_le.mp herr).2
    have h2 : (2 : ℚ) ^ (E + 1) ≤ 2 ^ (1023 : ℤ) := zpow_le_zpow_right₀ (by norm_num) (by omega)
    have h3 : (2 : ℚ) ^ (E - 53) ≤ 2 ^ (969 : ℤ) := zpow_le_zpow_right₀ (by norm_num) (by omega)
    have h4 : (2 : ℚ) ^ (1023 : ℤ) + 2 ^ (969 : ℤ) < 2 ^ (1024 : ℕ) := by norm_num
    rw [hhalf] at h1
    linarith
  refine ⟨_, toDouble_of_nonneg hx0 hlt, ?_, ?_⟩
  · apply mul_nonneg _ hu.le
    exact_mod_cast hge
  · rw [hhalf] at herr
    exact le_trans herr hmono

/-- Rounding does not cross a whole number below `2^53`, from either side. -/
theorem toDouble_between (x : ℚ) (a b : ℕ) (hax : (a : ℚ) ≤ x) (hxb : x ≤ b)
    (hb : b < 2 ^ 53) : ∃ y : ℚ, toDouble x = .fin y ∧ (a : ℚ) ≤ y ∧ y ≤ b := by
  have hx0 : 0 ≤ x := le_trans (Nat.cast_nonneg a) hax
  obtain ⟨y, hy, -, hyb⟩ := toDouble_range x b hx0 hxb hb
  refine ⟨y, hy, ?_, hyb⟩
  have hu : (0 : ℚ) < 2 ^ (binadeExponent x - 52) := zpow_pos (by norm_num) _
  have hlt : (roundHalfEven (x / 2 ^ (binadeExponent x - 52)) : ℚ) *
      2 ^ (binadeExponent x - 52) < 2 ^ (1024 : ℕ) := by
    by_contra hcon
    have : toDouble x = .inf (decide (x < 0)) := by
      unfold toDouble
      rw [abs_of_nonneg hx0, if_pos (not_lt.mp hcon)]
    rw [this] at hy
    cases hy
  have hy2 := toDouble_of_nonneg hx0 hlt
  rw [hy2] at hy
  injection hy with hy
  rw [← hy]
  have hexp : binadeExponent x ≤ 52 := by
    unfold binadeExponent
    apply max_le
    · rcases eq_or_lt_of_le hx0 with h0 | hpos
      · rw [← h0]
        simp
      · have hlt : x < 2 ^ (53 : ℤ) := by
          have : (b : ℚ) < ((2 ^ 53 : ℕ) : ℚ) := by exact_mod_cast hb
          have h53 : (((2 ^ 53 : ℕ) : ℚ)) = 2 ^ (53 : ℤ) := by norm_num
          linarith
        have := (Int.lt_zpow_iff_log_lt (b := 2) (by norm_num) hpos (x := 53)).mp
          (by exact_mod_cast hlt)
        omega
    · norm_num
  obtain ⟨d, hd⟩ : ∃ d : ℕ, (0 : ℤ) = binadeExponent x - 52 + d :=
    ⟨(52 - binadeExponent x).toNat, by omega⟩
  have hone : (2 : ℚ) ^ (binadeExponent x - 52) * 2 ^ d = 1 := by
    have : (2 : ℚ) ^ (binadeExponent x - 52) * 2 ^ (d : ℤ) = 2 ^ (0 : ℤ) := by
      rw [← zpow_add₀ (by norm_num), ← hd]
    simpa using this
  have hadiv : (a : ℚ) / 2 ^ (binadeExponent x - 52) = (((a * 2 ^ d : ℕ) : ℤ) : ℚ) := by
    rw [div_eq_iff hu.ne']
    push_cast
    rw [mul_assoc, mul_comm ((2 : ℚ) ^ d), hone, mul_one]
  have hle : (((a * 2 ^ d : ℕ) : ℤ)) ≤ roundHalfEven (x / 2 ^ (binadeExponent x - 52)) := by
    apply le_roundHalfEven
    rw [← hadiv]
    exact div_le_div_of_nonneg_right hax hu.le
  have : ((((a * 2 ^ d : ℕ) : ℤ)) : ℚ) ≤
      (roundHalfEven (x / 2 ^ (binadeExponent x - 52)) : ℚ) := by exact_mod_cast hle
  calc (a : ℚ) = (((a * 2 ^ d : ℕ) : ℤ) : ℚ) * 2 ^ (binadeExponent x - 52) := by
        rw [← hadiv]
        field_simp
    _ ≤ (roundHalfEven (x / 2 ^ (binadeExponent x - 52)) : ℚ) * 2 ^ (binadeExponent x - 52) :=
        mul_le_mul_of_nonneg_right this hu.le

/-- A number that does not round to `q` when it is further from `q` than the
rounding error allows. -/
theorem toDouble_ne_of_far (x q : ℚ) (hmin : (2 : ℚ) ^ (-1022 : ℤ) ≤ x)
    (hmax : x < 2 ^ (1023 : ℕ)) (hfar : x / 2 ^ (53 : ℕ) < |q - x|) :
    toDouble x ≠ .fin q := by
  obtain ⟨y, hy, herr⟩ := toDouble_error x hmin hmax
  rw [hy]
  intro h
  injection h with h
  rw [h] at herr
  exact absurd herr (not_le.mpr hfar)

/-! ## Lemmas on printing numbers -/

/-- A natural number below `2^53` prints as its decimal digits. -/
theorem numberToString_natCast (n : ℕ) (h : n < 2 ^ 53) :
    numberToString (.fin (n : ℚ)) = Nat.toDigits 10 n := by
  unfold numberToString
  by_cases h0 : n = 0
  · subst h0
    simp
    rfl
  · have hq : (n : ℚ) ≠ 0 := by exact_mod_cast h0
    have hneg : ¬ ((n : ℚ) < 0) := by
      have : (0 : ℚ) ≤ n := Nat.cast_nonneg n
      exact not_lt.mpr this
    simp only [if_neg hq, if_neg hneg]
    unfold positiveToString
    have hlt : ((n : ℚ).num) < 2 ^ 53 := by
      rw [Rat.num_natCast]
      exact_mod_cast h
    rw [if_pos ⟨Rat.den_natCast n, hlt⟩, Rat.num_natCast, Int.toNat_natCast]

theorem numberToString_one : numberToString (.fin 1) = "1".toList := by
  have := numberToString_natCast 1 (by norm_num)
  simp only [Nat.cast_one] at this
  rw [this]
  rfl

theorem log_ten_eq {a : ℚ} {e : ℤ} (ha : 0 < a) (h1 : (10 : ℚ) ^ e ≤ a)
    (h2 : a < (10 : ℚ) ^ (e + 1)) : Int.log 10 a = e := by
  have l1 : e ≤ Int.log 10 a := by
    have := (Int.zpow_le_iff_le_log (b := 10) (by norm_num) ha (x := e)).mp
      (by exact_mod_cast h1)
    exact this
  have l2 : Int.log 10 a < e + 1 := by
    have := (Int.lt_zpow_iff_log_lt (b := 10) (by norm_num) ha (x := e + 1)).mp
      (by exact_mod_cast h2)
    exact this
  omega

/-- The lower of the two candidates is taken when it reads back as `q` and is
the closer one. -/
theorem bestCandidate_lower (q : ℚ) (n : ℤ) (k lo : ℕ)
    (hlo : ⌊q / 10 ^ (n - k)⌋.toNat = lo)
    (hback : toDouble ((lo : ℚ) * 10 ^ (n - k)) = .fin q)
    (hclose : q - (lo : ℚ) * 10 ^ (n - k) < ((lo + 1 : ℕ) : ℚ) * 10 ^ (n - k) - q) :
    bestCandidate q n k = some lo := by
  unfold bestCandidate
  simp only [hlo, hback, beq_self_eq_true, hclose, decide_True, Bool.true_or, Bool.and_self,
    if_true]

/-- No candidate of `k` digits when neither of the two reads back as `q`. -/
theorem bestCandidate_none (q : ℚ) (n : ℤ) (k lo : ℕ)
    (hlo : ⌊q / 10 ^ (n - k)⌋.toNat = lo)
    (h1 : toDouble ((lo : ℚ) * 10 ^ (n - k)) ≠ .fin q)
    (h2 : toDouble (((lo + 1 : ℕ) : ℚ) * 10 ^ (n - k)) ≠ .fin q) :
    bestCandidate q n k = none := by
  unfold bestCandidate
  simp only [hlo]
  have e1 : (toDouble ((lo : ℚ) * 10 ^ (n - k)) == JSNum.fin q) = false := by
    simpa using h1
  have e2 : (toDouble (((lo + 1 : ℕ) : ℚ) * 10 ^ (n - k)) == JSNum.fin q) = false := by
    simpa using h2
  rw [e1, e2]
  simp

/-- The number one half prints as `0.5`. -/
theorem numberToString_half : numberToString (.fin (1 / 2)) = "0.5".toList := by
  have hexp : decimalExponent (1 / 2) = 0 := by
    unfold decimalExponent
    rw [log_ten_eq (e := -1) (by norm_num) (by norm_num) (by norm_num)]
    norm_num
  have hbest : bestCandidate (1 / 2) 0 1 = some 5 := by
    apply bestCandidate_lower
    · norm_num
      rfl
    · have e : ((5 : ℕ) : ℚ) * 10 ^ ((0 : ℤ) - ((1 : ℕ) : ℤ)) = 1 / 2 := by norm_num
      rw [e]
      exact toDouble_half
    · norm_num
  have hden : ¬ (((1 : ℚ) / 2).den = 1 ∧ ((1 : ℚ) / 2).num < 2 ^ 53) := by
    intro h
    have : ((1 : ℚ) / 2).den = 2 := by norm_num
    omega
  have h0 : ¬ ((1 : ℚ) / 2 = 0) := by norm_num
  have hneg : ¬ ((1 : ℚ) / 2 < 0) := by norm_num
  unfold numberToString
  simp only [if_neg h0, if_neg hneg]
  unfold positiveToString
  rw [if_neg hden, hexp]
  simp only [searchDigits, hbest]
  decide

/-! ## Printing the binary64 number nearest to one third -/

theorem toDouble_ne_of_below (x q : ℚ) (hmin : (2 : ℚ) ^ (-1022 : ℤ) ≤ x)
    (hmax : x < 2 ^ (1023 : ℕ)) (h : x + x / 2 ^ (53 : ℕ) < q) : toDouble x ≠ .fin q := by
  have hx : 0 < x := lt_of_lt_of_le (zpow_pos (by norm_num) _) hmin
  have hd : 0 ≤ x / 2 ^ (53 : ℕ) := by positivity
  apply toDouble_ne_of_far x q hmin hmax
  rw [abs_of_pos (by linarith)]
  linarith

theorem toDouble_ne_of_above (x q : ℚ) (hmin : (2 : ℚ) ^ (-1022 : ℤ) ≤ x)
    (hmax : x < 2 ^ (1023 : ℕ)) (h : q < x - x / 2 ^ (53 : ℕ)) : toDouble x ≠ .fin q := by
  have hx : 0 < x := lt_of_lt_of_le (zpow_pos (by norm_num) _) hmin
  have hd : 0 ≤ x / 2 ^ (53 : ℕ) := by positivity
  apply toDouble_ne_of_far x q hmin hmax
  rw [abs_of_neg (by linarith)]
  linarith

theorem searchDigits_skip (q : ℚ) (n : ℤ) (fuel k : ℕ) (h : bestCandidate q n k = none) :
    searchDigits q n (fuel + 1) k = searchDigits q n fuel (k + 1) := by
  simp only [searchDigits, h]

theorem searchDigits_hit (q : ℚ) (n : ℤ) (fuel k s : ℕ) (h : bestCandidate q n k = some s) :
    searchDigits q n (fuel + 1) k = some (s, k) := by
  simp only [searchDigits, h]

/-- Fewer than 16 digits do not read back as the binary64 number nearest to
one third; 16 digits do. -/
theorem searchDigits_third :
    searchDigits (6004799503160661 / 18014398509481984) 0 17 1 = some (3333333333333333, 16) := by
  have b1 : bestCandidate (6004799503160661 / 18014398509481984) 0 1 = none := by
    apply bestCandidate_none (6004799503160661 / 18014398509481984) 0 1 3
    · have hf : ⌊((6004799503160661 / 18014398509481984) : ℚ) / 10 ^ ((0 : ℤ) - ((1 : ℕ) : ℤ))⌋ = 3 := by
        rw [Int.floor_eq_iff]
        constructor <;> norm_num
      rw [hf]
      rfl
    · apply toDouble_ne_of_below <;> norm_num
    · apply toDouble_ne_of_above <;> norm_num
  have b2 : bestCandidate (6004799503160661 / 18014398509481984) 0 2 = none := by
    apply bestCandidate_none (6004799503160661 / 18014398509481984) 0 2 33
    · have hf : ⌊((6004799503160661 / 18014398509481984) : ℚ) / 10 ^ ((0 : ℤ) - ((2 : ℕ) : ℤ))⌋ = 33 := by
        rw [Int.floor_eq_iff]
        constructor <;> norm_num
      rw [hf]
      rfl
    · apply toDouble_ne_of_below <;> norm_num
    · apply toDouble_ne_of_above <;> norm_num
  have b3 : bestCandidate (6004799503160661 / 18014398509481984) 0 3 = none := by
    apply bestCandidate_none (6004799503160661 / 18014398509481984) 0 3 333
    · have hf : ⌊((6004799503160661 / 18014398509481984) : ℚ) / 10 ^ ((0 : ℤ) - ((3 : ℕ) : ℤ))⌋ = 333 := by
        rw [Int.floor_eq_iff]
        constructor <;> norm_num
      rw [hf]
      rfl
    · apply toDouble_ne_of_below <;> norm_num
    · apply toDouble_ne_of_above <;> norm_num
  have b4 : bestCandidate (6004799503160661 / 18014398509481984) 0 4 = none := by
    apply bestCandidate_none (6004799503160661 / 18014398509481984) 0 4 3333
    · have hf : ⌊((6004799503160661 / 18014398509481984) : ℚ) / 10 ^ ((0 : ℤ) - ((4 : ℕ) : ℤ))⌋ = 3333 := by
        rw [Int.floor_eq_iff]
        constructor <;> norm_num
      rw [hf]
      rfl
    · apply toDouble_ne_of_below <;> norm_num
    · apply toDouble_ne_of_above <;> norm_num
  have b5 : bestCandidate (6004799503160661 / 18014398509481984) 0 5 = none := by
    apply bestCandidate_none (6004799503160661 / 18014398509481984) 0 5 33333
    · have hf : ⌊((6004799503160661 / 18014398509481984) : ℚ) / 10 ^ ((0 : ℤ) - ((5 : ℕ) : ℤ))⌋ = 33333 := by
        rw [Int.floor_eq_iff]
        constructor <;> norm_num
      rw [hf]
      rfl
    · apply toDouble_ne_of_below <;> norm_num
    · apply toDouble_ne_of_above <;> norm_num
  have b6 : bestCandidate (6004799503160661 / 18014398509481984) 0 6 = none := by
    apply bestCandidate_none (6004799503160661 / 18014398509481984) 0 6 333333
    · have hf : ⌊((6004799503160661 / 18014398509481984) : ℚ) / 10 ^ ((0 : ℤ) - ((6 : ℕ) : ℤ))⌋ = 333333 := by
        rw [Int.floor_eq_iff]
        constructor <;> norm_num
      rw [hf]
      rfl
    · apply toDouble_ne_of_below <;> norm_num
    · apply toDouble_ne_of_above <;> norm_num
  have b7 : bestCandidate (6004799503160661 / 18014398509481984) 0 7 = none := by
    apply bestCandidate_none (6004799503160661 / 18014398509481984) 0 7 3333333
    · have hf : ⌊((6004799503160661 / 18014398509481984) : ℚ) / 10 ^ ((0 : ℤ) - ((7 : ℕ) : ℤ))⌋ = 3333333 := by
        rw [Int.floor_eq_iff]
        constructor <;> norm_num
      rw [hf]
      rfl
    · apply toDouble_ne_of_below <;> norm_num
    · apply toDouble_ne_of_above <;> norm_num
  have b8 : bestCandidate (6004799503160661 / 18014398509481984) 0 8 = none := by
    apply bestCandidate_none (6004799503160661 / 18014398509481984) 0 8 33333333
    · have hf : ⌊((6004799503160661 / 18014398509481984) : ℚ) / 10 ^ ((0 : ℤ) - ((8 : ℕ) : ℤ))⌋ = 33333333 := by
        rw [Int.floor_eq_iff]
        constructor <;> norm_num
      rw [hf]
      rfl
    · apply toDouble_ne_of_below <;> norm_num
    · apply toDouble_ne_of_above <;> norm_num
  have b9 : bestCandidate (6004799503160661 / 18014398509481984) 0 9 = none := by
    apply bestCandidate_none (6004799503160661 / 18014398509481984) 0 9 333333333
    · have hf : ⌊((6004799503160661 / 18014398509481984) : ℚ) / 10 ^ ((0 : ℤ) - ((9 : ℕ) : ℤ))⌋ = 333333333 := by
        rw [Int.floor_eq_iff]
        constructor <;> norm_num
      rw [hf]
      rfl
    · apply toDouble_ne_of_below <;> norm_num
    · apply toDouble_ne_of_above <;> norm_num
  have b10 : bestCandidate (6004799503160661 / 18014398509481984) 0 10 = none := by
    apply bestCandidate_none (6004799503160661 / 18014398509481984) 0 10 3333333333
    · have hf : ⌊((6004799503160661 / 18014398509481984) : ℚ) / 10 ^ ((0 : ℤ) - ((10 : ℕ) : ℤ))⌋ = 3333333333 := by
        rw [Int.floor_eq_iff]
        constructor <;> norm_num
      rw [hf]
      rfl
    · apply toDouble_ne_of_below <;> norm_num
    · apply toDouble_ne_of_above <;> norm_num
  have b11 : bestCandidate (6004799503160661 / 18014398509481984) 0 11 = none := by
    apply bestCandidate_none (6004799503160661 / 18014398509481984) 0 11 33333333333
    · have hf : ⌊((6004799503160661 / 18014398509481984) : ℚ) / 10 ^ ((0 : ℤ) - ((11 : ℕ) : ℤ))⌋ = 33333333333 := by
        rw [Int.floor_eq_iff]
        constructor <;> norm_num
      rw [hf]
      rfl
    · apply toDouble_ne_of_below <;> norm_num
    · apply toDouble_ne_of_above <;> norm_num
  have b12 : bestCandidate (6004799503160661 / 18014398509481984) 0 12 = none := by
    apply bestCandidate_none (6004799503160661 / 18014398509481984) 0 12 333333333333
    · have hf : ⌊((6004799503160661 / 18014398509481984) : ℚ) / 10 ^ ((0 : ℤ) - ((12 : ℕ) : ℤ))⌋ = 333333333333 := by
        rw [Int.floor_eq_iff]
        constructor <;> norm_num
      rw [hf]
      rfl
    · apply toDouble_ne_of_below <;> norm_num
    · apply toDouble_ne_of_above <;> norm_num
  have b13 : bestCandidate (6004799503160661 / 18014398509481984) 0 13 = none := by
    apply bestCandidate_none (6004799503160661 / 18014398509481984) 0 13 3333333333333
    · have hf : ⌊((6004799503160661 / 18014398509481984) : ℚ) / 10 ^ ((0 : ℤ) - ((13 : ℕ) : ℤ))⌋ = 3333333333333 := by
        rw [Int.floor_eq_iff]
        constructor <;> norm_num
      rw [hf]
      rfl
    · apply toDouble_ne_of_below <;> norm_num
    · apply toDouble_ne_of_above <;> norm_num
  have b14 : bestCandidate (6004799503160661 / 18014398509481984) 0 14 = none := by
    apply bestCandidate_none (6004799503160661 / 18014398509481984) 0 14 33333333333333
    · have hf : ⌊((6004799503160661 / 18014398509481984) : ℚ) / 10 ^ ((0 : ℤ) - ((14 : ℕ) : ℤ))⌋ = 33333333333333 := by
        rw [Int.floor_eq_iff]
        constructor <;> norm_num
      rw [hf]
      rfl
    · apply toDouble_ne_of_below <;> norm_num
    · apply toDouble_ne_of_above <;> norm_num
  have b15 : bestCandidate (6004799503160661 / 18014398509481984) 0 15 = none := by
    apply bestCandidate_none (6004799503160661 / 18014398509481984) 0 15 333333333333333
    · have hf : ⌊((6004799503160661 / 18014398509481984) : ℚ) / 10 ^ ((0 : ℤ) - ((15 : ℕ) : ℤ))⌋ = 333333333333333 := by
        rw [Int.floor_eq_iff]
        constructor <;> norm_num
      rw [hf]
      rfl
    · apply toDouble_ne_of_below <;> norm_num
    · apply toDouble_ne_of_above <;> norm_num
  have b16 : bestCandidate (6004799503160661 / 18014398509481984) 0 16 = some 3333333333333333 := by
    apply bestCandidate_lower (6004799503160661 / 18014398509481984) 0 16 3333333333333333
    · have hf : ⌊((6004799503160661 / 18014398509481984) : ℚ) / 10 ^ ((0 : ℤ) - ((16 : ℕ) : ℤ))⌋ = 3333333333333333 := by
        rw [Int.floor_eq_iff]
        constructor <;> norm_num
      rw [hf]
      rfl
    · rw [toDouble_eq_of_bounds _ (-2) 6004799503160661 (by norm_num) (by norm_num)
        (by norm_num) (by norm_num) (by norm_num) (by norm_num) (by norm_num)]
      norm_num
    · norm_num
  rw [searchDigits_skip (6004799503160661 / 18014398509481984) 0 16 1 b1,
    searchDigits_skip (6004799503160661 / 18014398509481984) 0 15 2 b2,
    searchDigits_skip (6004799503160661 / 18014398509481984) 0 14 3 b3,
    searchDigits_skip (6004799503160661 / 18014398509481984) 0 13 4 b4,
    searchDigits_skip (6004799503160661 / 18014398509481984) 0 12 5 b5,
    searchDigits_skip (6004799503160661 / 18014398509481984) 0 11 6 b6,
    searchDigits_skip (6004799503160661 / 18014398509481984) 0 10 7 b7,
    searchDigits_skip (6004799503160661 / 18014398509481984) 0 9 8 b8,
    searchDigits_skip (6004799503160661 / 18014398509481984) 0 8 9 b9,
    searchDigits_skip (6004799503160661 / 18014398509481984) 0 7 10 b10,
    searchDigits_skip (6004799503160661 / 18014398509481984) 0 6 11 b11,
    searchDigits_skip (6004799503160661 / 18014398509481984) 0 5 12 b12,
    searchDigits_skip (6004799503160661 / 18014398509481984) 0 4 13 b13,
    searchDigits_skip (6004799503160661 / 18014398509481984) 0 3 14 b14,
    searchDigits_skip (6004799503160661 / 18014398509481984) 0 2 15 b15,
    searchDigits_hit (6004799503160661 / 18014398509481984) 0 1 16 3333333333333333 b16]

/-- The binary64 number nearest to one third prints with 16 digits. -/
theorem numberToString_third :
    numberToString (.fin (6004799503160661 / 18014398509481984)) = "0.3333333333333333".toList := by
  have hexp : decimalExponent (6004799503160661 / 18014398509481984) = 0 := by
    unfold decimalExponent
    rw [log_ten_eq (e := -1) (by norm_num) (by norm_num) (by norm_num)]
    norm_num
  have hden : ¬ ((((6004799503160661 / 18014398509481984) : ℚ)).den = 1 ∧ (((6004799503160661 / 18014398509481984) : ℚ)).num < 2 ^ 53) := by
    intro h
    have : (((6004799503160661 / 18014398509481984) : ℚ)).den = 18014398509481984 := by norm_num
    omega
  have h0 : ¬ (((6004799503160661 / 18014398509481984) : ℚ) = 0) := by norm_num
  have hneg : ¬ (((6004799503160661 / 18014398509481984) : ℚ) < 0) := by norm_num
  unfold numberToString
  simp only [if_neg h0, if_neg hneg]
  unfold positiveToString
  rw [if_neg hden, hexp, searchDigits_third]
  decide

/-! ## Lemmas on the quotient by 60 -/

/-- A rounded value that is finite is the rounded significand times the unit
of the binade. -/
theorem eq_of_toDouble_eq_fin {x y : ℚ} (hx0 : 0 ≤ x) (h : toDouble x = .fin y) :
    y = (roundHalfEven (x / 2 ^ (binadeExponent x - 52)) : ℚ) * 2 ^ (binadeExponent x - 52) := by
  unfold toDouble at h
  rw [abs_of_nonneg hx0] at h
  by_cases h1 : (2 : ℚ) ^ (1024 : ℕ) ≤
      roundHalfEven (x / 2 ^ (binadeExponent x - 52)) * 2 ^ (binadeExponent x - 52)
  · rw [if_pos h1] at h
    cases h
  · rw [if_neg h1, if_neg (not_lt.mpr hx0)] at h
    injection h with h
    exact h.symm

theorem binadeExponent_le_of_lt {x : ℚ} (hx : 0 < x) (h : x < 2 ^ (53 : ℕ)) :
    binadeExponent x ≤ 52 := by
  unfold binadeExponent
  apply max_le
  · have hlt : x < 2 ^ (53 : ℤ) := by
      have h53 : ((2 : ℚ) ^ (53 : ℕ)) = 2 ^ (53 : ℤ) := by norm_num
      rw [← h53]
      exact h
    have := (Int.lt_zpow_iff_log_lt (b := 2) (by norm_num) hx (x := 53)).mp
      (by exact_mod_cast hlt)
    omega
  · norm_num

theorem unit_mul_pow_eq_one {e : ℤ} (he : e ≤ 52) :
    ∃ d : ℕ, (2 : ℚ) ^ (e - 52) * 2 ^ d = 1 := by
  obtain ⟨d, hd⟩ : ∃ d : ℕ, (0 : ℤ) = e - 52 + d := ⟨(52 - e).toNat, by omega⟩
  refine ⟨d, ?_⟩
  have : (2 : ℚ) ^ (e - 52) * 2 ^ (d : ℤ) = 2 ^ (0 : ℤ) := by
    rw [← zpow_add₀ (by norm_num), ← hd]
  simpa using this

/-- The binary64 quotient of a binary64 number below `2^53` by 60 has the same
whole part as the exact quotient. -/
theorem floor_toDouble_div_sixty (t : ℚ) (ht0 : 0 ≤ t) (ht : t < 2 ^ (53 : ℕ))
    (hd : toDouble t = .fin t) :
    ∃ y : ℚ, toDouble (t / 60) = .fin y ∧ ⌊y⌋ = ⌊t / 60⌋ := by
  rcases eq_or_lt_of_le ht0 with h0 | htpos
  · subst h0
    refine ⟨0, ?_, ?_⟩
    · rw [zero_div]
      exact toDouble_zero
    · simp
  have hq0 : 0 < t / 60 := by positivity
  have hM0 : 0 ≤ ⌊t / 60⌋ := Int.floor_nonneg.mpr hq0.le
  have hMle : ((⌊t / 60⌋ : ℤ) : ℚ) ≤ t / 60 := Int.floor_le _
  have hMlt : t / 60 < ((⌊t / 60⌋ : ℤ) : ℚ) + 1 := Int.lt_floor_add_one _
  have hcast : ((⌊t / 60⌋.toNat : ℕ) : ℚ) = ((⌊t / 60⌋ : ℤ) : ℚ) := by
    have := Int.toNat_of_nonneg hM0
    exact_mod_cast this
  have hMsmall : ⌊t / 60⌋.toNat + 1 < 2 ^ 53 := by
    have h1 : ((⌊t / 60⌋ : ℤ) : ℚ) < 2 ^ (53 : ℕ) / 60 := by
      have : t / 60 < 2 ^ (53 : ℕ) / 60 := by
        apply div_lt_div_of_pos_right ht
        norm_num
      linarith
    have h2 : ((⌊t / 60⌋ : ℤ) : ℚ) + 1 < 2 ^ (53 : ℕ) := by
      have : (2 : ℚ) ^ (53 : ℕ) / 60 + 1 < 2 ^ (53 : ℕ) := by norm_num
      linarith
    have h3 : ((⌊t / 60⌋.toNat + 1 : ℕ) : ℚ) < ((2 ^ 53 : ℕ) : ℚ) := by
      push_cast
      rw [hcast]
      exact h2
    exact_mod_cast h3
  obtain ⟨y, hy, hylo, hyhi⟩ := toDouble_between (t / 60) ⌊t / 60⌋.toNat (⌊t / 60⌋.toNat + 1)
    (by rw [hcast]; exact hMle) (by push_cast; rw [hcast]; exact hMlt.le) hMsmall
  refine ⟨y, hy, ?_⟩
  rw [hcast] at hylo
  have hyeq := eq_of_toDouble_eq_fin hq0.le hy
  have hu : (0 : ℚ) < 2 ^ (binadeExponent (t / 60) - 52) := zpow_pos (by norm_num) _
  have hr1 := roundHalfEven_le (t / 60 / 2 ^ (binadeExponent (t / 60) - 52))
  -- the distance from the quotient to the next whole number exceeds half a unit
  have hgap : (2 : ℚ) ^ (binadeExponent (t / 60) - 52) / 2 < ((⌊t / 60⌋ : ℤ) : ℚ) + 1 - t / 60 := by
    by_cases hlog : Int.log 2 (t / 60) < -1022
    · have he : binadeExponent (t / 60) = -1022 := by
        unfold binadeExponent
        exact max_eq_right hlog.le
      have hq1 : t / 60 < (2 : ℚ) ^ (-1022 : ℤ) := by
        have h := Int.lt_zpow_succ_log_self (b := 2) (by norm_num) (t / 60)
        have h' : t / 60 < (2 : ℚ) ^ (Int.log 2 (t / 60) + 1) := by exact_mod_cast h
        refine lt_of_lt_of_le h' ?_
        apply zpow_le_zpow_right₀ (by norm_num)
        omega
      have hq2 : (2 : ℚ) ^ (-1022 : ℤ) ≤ 2 ^ (-1 : ℤ) :=
        zpow_le_zpow_right₀ (by norm_num) (by norm_num)
      have hu2 : (2 : ℚ) ^ (binadeExponent (t / 60) - 52) ≤ 2 ^ (-1 : ℤ) := by
        rw [he]
        exact zpow_le_zpow_right₀ (by norm_num) (by norm_num)
      have hM0q : (0 : ℚ) ≤ ((⌊t / 60⌋ : ℤ) : ℚ) := by exact_mod_cast hM0
      have hhalf : (2 : ℚ) ^ (-1 : ℤ) = 1 / 2 := by norm_num
      rw [hhalf] at hq2 hu2
      linarith
    · have hlog2 : -1022 ≤ Int.log 2 (t / 60) := by omega
      have he : binadeExponent (t / 60) = Int.log 2 (t / 60) := by
        unfold binadeExponent
        exact max_eq_left hlog2
      have hqge : (2 : ℚ) ^ (Int.log 2 (t / 60)) ≤ t / 60 := by
        have := Int.zpow_log_le_self (b := 2) (r := t / 60) (by norm_num) hq0
        exact_mod_cast this
      have htge : (2 : ℚ) ^ (Int.log 2 (t / 60) + 5) ≤ t := by
        rw [zpow_add₀ (by norm_num)]
        have h32 : (2 : ℚ) ^ (5 : ℤ) = 32 := by norm_num
        rw [h32]
        have : t = t / 60 * 60 := by field_simp
        have hpos : (0 : ℚ) < 2 ^ (Int.log 2 (t / 60)) := zpow_pos (by norm_num) _
        linarith
      have hlogt : Int.log 2 (t / 60) + 5 ≤ Int.log 2 t :=
        (Int.zpow_le_iff_le_log (b := 2) (by norm_num) htpos
          (x := Int.log 2 (t / 60) + 5)).mp (by exact_mod_cast htge)
      have het : Int.log 2 (t / 60) + 5 ≤ binadeExponent t := by
        unfold binadeExponent
        exact le_trans hlogt (le_max_left _ _)
      have het52 : binadeExponent t ≤ 52 := binadeExponent_le_of_lt htpos ht
      have hut : (0 : ℚ) < 2 ^ (binadeExponent t - 52) := zpow_pos (by norm_num) _
      obtain ⟨dt, hdt⟩ := unit_mul_pow_eq_one het52
      have hteq := eq_of_toDouble_eq_fin ht0 hd
      -- the distance from `t` to the next multiple of 60 is a positive multiple of the unit
      have hj : ((60 * (⌊t / 60⌋ + 1) * 2 ^ dt -
          roundHalfEven (t / 2 ^ (binadeExponent t - 52)) : ℤ) : ℚ) *
          2 ^ (binadeExponent t - 52) = 60 * (((⌊t / 60⌋ : ℤ) : ℚ) + 1) - t := by
        push_cast
        have : (60 * (((⌊t / 60⌋ : ℤ) : ℚ) + 1) * 2 ^ dt -
            (roundHalfEven (t / 2 ^ (binadeExponent t - 52)) : ℚ)) *
            2 ^ (binadeExponent t - 52) =
            60 * (((⌊t / 60⌋ : ℤ) : ℚ) + 1) * (2 ^ (binadeExponent t - 52) * 2 ^ dt) -
            (roundHalfEven (t / 2 ^ (binadeExponent t - 52)) : ℚ) *
              2 ^ (binadeExponent t - 52) := by ring
        rw [this, hdt, ← hteq]
        ring
      have hpos : (0 : ℚ) < 60 * (((⌊t / 60⌋ : ℤ) : ℚ) + 1) - t := by
        have : t = t / 60 * 60 := by field_simp
        linarith
      have hjpos : (0 : ℤ) < 60 * (⌊t / 60⌋ + 1) * 2 ^ dt -
          roundHalfEven (t / 2 ^ (binadeExponent t - 52)) := by
        rw [← hj] at hpos
        by_contra hcon
        have hle : ((60 * (⌊t / 60⌋ + 1) * 2 ^ dt -
            roundHalfEven (t / 2 ^ (binadeExponent t - 52)) : ℤ) : ℚ) ≤ 0 := by
          exact_mod_cast not_lt.mp hcon
        nlinarith
      have hj1 : (1 : ℚ) ≤ ((60 * (⌊t / 60⌋ + 1) * 2 ^ dt -
          roundHalfEven (t / 2 ^ (binadeExponent t - 52)) : ℤ) : ℚ) := by
        exact_mod_cast hjpos
      have hstep : (2 : ℚ) ^ (binadeExponent t - 52) ≤ 60 * (((⌊t / 60⌋ : ℤ) : ℚ) + 1) - t := by
        rw [← hj]
        nlinarith
      have hunit : (2 : ℚ) ^ (binadeExponent (t / 60) - 52) * 32 ≤
          2 ^ (binadeExponent t - 52) := by
        have h32 : (32 : ℚ) = 2 ^ (5 : ℤ) := by norm_num
        rw [h32, ← zpow_add₀ (by norm_num)]
        apply zpow_le_zpow_right₀ (by norm_num)
        rw [he]
        omega
      have : t = t / 60 * 60 := by field_simp
      linarith
  -- hence the rounded quotient stays below the next whole number
  have hylt : y < ((⌊t / 60⌋ : ℤ) : ℚ) + 1 := by
    rw [hyeq]
    have hxu : t / 60 / 2 ^ (binadeExponent (t / 60) - 52) *
        2 ^ (binadeExponent (t / 60) - 52) = t / 60 := div_mul_cancel₀ _ hu.ne'
    have : (roundHalfEven (t / 60 / 2 ^ (binadeExponent (t / 60) - 52)) : ℚ) *
        2 ^ (binadeExponent (t / 60) - 52) ≤
        t / 60 + 2 ^ (binadeExponent (t / 60) - 52) / 2 := by
      nlinarith
    linarith
  rw [Int.floor_eq_iff]
  exact ⟨hylo, hylt⟩

/-! ## Lemmas on characters and trimming -/

theorem isWhiteSpace_eq_false_of_isHexDigit {c : Char} (h : isHexDigit c = true) :
    isWhiteSpace c = false := by
  simp only [isHexDigit, Bool.or_eq_true, Bool.and_eq_true, decide_eq_true_eq] at h
  simp only [isWhiteSpace, isWhiteSpaceCode, Bool.or_eq_false_iff, beq_eq_false_iff_ne,
    Bool.and_eq_false_iff, decide_eq_false_iff_not]
  omega

theorem ne_paren_of_isHexDigit {c : Char} (h : isHexDigit c = true) : c ≠ '(' := by
  rintro rfl
  exact absurd h (by decide)

theorem trim_eq_self {s : JSString}
    (h1 : ∀ c, s.head? = some c → isWhiteSpace c = false)
    (h2 : ∀ c, s.getLast? = some c → isWhiteSpace c = false) : trim s = s := by
  cases s with
  | nil => rfl
  | cons c t =>
    have hc : isWhiteSpace c = false := h1 c rfl
    have hd : List.dropWhile isWhiteSpace (c :: t) = c :: t := by
      simp [List.dropWhile, hc]
    unfold trim
    rw [hd]
    cases hr : (c :: t).reverse with
    | nil => simp at hr
    | cons d r =>
      have hlast : (c :: t).getLast? = some d := by
        rw [← List.head?_reverse, hr]; rfl
      have hdw : isWhiteSpace d = false := h2 d hlast
      have : List.dropWhile isWhiteSpace (d :: r) = d :: r := by
        simp [List.dropWhile, hdw]
      rw [this, ← hr, List.reverse_reverse]

theorem trim_eq_self_of_all_hex {s : JSString} (h : s.all isHexDigit = true) :
    trim s = s := by
  rw [List.all_eq_true] at h
  apply trim_eq_self
  · intro c hc
    exact isWhiteSpace_eq_false_of_isHexDigit (h c (List.mem_of_mem_head? hc))
  · intro c hc
    exact isWhiteSpace_eq_false_of_isHexDigit (h c (List.mem_of_getLast?_eq_some hc))

theorem codeUnits_of_all_hex {s : JSString} (h : s.all isHexDigit = true) :
    codeUnits s = s.map Char.toNat := by
  induction s with
  | nil => rfl
  | cons c t ih =>
    simp only [List.all_cons, Bool.and_eq_true] at h
    have hc := h.1
    simp only [isHexDigit, Bool.or_eq_true, Bool.and_eq_true, decide_eq_true_eq] at hc
    have : c.toNat < 0x10000 := by omega
    simp [codeUnits, this, ih h.2]

theorem jsLength_of_all_hex {s : JSString} (h : s.all isHexDigit = true) :
    jsLength s = s.length := by
  simp [jsLength, codeUnits_of_all_hex h]

theorem parseStruct_eq_none_of_not_paren {s : JSString} (h : startsWith s ['('] = false) :
    parseStruct s = none := by
  simp [parseStruct, h]

theorem startsWith_paren_of_all_hex {s : JSString} (h : s.all isHexDigit = true) :
    startsWith s ['('] = false := by
  cases s with
  | nil => rfl
  | cons c t =>
    simp only [List.all_cons, Bool.and_eq_true] at h
    have := ne_paren_of_isHexDigit h.1
    simp [startsWith, List.isPrefixOf, this.symm]

/-- The string branch of `parseUnrealColor`, for a non-empty string. -/
theorem parseUnrealColor_str {s : JSString} (h : s ≠ []) :
    parseUnrealColor (.str s) =
      match parseStruct (trim s) with
      | some css => .ok css
      | none => .ok (hexOrPassThrough (trim s)) := by
  have : toBoolean (.str s) = true := by
    cases s with
    | nil => exact absurd rfl h
    | cons c t => rfl
  simp [parseUnrealColor, this, isObject]

theorem hexOrPassThrough_of_bareHex {s : JSString} (h : isBareHex s = true) :
    hexOrPassThrough s = '#' :: s := by
  simp only [isBareHex, Bool.and_eq_true] at h
  have hne : s ≠ [] := by
    rintro rfl
    simp at h
  simp only [hexOrPassThrough, isHex, jsLength_of_all_hex h.1, h.1, h.2, Bool.and_true]
  simp [hne]

theorem hexOrPassThrough_of_not_bareHex {s : JSString} (h : isBareHex s = false) :
    hexOrPassThrough s = s := by
  by_cases hall : s.all isHexDigit = true
  · have hlen : (s.length == 3 || s.length == 6 || s.length == 8) = false := by
      simpa [isBareHex, hall] using h
    simp [hexOrPassThrough, isHex, jsLength_of_all_hex hall, hlen]
  · have hall2 : s.all isHexDigit = false := by simpa using hall
    simp only [hexOrPassThrough, isHex, hall2]
    simp

theorem parseStruct_eq_none_of_not_struct {s : JSString} (h : isStructString s = false) :
    parseStruct s = none := by
  unfold parseStruct
  by_cases hp : (startsWith s ['('] && endsWith s [')']) = true
  · rw [if_pos hp]
    have hf : hasStructFields s = false := by
      simpa [isStructString, hp] using h
    unfold hasStructFields at hf
    cases hR : matchField 'R' s <;> cases hG : matchField 'G' s <;>
      cases hB : matchField 'B' s <;> simp_all
  · rw [if_neg hp]

/-! ## Claims on `parseUnrealColor` -/

/-- C1 (failing input).  On a string made of one space `parseUnrealColor`
returns the empty string, where the claim promises a result of length at least
1; the empty string itself, checked before trimming, gets the fallback
`"white"`. -/
theorem parseUnrealColor_whitespace_only :
    parseUnrealColor (.str " ".toList) = .ok [] ∧
      parseUnrealColor (.str "".toList) = .ok "white".toList := by
  decide

/-- C4.  A string of hexadecimal digits only, of length 3, 6 or 8, comes back
as `#` followed by the same digits; an all-hex-digit string of any other
length is not given the marker (and, unless empty, comes back unchanged). -/
theorem parseUnrealColor_bare_hex (s : JSString) (hall : s.all isHexDigit = true) :
    ((s.length = 3 ∨ s.length = 6 ∨ s.length = 8) →
        parseUnrealColor (.str s) = .ok ('#' :: s)) ∧
      (¬ (s.length = 3 ∨ s.length = 6 ∨ s.length = 8) →
        parseUnrealColor (.str s) ≠ .ok ('#' :: s) ∧
          (s ≠ [] → parseUnrealColor (.str s) = .ok s)) := by
  have hstruct : parseStruct s = none :=
    parseStruct_eq_none_of_not_paren (startsWith_paren_of_all_hex hall)
  constructor
  · intro hlen
    have hne : s ≠ [] := by
      rintro rfl
      simp at hlen
    have hb : isBareHex s = true := by
      simp only [isBareHex, hall, Bool.true_and]
      rcases hlen with h | h | h <;> simp [h]
    rw [parseUnrealColor_str hne, trim_eq_self_of_all_hex hall, hstruct]
    exact congrArg Except.ok (hexOrPassThrough_of_bareHex hb)
  · intro hlen
    have hb : isBareHex s = false := by
      simp only [isBareHex, hall, Bool.true_and]
      simp only [not_or] at hlen
      simp [hlen.1, hlen.2.1, hlen.2.2]
    have key : s ≠ [] → parseUnrealColor (.str s) = .ok s := by
      intro hne
      rw [parseUnrealColor_str hne, trim_eq_self_of_all_hex hall, hstruct]
      exact congrArg Except.ok (hexOrPassThrough_of_not_bareHex hb)
    refine ⟨?_, key⟩
    by_cases hne : s = []
    · subst hne
      decide
    · rw [key hne]
      intro h
      have := congrArg List.length (Except.ok.inj h)
      simp at this

/-- Witness for C4: the string `FF0000FF` of the specification. -/
theorem parseUnrealColor_bare_hex_witness :
    parseUnrealColor (.str "FF0000FF".toList) = .ok "#FF0000FF".toList :=
  (parseUnrealColor_bare_hex "FF0000FF".toList (by decide)).1 (by decide)

/-- C5 (counterexample).  The string ` red` is non-empty, is no struct string
and no bare hex string, and does not come back character for character: its
leading space is removed. -/
theorem passThrough_changes_padded_string :
    " red".toList ≠ [] ∧ isStructString " red".toList = false ∧
      isBareHex " red".toList = false ∧
      parseUnrealColor (.str " red".toList) = .ok "red".toList ∧
      parseUnrealColor (.str " red".toList) ≠ .ok " red".toList := by
  decide

/-- C5 (amended).  A string whose trimmed form is not empty and is neither a
parenthesised struct string with `R`, `G` and `B` fields nor an all-hex-digit
string of length 3, 6 or 8 comes back trimmed, and the result is not empty. -/
theorem parseUnrealColor_passThrough_trimmed (s : JSString) (hne : trim s ≠ [])
    (hstruct : isStructString (trim s) = false) (hhex : isBareHex (trim s) = false) :
    parseUnrealColor (.str s) = .ok (trim s) := by
  have hs : s ≠ [] := by
    rintro rfl
    exact hne rfl
  rw [parseUnrealColor_str hs, parseStruct_eq_none_of_not_struct hstruct]
  exact congrArg Except.ok (hexOrPassThrough_of_not_bareHex hhex)

/-- Witness for C5 (amended): ` red` comes back as `red`. -/
theorem parseUnrealColor_passThrough_trimmed_witness :
    parseUnrealColor (.str " red".toList) = .ok "red".toList :=
  parseUnrealColor_passThrough_trimmed " red".toList (by decide) (by decide) (by decide)

/-- C6.  The fallback `"white"` is the result for `null`, `undefined`, the
empty string, every number, every boolean, every array (it has no field `R`)
and every object that lacks at least one of the fields `R`, `G`, `B`. -/
theorem parseUnrealColor_fallback_white :
    parseUnrealColor .null = .ok "white".toList ∧
      parseUnrealColor .undefined = .ok "white".toList ∧
      parseUnrealColor (.str []) = .ok "white".toList ∧
      (∀ x : JSNum, parseUnrealColor (.num x) = .ok "white".toList) ∧
      (∀ b : Bool, parseUnrealColor (.bool b) = .ok "white".toList) ∧
      (∀ items : List JSValue, parseUnrealColor (.arr items) = .ok "white".toList) ∧
      (∀ fields : List (JSString × JSValue),
        (hasProperty ['R'] (.obj fields) = false ∨ hasProperty ['G'] (.obj fields) = false ∨
          hasProperty ['B'] (.obj fields) = false) →
        parseUnrealColor (.obj fields) = .ok "white".toList) := by
  refine ⟨by decide, by decide, by decide, ?_, ?_, ?_, ?_⟩
  · intro x
    unfold parseUnrealColor
    split
    · rfl
    · simp [isObject]
  · intro b
    unfold parseUnrealColor
    split
    · rfl
    · simp [isObject]
  · intro items
    simp [parseUnrealColor, toBoolean, isObject, hasProperty]
  · intro fields h
    have : (hasProperty ['R'] (.obj fields) && hasProperty ['G'] (.obj fields) &&
        hasProperty ['B'] (.obj fields)) = false := by
      rcases h with h | h | h <;> simp [h]
    simp only [parseUnrealColor, toBoolean, isObject, this]
    simp

/-- Witness for C6: the empty object `{}` and an object without `B`. -/
theorem parseUnrealColor_fallback_white_witness :
    parseUnrealColor (.obj []) = .ok "white".toList ∧
      parseUnrealColor (.obj [(['R'], .num (.fin 1)), (['G'], .num (.fin 0))]) =
        .ok "white".toList :=
  ⟨parseUnrealColor_fallback_white.2.2.2.2.2.2 [] (Or.inl (by decide)),
    parseUnrealColor_fallback_white.2.2.2.2.2.2 _ (Or.inr (Or.inr (by decide)))⟩

/-- C7.  A string that begins with `(` and ends with `)` but lacks a match for
one of `R=`, `G=`, `B=` is not turned into an rgba quadruple: the result is
what the bare-hex and pass-through rules give, which is the string itself. -/
theorem parseUnrealColor_struct_fallthrough (s : JSString)
    (h1 : startsWith s ['('] = true) (h2 : endsWith s [')'] = true)
    (h3 : hasStructFields s = false) :
    parseUnrealColor (.str s) = .ok (hexOrPassThrough s) ∧
      parseUnrealColor (.str s) = .ok s := by
  obtain ⟨t, rfl⟩ : ∃ t, s = '(' :: t := by
    cases s with
    | nil => simp [startsWith, List.isPrefixOf] at h1
    | cons c t =>
      refine ⟨t, ?_⟩
      simp [startsWith, List.isPrefixOf] at h1
      rw [h1]
  have hlast : ('(' :: t).getLast? = some ')' := by
    rw [← List.head?_reverse]
    cases hr : ('(' :: t).reverse with
    | nil => simp at hr
    | cons d r =>
      simp [endsWith, List.isPrefixOf, hr] at h2
      simp [← h2]
  have htrim : trim ('(' :: t) = '(' :: t := by
    apply trim_eq_self
    · intro c hc
      simp at hc
      subst hc
      decide
    · intro c hc
      rw [hlast] at hc
      simp at hc
      subst hc
      decide
  have hstruct : parseStruct ('(' :: t) = none :=
    parseStruct_eq_none_of_not_struct (by simp [isStructString, h3])
  have hpass : hexOrPassThrough ('(' :: t) = '(' :: t := by
    apply hexOrPassThrough_of_not_bareHex
    simp [isBareHex, List.all_cons, isHexDigit]
  have : parseUnrealColor (.str ('(' :: t)) = .ok (hexOrPassThrough ('(' :: t)) := by
    rw [parseUnrealColor_str (by simp), htrim, hstruct]
  exact ⟨this, this.trans (congrArg Except.ok hpass)⟩

/-- Witness for C7: the string `(R=1,G=0)` of the specification. -/
theorem parseUnrealColor_struct_fallthrough_witness :
    parseUnrealColor (.str "(R=1,G=0)".toList) = .ok "(R=1,G=0)".toList :=
  (parseUnrealColor_struct_fallthrough "(R=1,G=0)".toList (by decide) (by decide)
    (by decide)).2

/-! ## Lemmas on `parseInt` and hexadecimal bytes -/

theorem toNat_cases_of_isHexDigit {c : Char} (h : isHexDigit c = true) :
    (48 ≤ c.toNat ∧ c.toNat ≤ 57) ∨ (65 ≤ c.toNat ∧ c.toNat ≤ 70) ∨
      (97 ≤ c.toNat ∧ c.toNat ≤ 102) := by
  simpa [isHexDigit, or_assoc] using h

theorem parseIntCore_pair {m n : ℕ}
    (hm : (48 ≤ m ∧ m ≤ 57) ∨ (65 ≤ m ∧ m ≤ 70) ∨ (97 ≤ m ∧ m ≤ 102))
    (hn : (48 ≤ n ∧ n ≤ 57) ∨ (65 ≤ n ∧ n ≤ 70) ∨ (97 ≤ n ∧ n ≤ 102)) :
    parseIntCore [m, n] 16 = some ((16 * digitOf m + digitOf n : ℕ) : ℤ) := by
  have hw : isWhiteSpaceCode m = false := by
    simp only [isWhiteSpaceCode, Bool.or_eq_false_iff, beq_eq_false_iff_ne,
      Bool.and_eq_false_iff, decide_eq_false_iff_not]
    omega
  have hdm : isRadixDigit 16 m = true := by
    unfold isRadixDigit digitValue
    split_ifs
    all_goals first
      | (simp only [decide_eq_true_eq]; omega)
      | omega
  have hdn : isRadixDigit 16 n = true := by
    unfold isRadixDigit digitValue
    split_ifs
    all_goals first
      | (simp only [decide_eq_true_eq]; omega)
      | omega
  have h45 : m ≠ 45 := by omega
  have h43 : m ≠ 43 := by omega
  have hx : n ≠ 120 := by omega
  have hX : n ≠ 88 := by omega
  simp [parseIntCore, List.dropWhile, hw, h45, h43, hx, hX, List.takeWhile, hdm, hdn,
    numeralValue]
  ring

theorem hexDigitValue_le {c : Char} (h : isHexDigit c = true) : hexDigitValue c ≤ 15 := by
  have hc := toNat_cases_of_isHexDigit h
  unfold hexDigitValue digitOf digitValue
  split_ifs <;> simp only [Option.getD_some, Option.getD_none] <;> omega

theorem byteValue_le {a b : Char} (ha : isHexDigit a = true) (hb : isHexDigit b = true) :
    byteValue a b ≤ 255 := by
  have h1 := hexDigitValue_le ha
  have h2 := hexDigitValue_le hb
  unfold byteValue
  omega

/-- The call `parseInt` on two hexadecimal digits: the byte they write, which
is a binary64 number. -/
theorem parseInt_pair {a b : Char} (ha : isHexDigit a = true) (hb : isHexDigit b = true) :
    parseInt [a.toNat, b.toNat] 16 = .fin (byteValue a b : ℚ) := by
  have hle := byteValue_le ha hb
  have h := toDouble_natCast (byteValue a b) (by omega)
  simp only [parseInt,
    parseIntCore_pair (toNat_cases_of_isHexDigit ha) (toNat_cases_of_isHexDigit hb)]
  have e : (((16 * digitOf a.toNat + digitOf b.toNat : ℕ) : ℤ) : ℚ) = (byteValue a b : ℚ) := by
    simp [byteValue, hexDigitValue]
  rw [e]
  exact h

theorem hexByte_pair {a b : Char} (ha : isHexDigit a = true) (hb : isHexDigit b = true) :
    hexByte [a.toNat, b.toNat] = toDouble ((byteValue a b : ℚ) / 255) := by
  simp [hexByte, parseInt_pair ha hb, JSNum.div]

/-- The binary64 quotient of a byte by 255 is finite and within `2^(-53)` of
the fraction. -/
theorem toDouble_byte_quotient {a b : Char} (ha : isHexDigit a = true)
    (hb : isHexDigit b = true) :
    ∃ y : ℚ, toDouble ((byteValue a b : ℚ) / 255) = .fin y ∧
      |y - (byteValue a b : ℚ) / 255| ≤ 1 / 2 ^ (53 : ℕ) := by
  have hle : (byteValue a b : ℚ) ≤ 255 := by exact_mod_cast byteValue_le ha hb
  have h0 : (0 : ℚ) ≤ (byteValue a b : ℚ) / 255 := by positivity
  have h1 : (byteValue a b : ℚ) / 255 ≤ 1 := by
    rw [div_le_one (by norm_num)]
    exact hle
  obtain ⟨y, hy, -, herr⟩ := toDouble_abs_error _ 0 h0 (by
      have : (2 : ℚ) ^ ((0 : ℤ) + 1) = 2 := by norm_num
      rw [this]
      linarith) (by norm_num) (by norm_num)
  have e53 : (2 : ℚ) ^ ((0 : ℤ) - 53) = 1 / 2 ^ (53 : ℕ) := by norm_num
  rw [e53] at herr
  exact ⟨y, hy, herr⟩

/-- The string branch of `formatColorForUnreal`, for a non-empty string. -/
theorem formatColorForUnreal_str (c : Char) (t : JSString) :
    formatColorForUnreal (.str (c :: t)) = .ok (formatColorString (c :: t)) := by
  simp [formatColorForUnreal, toBoolean]

/-! ## Claims on `formatColorForUnreal` -/

/-- C8.  For `#` followed by exactly 6 hex digits the result is
`{R: r/255, G: g/255, B: b/255, A: 1}` with `r`, `g`, `b` the three byte pairs;
for `#` followed by exactly 8 hex digits it is the same with `A: a/255`, `a`
the fourth byte pair.  Each quotient is the number the operator `/` gives: the
binary64 number nearest to the fraction, which is finite and within `2^(-53)`
of it. -/
theorem formatColorForUnreal_hex6_hex8 (d1 d2 d3 d4 d5 d6 d7 d8 : Char)
    (h1 : isHexDigit d1 = true) (h2 : isHexDigit d2 = true) (h3 : isHexDigit d3 = true)
    (h4 : isHexDigit d4 = true) (h5 : isHexDigit d5 = true) (h6 : isHexDigit d6 = true)
    (h7 : isHexDigit d7 = true) (h8 : isHexDigit d8 = true) :
    formatColorForUnreal (.str ['#', d1, d2, d3, d4, d5, d6]) =
        .ok (colorObject (toDouble ((byteValue d1 d2 : ℚ) / 255))
          (toDouble ((byteValue d3 d4 : ℚ) / 255)) (toDouble ((byteValue d5 d6 : ℚ) / 255))
          (.fin 1)) ∧
      formatColorForUnreal (.str ['#', d1, d2, d3, d4, d5, d6, d7, d8]) =
        .ok (colorObject (toDouble ((byteValue d1 d2 : ℚ) / 255))
          (toDouble ((byteValue d3 d4 : ℚ) / 255)) (toDouble ((byteValue d5 d6 : ℚ) / 255))
          (toDouble ((byteValue d7 d8 : ℚ) / 255))) ∧
      (∀ hi lo : Char, isHexDigit hi = true → isHexDigit lo = true →
        ∃ y : ℚ, toDouble ((byteValue hi lo : ℚ) / 255) = .fin y ∧
          |y - (byteValue hi lo : ℚ) / 255| ≤ 1 / 2 ^ (53 : ℕ)) := by
  have hu6 : codeUnits [d1, d2, d3, d4, d5, d6] =
      [d1.toNat, d2.toNat, d3.toNat, d4.toNat, d5.toNat, d6.toNat] := by
    rw [codeUnits_of_all_hex (by simp [h1, h2, h3, h4, h5, h6])]
    rfl
  have hu8 : codeUnits [d1, d2, d3, d4, d5, d6, d7, d8] =
      [d1.toNat, d2.toNat, d3.toNat, d4.toNat, d5.toNat, d6.toNat, d7.toNat, d8.toNat] := by
    rw [codeUnits_of_all_hex (by simp [h1, h2, h3, h4, h5, h6, h7, h8])]
    rfl
  refine ⟨?_, ?_, fun hi lo hhi hlo => toDouble_byte_quotient hhi hlo⟩
  · rw [formatColorForUnreal_str]
    simp only [formatColorString, startsWith, List.isPrefixOf, List.drop_succ_cons,
      List.drop_zero, hu6]
    simp [hexByte_pair h1 h2, hexByte_pair h3 h4, hexByte_pair h5 h6]
  · rw [formatColorForUnreal_str]
    simp only [formatColorString, startsWith, List.isPrefixOf, List.drop_succ_cons,
      List.drop_zero, hu8]
    simp [hexByte_pair h1 h2, hexByte_pair h3 h4, hexByte_pair h5 h6, hexByte_pair h7 h8]

/-- Witness for C8: `#FF8000` and `#FF800033`. -/
theorem formatColorForUnreal_hex6_hex8_witness :
    formatColorForUnreal (.str "#FF8000".toList) =
        .ok (colorObject (toDouble ((byteValue 'F' 'F' : ℚ) / 255))
          (toDouble ((byteValue '8' '0' : ℚ) / 255)) (toDouble ((byteValue '0' '0' : ℚ) / 255))
          (.fin 1)) ∧
      formatColorForUnreal (.str "#FF800033".toList) =
        .ok (colorObject (toDouble ((byteValue 'F' 'F' : ℚ) / 255))
          (toDouble ((byteValue '8' '0' : ℚ) / 255)) (toDouble ((byteValue '0' '0' : ℚ) / 255))
          (toDouble ((byteValue '3' '3' : ℚ) / 255))) :=
  ⟨(formatColorForUnreal_hex6_hex8 'F' 'F' '8' '0' '0' '0' '3' '3' (by decide) (by decide)
      (by decide) (by decide) (by decide) (by decide) (by decide) (by decide)).1,
    (formatColorForUnreal_hex6_hex8 'F' 'F' '8' '0' '0' '0' '3' '3' (by decide) (by decide)
      (by decide) (by decide) (by decide) (by decide) (by decide) (by decide)).2.1⟩

/-- The bytes of the witnesses, evaluated. -/
theorem byteValue_examples :
    byteValue 'F' 'F' = 255 ∧ byteValue '8' '0' = 128 ∧ byteValue '0' '0' = 0 ∧
      byteValue '3' '3' = 51 ∧ byteValue 'A' 'A' = 170 ∧ byteValue 'B' 'B' = 187 ∧
      byteValue 'C' 'C' = 204 ∧ byteValue 'a' 'b' = 171 := by
  decide

/-- C9.  Shorthand `#xyz` gives the same result as `#xxyyzz`: each digit is
doubled and the result is that of the 6-digit case, alpha 1. -/
theorem formatColorForUnreal_shorthand (x y z : Char) (hx : isHexDigit x = true)
    (hy : isHexDigit y = true) (hz : isHexDigit z = true) :
    formatColorForUnreal (.str ['#', x, y, z]) =
        formatColorForUnreal (.str ['#', x, x, y, y, z, z]) ∧
      formatColorForUnreal (.str ['#', x, y, z]) =
        .ok (colorObject (toDouble ((byteValue x x : ℚ) / 255))
          (toDouble ((byteValue y y : ℚ) / 255)) (toDouble ((byteValue z z : ℚ) / 255))
          (.fin 1)) := by
  have h3 : formatColorForUnreal (.str ['#', x, y, z]) =
      .ok (colorObject (toDouble ((byteValue x x : ℚ) / 255))
        (toDouble ((byteValue y y : ℚ) / 255)) (toDouble ((byteValue z z : ℚ) / 255))
        (.fin 1)) := by
    have hu : codeUnits [x, y, z] = [x.toNat, y.toNat, z.toNat] := by
      rw [codeUnits_of_all_hex (by simp [hx, hy, hz])]
      rfl
    rw [formatColorForUnreal_str]
    simp only [formatColorString, startsWith, List.isPrefixOf, List.drop_succ_cons,
      List.drop_zero, hu]
    simp [hexByte_pair hx hx, hexByte_pair hy hy, hexByte_pair hz hz]
  have h6 : formatColorForUnreal (.str ['#', x, x, y, y, z, z]) =
      .ok (colorObject (toDouble ((byteValue x x : ℚ) / 255))
        (toDouble ((byteValue y y : ℚ) / 255)) (toDouble ((byteValue z z : ℚ) / 255))
        (.fin 1)) := by
    have hu : codeUnits [x, x, y, y, z, z] =
        [x.toNat, x.toNat, y.toNat, y.toNat, z.toNat, z.toNat] := by
      rw [codeUnits_of_all_hex (by simp [hx, hy, hz])]
      rfl
    rw [formatColorForUnreal_str]
    simp only [formatColorString, startsWith, List.isPrefixOf, List.drop_succ_cons,
      List.drop_zero, hu]
    simp [hexByte_pair hx hx, hexByte_pair hy hy, hexByte_pair hz hz]
  exact ⟨h3.trans h6.symm, h3⟩

/-- Witness for C9: `#f0a` and `#ff00aa`. -/
theorem formatColorForUnreal_shorthand_witness :
    formatColorForUnreal (.str "#f0a".toList) =
      formatColorForUnreal (.str "#ff00aa".toList) :=
  (formatColorForUnreal_shorthand 'f' '0' 'a' (by decide) (by decide) (by decide)).1

/-- The colour `#ABC`, evaluated: the bytes are `AA` = 170, `BB` = 187 and
`CC` = 204. -/
theorem formatColorString_ABC :
    formatColorString "#ABC".toList =
      colorObject (toDouble (170 / 255)) (toDouble (187 / 255)) (toDouble (204 / 255))
        (.fin 1) := by
  have hA : hexByte [65, 65] = toDouble (170 / 255) := by
    have := @hexByte_pair 'A' 'A' (by decide) (by decide)
    have hv : byteValue 'A' 'A' = 170 := by decide
    rw [hv] at this
    simpa using this
  have hB : hexByte [66, 66] = toDouble (187 / 255) := by
    have := @hexByte_pair 'B' 'B' (by decide) (by decide)
    have hv : byteValue 'B' 'B' = 187 := by decide
    rw [hv] at this
    simpa using this
  have hC : hexByte [67, 67] = toDouble (204 / 255) := by
    have := @hexByte_pair 'C' 'C' (by decide) (by decide)
    have hv : byteValue 'C' 'C' = 204 := by decide
    rw [hv] at this
    simpa using this
  have hu : codeUnits "ABC".toList = [65, 66, 67] := by decide
  have hs : startsWith "#ABC".toList ['#'] = true := by decide
  have hd : List.drop 1 "#ABC".toList = "ABC".toList := by decide
  simp only [formatColorString, hs, hd, hu, if_true]
  simp [hA, hB, hC]

/-- Two fractions below 1 that are more than `2^(-53)` apart are rounded to
different binary64 numbers. -/
theorem toDouble_ne_of_apart (x y : ℚ) (hx0 : 0 ≤ x) (hx1 : x < 1) (hy0 : 0 ≤ y) (hy1 : y < 1)
    (h : 1 / 2 ^ (53 : ℕ) < |x - y|) : toDouble x ≠ toDouble y := by
  obtain ⟨a, ha, -, hae⟩ := toDouble_abs_error x (-1) hx0 (by simpa using hx1) (by norm_num)
    (by norm_num)
  obtain ⟨b, hb, -, hbe⟩ := toDouble_abs_error y (-1) hy0 (by simpa using hy1) (by norm_num)
    (by norm_num)
  rw [ha, hb]
  intro hab
  injection hab with hab
  subst hab
  have e : (2 : ℚ) ^ ((-1 : ℤ) - 53) = 1 / 2 ^ (54 : ℕ) := by norm_num
  rw [e] at hae hbe
  have h2 : |x - y| ≤ |a - x| + |a - y| := by
    have := abs_sub_le x a y
    rw [abs_sub_comm x a] at this
    exact this
  have h3 : (1 : ℚ) / 2 ^ (54 : ℕ) + 1 / 2 ^ (54 : ℕ) = 1 / 2 ^ (53 : ℕ) := by norm_num
  linarith

/-- C10 (counterexample).  The green channel of `#ABC` is not `170/255`: the
result differs from `{R: 170/255, G: 170/255, B: 204/255, A: 1}`. -/
theorem formatColorForUnreal_ABC_green_not_170 :
    formatColorForUnreal (.str "#ABC".toList) ≠
      .ok (colorObject (toDouble (170 / 255)) (toDouble (170 / 255)) (toDouble (204 / 255))
        (.fin 1)) := by
  have h : formatColorForUnreal (.str "#ABC".toList) =
      .ok (formatColorString "#ABC".toList) := formatColorForUnreal_str _ _
  rw [h, formatColorString_ABC]
  intro hEq
  have hne := toDouble_ne_of_apart (187 / 255) (170 / 255) (by norm_num) (by norm_num)
    (by norm_num) (by norm_num) (by
      rw [abs_of_pos (by norm_num)]
      norm_num)
  apply hne
  simp only [colorObject, Except.ok.injEq, JSValue.obj.injEq, List.cons.injEq, Prod.mk.injEq,
    JSValue.num.injEq, true_and, and_true] at hEq
  exact hEq

/-- C10 (amended).  `formatColorForUnreal("#ABC")` is
`{R: 170/255, G: 187/255, B: 204/255, A: 1}`, each quotient being the binary64
number nearest to the fraction: 0.6666666666666666, 0.7333333333333333 and 0.8
as the runtime prints them, here as the fractions of `2^53` they are. -/
theorem formatColorForUnreal_ABC :
    formatColorForUnreal (.str "#ABC".toList) =
        .ok (colorObject (toDouble (170 / 255)) (toDouble (187 / 255)) (toDouble (204 / 255))
          (.fin 1)) ∧
      toDouble (170 / 255) = .fin (6004799503160661 / 9007199254740992) ∧
      toDouble (187 / 255) = .fin (6605279453476727 / 9007199254740992) ∧
      toDouble (204 / 255) = .fin (7205759403792794 / 9007199254740992) := by
  have h : formatColorForUnreal (.str "#ABC".toList) =
      .ok (formatColorString "#ABC".toList) := formatColorForUnreal_str _ _
  refine ⟨by rw [h, formatColorString_ABC], ?_, ?_, ?_⟩
  · rw [toDouble_eq_of_bounds _ (-1) 6004799503160661 (by norm_num) (by norm_num)
      (by norm_num) (by norm_num) (by norm_num) (by norm_num) (by norm_num)]
    norm_num
  · rw [toDouble_eq_of_bounds _ (-1) 6605279453476727 (by norm_num) (by norm_num)
      (by norm_num) (by norm_num) (by norm_num) (by norm_num) (by norm_num)]
    norm_num
  · rw [toDouble_eq_of_bounds _ (-1) 7205759403792794 (by norm_num) (by norm_num)
      (by norm_num) (by norm_num) (by norm_num) (by norm_num) (by norm_num)]
    norm_num

/-! ## Lemmas on the channels of the object form -/

/-- Rounding a finite number to the integer `⌊q + 1/2⌋`. -/
theorem round_fin (q : ℚ) : (JSNum.fin q).round = .fin ((⌊q + 1 / 2⌋ : ℤ) : ℚ) := rfl

/-- A numeric channel of the object form: the product with 255 is rounded to
binary64, then to the nearest integer. -/
theorem channelOfValue_num (q : ℚ) :
    channelOfValue (.num (.fin q)) = .ok (toDouble (q * 255)).round := by
  by_cases h : q = 0
  · subst h
    simp [channelOfValue, orElse, toBoolean, toNumber, JSNum.mul]
  · simp [channelOfValue, orElse, toBoolean, toNumber, JSNum.mul, h]

/-- A channel in `[0,1]`: the binary64 product `p` with 255 is within `2^(-46)`
of the exact product, and the channel prints as the digits of the byte
nearest to `p` (a half goes up). -/
theorem channel_byte (q : ℚ) (h0 : 0 ≤ q) (h1 : q ≤ 1) :
    ∃ (r : ℕ) (p : ℚ), toDouble (q * 255) = .fin p ∧
      channelOfValue (.num (.fin q)) = .ok (.fin (r : ℚ)) ∧
      numberToString (.fin (r : ℚ)) = Nat.toDigits 10 r ∧
      r ≤ 255 ∧ |p - 255 * q| ≤ 1 / 2 ^ (46 : ℕ) ∧ p - 1 / 2 < (r : ℚ) ∧ (r : ℚ) ≤ p + 1 / 2 := by
  have hx0 : (0 : ℚ) ≤ q * 255 := mul_nonneg h0 (by norm_num)
  obtain ⟨p, hp, hp0, hp255⟩ := toDouble_between (q * 255) 0 255 (by simpa using hx0)
    (by push_cast; linarith) (by norm_num)
  obtain ⟨p', hp', -, herr⟩ := toDouble_abs_error (q * 255) 7 hx0
    (by
      have : (2 : ℚ) ^ ((7 : ℤ) + 1) = 256 := by norm_num
      rw [this]
      linarith) (by norm_num) (by norm_num)
  have hpp : p' = p := by
    rw [hp] at hp'
    injection hp' with h
    exact h.symm
  subst hpp
  simp only [Nat.cast_zero, Nat.cast_ofNat] at hp0 hp255
  have hnonneg : 0 ≤ ⌊p' + 1 / 2⌋ := by
    apply Int.floor_nonneg.mpr
    linarith
  have hle : ⌊p' + 1 / 2⌋ ≤ 255 := by
    have : p' + 1 / 2 < ((256 : ℤ) : ℚ) := by
      push_cast
      linarith
    have := Int.floor_lt.mpr this
    omega
  have hcast : ((⌊p' + 1 / 2⌋.toNat : ℕ) : ℚ) = ((⌊p' + 1 / 2⌋ : ℤ) : ℚ) := by
    have : ((⌊p' + 1 / 2⌋.toNat : ℕ) : ℤ) = ⌊p' + 1 / 2⌋ := Int.toNat_of_nonneg hnonneg
    exact_mod_cast this
  have hr255 : ⌊p' + 1 / 2⌋.toNat ≤ 255 := by omega
  refine ⟨⌊p' + 1 / 2⌋.toNat, p', hp, ?_, ?_, hr255, ?_, ?_, ?_⟩
  · rw [channelOfValue_num, hp, round_fin, hcast]
  · exact numberToString_natCast _ (by omega)
  · have e : (2 : ℚ) ^ ((7 : ℤ) - 53) = 1 / 2 ^ (46 : ℕ) := by norm_num
    rw [e, mul_comm] at herr
    exact herr
  · rw [hcast]
    have := Int.lt_floor_add_one (p' + 1 / 2)
    linarith
  · rw [hcast]
    have := Int.floor_le (p' + 1 / 2)
    linarith

theorem hasProperty_of_getProperty {key : JSString} {fields : List (JSString × JSValue)}
    (h : getProperty key (.obj fields) ≠ .undefined) :
    hasProperty key (.obj fields) = true := by
  by_contra hn
  apply h
  have hn2 : hasProperty key (.obj fields) = false := by simpa using hn
  simp only [hasProperty, List.any_eq_false] at hn2
  have : fields.find? (fun f => f.1 == key) = none := by
    rw [List.find?_eq_none]
    intro x hx
    exact hn2 x hx
  simp [getProperty, this]

theorem getProperty_of_not_hasProperty {key : JSString} {fields : List (JSString × JSValue)}
    (h : hasProperty key (.obj fields) = false) :
    getProperty key (.obj fields) = .undefined := by
  by_contra hn
  rw [hasProperty_of_getProperty hn] at h
  exact absurd h (by decide)

theorem isDefined_of_ne {v : JSValue} (h : v ≠ .undefined) : isDefined v = true := by
  cases v <;> first | rfl | exact absurd rfl h

/-- The object form, from the three channels and the text of the alpha. -/
theorem parseUnrealColor_of_channels (fields : List (JSString × JSValue)) (r g b : JSNum)
    (hasR : hasProperty ['R'] (.obj fields) = true)
    (hasG : hasProperty ['G'] (.obj fields) = true)
    (hasB : hasProperty ['B'] (.obj fields) = true)
    (hr : channelOfValue (getProperty ['R'] (.obj fields)) = .ok r)
    (hg : channelOfValue (getProperty ['G'] (.obj fields)) = .ok g)
    (hb : channelOfValue (getProperty ['B'] (.obj fields)) = .ok b) :
    parseUnrealColor (.obj fields) =
      match toStringJS (if isDefined (getProperty ['A'] (.obj fields)) then
          getProperty ['A'] (.obj fields) else .num (.fin 1)) with
      | .error e => .error e
      | .ok a => .ok (rgbaString (numberToString r) (numberToString g) (numberToString b) a) := by
  simp only [parseUnrealColor, toBoolean, isObject, hasR, hasG, hasB, parseObject, hr, hg, hb]
  simp only [Bool.not_true, Bool.and_self, if_true]
  rfl

/-! ## Claims on the object form of `parseUnrealColor` -/

/-- C2 (counterexample).  The channel `R = 0.503921568627451` (a binary64
number, here as the fraction it is) lies in `[0,1]` and 255 times it is less
than 128.5, so the integer nearest to 255 times the channel is 128; the
result has 129, because the product is rounded to the binary64 number 128.5
before `Math.round`. -/
theorem parseUnrealColor_object_rounds_product :
    toDouble (141841311793409 / 281474976710656) =
        .fin (141841311793409 / 281474976710656) ∧
      (0 : ℚ) ≤ 141841311793409 / 281474976710656 ∧
      (141841311793409 / 281474976710656 : ℚ) ≤ 1 ∧
      |255 * (141841311793409 / 281474976710656 : ℚ) - 128| < 1 / 2 ∧
      parseUnrealColor (.obj [(['R'], .num (.fin (141841311793409 / 281474976710656))),
        (['G'], .num (.fin 0)), (['B'], .num (.fin 0))]) = .ok "rgba(129, 0, 0, 1)".toList := by
  refine ⟨?_, by norm_num, by norm_num, ?_, ?_⟩
  · have h := toDouble_mul_zpow 141841311793409 (-48) (by norm_num) (by norm_num) (by norm_num)
    have e : ((141841311793409 : ℕ) : ℚ) * 2 ^ (-48 : ℤ) =
        141841311793409 / 281474976710656 := by norm_num
    rw [e] at h
    exact h
  · rw [abs_lt]
    constructor <;> norm_num
  · have hprod : toDouble (141841311793409 / 281474976710656 * 255) = .fin (257 / 2) := by
      rw [toDouble_eq_of_bounds _ 7 4521191813414912 (by norm_num) (by norm_num) (by norm_num)
        (by norm_num) (by norm_num) (by norm_num) (by norm_num)]
      norm_num
    have hR : channelOfValue (.num (.fin (141841311793409 / 281474976710656))) =
        .ok (.fin ((129 : ℕ) : ℚ)) := by
      rw [channelOfValue_num, hprod, round_fin]
      norm_num
    have hZ : channelOfValue (.num (.fin 0)) = .ok (.fin ((0 : ℕ) : ℚ)) := by
      rw [channelOfValue_num, zero_mul, toDouble_zero, round_fin]
      norm_num
    rw [parseUnrealColor_of_channels
      [(['R'], .num (.fin (141841311793409 / 281474976710656))),
        (['G'], .num (.fin 0)), (['B'], .num (.fin 0))] (.fin ((129 : ℕ) : ℚ))
      (.fin ((0 : ℕ) : ℚ)) (.fin ((0 : ℕ) : ℚ)) (by decide) (by decide) (by decide) hR hZ hZ]
    have hA : getProperty ['A'] (.obj [(['R'], .num (.fin (141841311793409 / 281474976710656))),
        (['G'], .num (.fin 0)), (['B'], .num (.fin 0))]) = .undefined := by
      apply getProperty_of_not_hasProperty
      decide
    rw [hA]
    simp only [isDefined, Bool.false_eq_true, if_false, toStringJS, numberToString_one,
      numberToString_natCast 129 (by norm_num), numberToString_natCast 0 (by norm_num)]
    decide

/-- C2 (amended).  For an object whose fields `R`, `G`, `B` are numbers in
`[0,1]`, each channel of the result is a whole number of `[0,255]`: the integer
nearest (a half going up) to the binary64 product `p` of the field with 255,
which is within `2^(-46)` of the exact product.  The alpha is the text of the
field `A`, unscaled (for a number, its digits), or `1` when `A` is absent; when
the field `A` cannot be converted to a string, the call throws. -/
theorem parseUnrealColor_object (fields : List (JSString × JSValue)) (R G B : ℚ)
    (hR : getProperty ['R'] (.obj fields) = .num (.fin R))
    (hG : getProperty ['G'] (.obj fields) = .num (.fin G))
    (hB : getProperty ['B'] (.obj fields) = .num (.fin B))
    (hR01 : 0 ≤ R ∧ R ≤ 1) (hG01 : 0 ≤ G ∧ G ≤ 1) (hB01 : 0 ≤ B ∧ B ≤ 1) :
    ∃ (r g b : ℕ) (pR pG pB : ℚ),
      (r ≤ 255 ∧ g ≤ 255 ∧ b ≤ 255) ∧
      (JSNum.mul (.fin R) (.fin 255) = .fin pR ∧ |pR - 255 * R| ≤ 1 / 2 ^ (46 : ℕ) ∧
        pR - 1 / 2 < (r : ℚ) ∧ (r : ℚ) ≤ pR + 1 / 2) ∧
      (JSNum.mul (.fin G) (.fin 255) = .fin pG ∧ |pG - 255 * G| ≤ 1 / 2 ^ (46 : ℕ) ∧
        pG - 1 / 2 < (g : ℚ) ∧ (g : ℚ) ≤ pG + 1 / 2) ∧
      (JSNum.mul (.fin B) (.fin 255) = .fin pB ∧ |pB - 255 * B| ≤ 1 / 2 ^ (46 : ℕ) ∧
        pB - 1 / 2 < (b : ℚ) ∧ (b : ℚ) ≤ pB + 1 / 2) ∧
      (hasProperty ['A'] (.obj fields) = false →
        parseUnrealColor (.obj fields) = .ok (rgbaString (Nat.toDigits 10 r)
          (Nat.toDigits 10 g) (Nat.toDigits 10 b) ['1'])) ∧
      (∀ x : JSNum, getProperty ['A'] (.obj fields) = .num x →
        parseUnrealColor (.obj fields) = .ok (rgbaString (Nat.toDigits 10 r)
          (Nat.toDigits 10 g) (Nat.toDigits 10 b) (numberToString x))) ∧
      (∀ a : JSString, getProperty ['A'] (.obj fields) ≠ .undefined →
        toStringJS (getProperty ['A'] (.obj fields)) = .ok a →
        parseUnrealColor (.obj fields) = .ok (rgbaString (Nat.toDigits 10 r)
          (Nat.toDigits 10 g) (Nat.toDigits 10 b) a)) ∧
      (∀ e : JSError, toStringJS (getProperty ['A'] (.obj fields)) = .error e →
        parseUnrealColor (.obj fields) = .error e) := by
  obtain ⟨r, pR, hpR, hr, hrs, hr255, hRerr, hrlo, hrhi⟩ := channel_byte R hR01.1 hR01.2
  obtain ⟨g, pG, hpG, hg, hgs, hg255, hGerr, hglo, hghi⟩ := channel_byte G hG01.1 hG01.2
  obtain ⟨b, pB, hpB, hb, hbs, hb255, hBerr, hblo, hbhi⟩ := channel_byte B hB01.1 hB01.2
  have hasR : hasProperty ['R'] (.obj fields) = true :=
    hasProperty_of_getProperty (by rw [hR]; exact fun h => by cases h)
  have hasG : hasProperty ['G'] (.obj fields) = true :=
    hasProperty_of_getProperty (by rw [hG]; exact fun h => by cases h)
  have hasB : hasProperty ['B'] (.obj fields) = true :=
    hasProperty_of_getProperty (by rw [hB]; exact fun h => by cases h)
  have key := parseUnrealColor_of_channels fields _ _ _ hasR hasG hasB
    (by rw [hR]; exact hr) (by rw [hG]; exact hg) (by rw [hB]; exact hb)
  rw [hrs, hgs, hbs] at key
  have hdef : ∀ a : JSString, getProperty ['A'] (.obj fields) ≠ .undefined →
      toStringJS (getProperty ['A'] (.obj fields)) = .ok a →
      parseUnrealColor (.obj fields) = .ok (rgbaString (Nat.toDigits 10 r)
        (Nat.toDigits 10 g) (Nat.toDigits 10 b) a) := by
    intro a hne ha
    rw [key, isDefined_of_ne hne, if_pos rfl, ha]
  refine ⟨r, g, b, pR, pG, pB, ⟨hr255, hg255, hb255⟩, ⟨hpR, hRerr, hrlo, hrhi⟩,
    ⟨hpG, hGerr, hglo, hghi⟩, ⟨hpB, hBerr, hblo, hbhi⟩, ?_, ?_, hdef, ?_⟩
  · intro hA
    rw [key, getProperty_of_not_hasProperty hA]
    simp only [isDefined, Bool.false_eq_true, if_false, toStringJS, numberToString_one]
    rfl
  · intro x hx
    apply hdef
    · rw [hx]
      exact fun h => by cases h
    · rw [hx]
      rfl
  · intro e he
    have hne : getProperty ['A'] (.obj fields) ≠ .undefined := by
      intro h
      rw [h] at he
      cases he
    rw [key, isDefined_of_ne hne, if_pos rfl, he]

/-- Witness for C2 (amended): `{R: 0.5, G: 0, B: 1, A: 0.5}` gives
`rgba(128, 0, 255, 0.5)`; the half goes up to 128 and the alpha is not
scaled. -/
theorem parseUnrealColor_object_witness :
    parseUnrealColor (.obj [(['R'], .num (.fin (1 / 2))), (['G'], .num (.fin 0)),
      (['B'], .num (.fin 1)), (['A'], .num (.fin (1 / 2)))]) =
        .ok "rgba(128, 0, 255, 0.5)".toList := by
  obtain ⟨r, g, b, pR, pG, pB, _, ⟨hRm, _, hr1, hr2⟩, ⟨hGm, _, hg1, hg2⟩, ⟨hBm, _, hb1, hb2⟩,
      _, hA, _⟩ :=
    parseUnrealColor_object
      [(['R'], .num (.fin (1 / 2))), (['G'], .num (.fin 0)), (['B'], .num (.fin 1)),
        (['A'], .num (.fin (1 / 2)))]
      (1 / 2) 0 1 rfl rfl rfl (by norm_num) (by norm_num) (by norm_num)
  have hpR : pR = 255 / 2 := by
    have h : JSNum.mul (.fin (1 / 2)) (.fin 255) = .fin (255 / 2) := by
      show toDouble (1 / 2 * 255) = _
      have h2 := toDouble_mul_zpow 255 (-1) (by norm_num) (by norm_num) (by norm_num)
      have e : ((255 : ℕ) : ℚ) * 2 ^ (-1 : ℤ) = 1 / 2 * 255 := by norm_num
      rw [e] at h2
      rw [h2]
      norm_num
    rw [h] at hRm
    injection hRm with h3
    exact h3.symm
  have hpG : pG = 0 := by
    have h : JSNum.mul (.fin 0) (.fin 255) = .fin 0 := by
      show toDouble (0 * 255) = _
      rw [zero_mul]
      exact toDouble_zero
    rw [h] at hGm
    injection hGm with h3
    exact h3.symm
  have hpB : pB = 255 := by
    have h : JSNum.mul (.fin 1) (.fin 255) = .fin 255 := by
      show toDouble (1 * 255) = _
      rw [one_mul]
      have h2 := toDouble_natCast 255 (by norm_num)
      simpa using h2
    rw [h] at hBm
    injection hBm with h3
    exact h3.symm
  subst hpR hpG hpB
  have hr' : r = 128 := by
    have h1 : (127 : ℚ) < r := by linarith
    have h2 : (r : ℚ) ≤ 128 := by linarith
    have h1' : 127 < r := by exact_mod_cast h1
    have h2' : r ≤ 128 := by exact_mod_cast h2
    omega
  have hg' : g = 0 := by
    have h2 : (g : ℚ) < 1 := by linarith
    have : g < 1 := by exact_mod_cast h2
    omega
  have hb' : b = 255 := by
    have h1 : (254 : ℚ) < b := by linarith
    have h2 : (b : ℚ) < 256 := by linarith
    have h1' : 254 < b := by exact_mod_cast h1
    have h2' : b < 256 := by exact_mod_cast h2
    omega
  rw [hA (.fin (1 / 2)) rfl, hr', hg', hb', numberToString_half]
  decide

/-! ## Lemmas on decimal literals and the field patterns -/

theorem isNumChar_of_isDecimalDigit {c : Char} (h : isDecimalDigit c = true) :
    isNumChar c = true := by
  simp [isNumChar, h]

theorem isWhiteSpace_eq_false_of_isNumChar {c : Char} (h : isNumChar c = true) :
    isWhiteSpace c = false := by
  simp only [isNumChar, isDecimalDigit, Bool.or_eq_true, Bool.and_eq_true, decide_eq_true_eq,
    beq_iff_eq] at h
  rcases h with h | h
  · simp only [isWhiteSpace, isWhiteSpaceCode, Bool.or_eq_false_iff, beq_eq_false_iff_ne,
      Bool.and_eq_false_iff, decide_eq_false_iff_not]
    omega
  · subst h
    decide

theorem DecimalLiteral.text_all_numChar (d : DecimalLiteral) :
    ∀ c ∈ d.text, isNumChar c = true := by
  have hi := d.intDigits_ok
  have hf := d.fraction_ok
  rw [List.all_eq_true] at hi hf
  intro c hc
  unfold DecimalLiteral.text at hc
  cases hfr : d.fraction with
  | none =>
    rw [hfr] at hc
    exact isNumChar_of_isDecimalDigit (hi c hc)
  | some f =>
    rw [hfr] at hc hf
    simp only [List.mem_append, List.mem_cons] at hc
    rcases hc with hc | hc | hc
    · exact isNumChar_of_isDecimalDigit (hi c hc)
    · subst hc
      decide
    · exact isNumChar_of_isDecimalDigit (hf c hc)

theorem DecimalLiteral.text_ne_nil (d : DecimalLiteral) : d.text ≠ [] := by
  have hd := d.has_digit
  unfold DecimalLiteral.text
  cases hfr : d.fraction with
  | none =>
    rw [hfr] at hd
    simpa using hd
  | some f => simp

theorem decimalParts_text (d : DecimalLiteral) :
    decimalParts d.text =
      some (numeralValue 10 ((d.intDigits ++ d.fraction.getD []).map Char.toNat),
        -(((d.fraction.getD []).length : ℕ) : ℤ), []) := by
  have hi := d.intDigits_ok
  have hf := d.fraction_ok
  have hd := d.has_digit
  rw [List.all_eq_true] at hi hf
  unfold DecimalLiteral.text
  cases hfr : d.fraction with
  | none =>
    rw [hfr] at hd
    have hne : d.intDigits ≠ [] := by simpa using hd
    have ht : List.takeWhile isDecimalDigit d.intDigits = d.intDigits := by
      have := @List.takeWhile_append_of_pos _ isDecimalDigit d.intDigits [] hi
      simpa using this
    have hdr : List.dropWhile isDecimalDigit d.intDigits = [] := by
      have := @List.dropWhile_append_of_pos _ isDecimalDigit d.intDigits [] hi
      simpa using this
    simp [decimalParts, ht, hdr, hne, exponentPart]
  | some f =>
    rw [hfr] at hf hd
    simp only [Option.getD_some] at hf hd
    have hdot : isDecimalDigit '.' = false := by decide
    have ht : List.takeWhile isDecimalDigit (d.intDigits ++ '.' :: f) = d.intDigits := by
      rw [List.takeWhile_append_of_pos hi]
      simp [List.takeWhile, hdot]
    have hdr : List.dropWhile isDecimalDigit (d.intDigits ++ '.' :: f) = '.' :: f := by
      rw [List.dropWhile_append_of_pos hi]
      simp [List.dropWhile, hdot]
    have htf : List.takeWhile isDecimalDigit f = f := by
      have := @List.takeWhile_append_of_pos _ isDecimalDigit f [] hf
      simpa using this
    have hdf : List.dropWhile isDecimalDigit f = [] := by
      have := @List.dropWhile_append_of_pos _ isDecimalDigit f [] hf
      simpa using this
    have hne : ¬ (d.intDigits = [] ∧ f = []) := by
      intro h
      apply hd
      simp [h.1, h.2]
    simp only [decimalParts, ht, hdr, htf, hdf, exponentPart, Option.getD_some]
    simp [hne]

/-- The function `parseFloat` reads a decimal literal as the binary64 number
nearest to the number it denotes. -/
theorem parseFloat_text (d : DecimalLiteral) : parseFloat d.text = toDouble d.value := by
  obtain ⟨c, t, hct⟩ : ∃ c t, d.text = c :: t := by
    cases h : d.text with
    | nil => exact absurd h d.text_ne_nil
    | cons c t => exact ⟨c, t, rfl⟩
  have hc : isNumChar c = true := d.text_all_numChar c (by rw [hct]; simp)
  have hws : isWhiteSpace c = false := isWhiteSpace_eq_false_of_isNumChar hc
  have hminus : c ≠ '-' := fun h => by subst h; exact absurd hc (by decide)
  have hplus : c ≠ '+' := fun h => by subst h; exact absurd hc (by decide)
  have hI : c ≠ 'I' := fun h => by subst h; exact absurd hc (by decide)
  have htrim : trimStart d.text = d.text := by
    rw [hct]
    simp [trimStart, List.dropWhile, hws]
  have hsign : splitSign d.text = (false, d.text) := by
    rw [hct]
    unfold splitSign
    split
    · rename_i h
      simp at h
      exact absurd h.1 hminus
    · rename_i h
      simp at h
      exact absurd h.1 hplus
    · rfl
  have hinf : "Infinity".toList.isPrefixOf d.text = false := by
    rw [hct]
    have : "Infinity".toList = 'I' :: "nfinity".toList := rfl
    rw [this]
    simp [List.isPrefixOf, Ne.symm hI]
  simp only [parseFloat, htrim, decimalLiteral, hsign, hinf, unsignedDecimal,
    decimalParts_text d, DecimalLiteral.value]
  simp [zpow_neg, div_eq_mul_inv]

theorem matchField_append_of_ne (key : Char) (pre s : JSString)
    (h : ∀ c ∈ pre, c ≠ key) : matchField key (pre ++ s) = matchField key s := by
  induction pre with
  | nil => rfl
  | cons c t ih =>
    have hc : c ≠ key := h c (by simp)
    have ht : ∀ c ∈ t, c ≠ key := fun x hx => h x (by simp [hx])
    simp [matchField, hc, ih ht]

theorem matchField_none_of_ne (key : Char) (s : JSString) (h : ∀ c ∈ s, c ≠ key) :
    matchField key s = none := by
  have := matchField_append_of_ne key s [] h
  simpa [matchField] using this

theorem matchField_here (key : Char) (pre cap rest : JSString)
    (hpre : ∀ c ∈ pre, c ≠ key) (hne : cap ≠ [])
    (hcap : ∀ c ∈ cap, isNumChar c = true)
    (hrest : ∀ c, rest.head? = some c → isNumChar c = false) :
    matchField key (pre ++ key :: '=' :: (cap ++ rest)) = some cap := by
  rw [matchField_append_of_ne key pre _ hpre]
  have ht : List.takeWhile isNumChar (cap ++ rest) = cap := by
    rw [List.takeWhile_append_of_pos hcap]
    cases rest with
    | nil => simp
    | cons c t =>
      have := hrest c rfl
      simp [List.takeWhile, this]
  simp [matchField, matchValueHere, ht, hne]

theorem trim_eq_self_of_parens {s : JSString} (h1 : startsWith s ['('] = true)
    (h2 : endsWith s [')'] = true) : trim s = s := by
  apply trim_eq_self
  · intro c hc
    cases s with
    | nil => simp at hc
    | cons d t =>
      simp [startsWith, List.isPrefixOf] at h1
      simp at hc
      subst hc
      subst h1
      decide
  · intro c hc
    rw [← List.head?_reverse] at hc
    cases hr : s.reverse with
    | nil =>
      rw [hr] at hc
      simp at hc
    | cons d r =>
      rw [hr] at hc
      simp [endsWith, List.isPrefixOf, hr] at h2
      simp at hc
      subst hc
      subst h2
      decide

/-- Step 2 of `parseUnrealColor` when the three field patterns match. -/
theorem parseUnrealColor_of_fields (s rc gc bc : JSString) (alpha : JSNum)
    (h1 : startsWith s ['('] = true) (h2 : endsWith s [')'] = true)
    (hR : matchField 'R' s = some rc) (hG : matchField 'G' s = some gc)
    (hB : matchField 'B' s = some bc)
    (hA : (match matchField 'A' s with
      | some aMatch => parseFloat aMatch
      | none => .fin 1) = alpha) :
    parseUnrealColor (.str s) =
      .ok (rgbaString (numberToString (channelOfMatch rc)) (numberToString (channelOfMatch gc))
        (numberToString (channelOfMatch bc)) (numberToString alpha)) := by
  have hne : s ≠ [] := by
    rintro rfl
    simp [startsWith, List.isPrefixOf] at h1
  rw [parseUnrealColor_str hne, trim_eq_self_of_parens h1 h2]
  simp only [parseStruct, h1, h2, hR, hG, hB, Bool.and_self, if_true]
  revert hA
  cases matchField 'A' s <;> intro hA <;> subst hA <;> rfl

theorem channelOfMatch_text (d : DecimalLiteral) :
    channelOfMatch d.text = (JSNum.mul (toDouble d.value) (.fin 255)).round := by
  simp [channelOfMatch, parseFloat_text]

theorem ne_of_isNumChar {c k : Char} (hk : isNumChar k = false) (hc : isNumChar c = true) :
    c ≠ k := by
  rintro rfl
  rw [hk] at hc
  exact absurd hc (by decide)

/-- The struct string with an `A` field, evaluated. -/
theorem parseUnrealColor_struct_with_alpha (r g b a : JSString)
    (hr : r ≠ []) (hg : g ≠ []) (hb : b ≠ []) (ha : a ≠ [])
    (hrc : ∀ c ∈ r, isNumChar c = true) (hgc : ∀ c ∈ g, isNumChar c = true)
    (hbc : ∀ c ∈ b, isNumChar c = true) (hac : ∀ c ∈ a, isNumChar c = true) :
    parseUnrealColor (.str ("(R=".toList ++ r ++ ",G=".toList ++ g ++ ",B=".toList ++ b ++
        ",A=".toList ++ a ++ ")".toList)) =
      .ok (rgbaString (numberToString (channelOfMatch r)) (numberToString (channelOfMatch g))
        (numberToString (channelOfMatch b)) (numberToString (parseFloat a))) := by
  have hRm : matchField 'R' ("(R=".toList ++ r ++ ",G=".toList ++ g ++ ",B=".toList ++ b ++
      ",A=".toList ++ a ++ ")".toList) = some r := by
    have := matchField_here 'R' ['('] r
      (",G=".toList ++ g ++ ",B=".toList ++ b ++ ",A=".toList ++ a ++ ")".toList)
      (by simp) hr hrc (by
        intro c hc
        simp at hc
        subst hc
        decide)
    simpa using this
  have hGm : matchField 'G' ("(R=".toList ++ r ++ ",G=".toList ++ g ++ ",B=".toList ++ b ++
      ",A=".toList ++ a ++ ")".toList) = some g := by
    have := matchField_here 'G' ("(R=".toList ++ r ++ [',']) g
      (",B=".toList ++ b ++ ",A=".toList ++ a ++ ")".toList)
      (by
        intro c hc
        simp at hc
        rcases hc with h | h | h | h | h
        · subst h; decide
        · subst h; decide
        · subst h; decide
        · exact ne_of_isNumChar (by decide) (hrc c h)
        · subst h; decide) hg hgc (by
        intro c hc
        simp at hc
        subst hc
        decide)
    simpa using this
  have hBm : matchField 'B' ("(R=".toList ++ r ++ ",G=".toList ++ g ++ ",B=".toList ++ b ++
      ",A=".toList ++ a ++ ")".toList) = some b := by
    have := matchField_here 'B' ("(R=".toList ++ r ++ ",G=".toList ++ g ++ [',']) b
      (",A=".toList ++ a ++ ")".toList)
      (by
        intro c hc
        simp at hc
        rcases hc with h | h | h | h | h | h | h | h | h
        · subst h; decide
        · subst h; decide
        · subst h; decide
        · exact ne_of_isNumChar (by decide) (hrc c h)
        · subst h; decide
        · subst h; decide
        · subst h; decide
        · exact ne_of_isNumChar (by decide) (hgc c h)
        · subst h; decide) hb hbc (by
        intro c hc
        simp at hc
        subst hc
        decide)
    simpa using this
  have hAm : matchField 'A' ("(R=".toList ++ r ++ ",G=".toList ++ g ++ ",B=".toList ++ b ++
      ",A=".toList ++ a ++ ")".toList) = some a := by
    have := matchField_here 'A'
      ("(R=".toList ++ r ++ ",G=".toList ++ g ++ ",B=".toList ++ b ++ [',']) a
      (")".toList)
      (by
        intro c hc
        simp at hc
        rcases hc with h | h | h | h | h | h | h | h | h | h | h | h | h
        · subst h; decide
        · subst h; decide
        · subst h; decide
        · exact ne_of_isNumChar (by decide) (hrc c h)
        · subst h; decide
        · subst h; decide
        · subst h; decide
        · exact ne_of_isNumChar (by decide) (hgc c h)
        · subst h; decide
        · subst h; decide
        · subst h; decide
        · exact ne_of_isNumChar (by decide) (hbc c h)
        · subst h; decide) ha hac (by
        intro c hc
        simp at hc
        subst hc
        decide)
    simpa using this
  apply parseUnrealColor_of_fields _ r g b _ _ _ hRm hGm hBm
  · rw [hAm]
  · simp [startsWith, List.isPrefixOf]
  · simp [endsWith, List.isPrefixOf]

/-- The struct string without an `A` field, evaluated. -/
theorem parseUnrealColor_struct_without_alpha (r g b : JSString)
    (hr : r ≠ []) (hg : g ≠ []) (hb : b ≠ [])
    (hrc : ∀ c ∈ r, isNumChar c = true) (hgc : ∀ c ∈ g, isNumChar c = true)
    (hbc : ∀ c ∈ b, isNumChar c = true) :
    parseUnrealColor (.str ("(R=".toList ++ r ++ ",G=".toList ++ g ++ ",B=".toList ++ b ++
        ")".toList)) =
      .ok (rgbaString (numberToString (channelOfMatch r)) (numberToString (channelOfMatch g))
        (numberToString (channelOfMatch b)) (numberToString (.fin 1))) := by
  have hRm : matchField 'R' ("(R=".toList ++ r ++ ",G=".toList ++ g ++ ",B=".toList ++ b ++
      ")".toList) = some r := by
    have := matchField_here 'R' ['('] r
      (",G=".toList ++ g ++ ",B=".toList ++ b ++ ")".toList)
      (by simp) hr hrc (by
        intro c hc
        simp at hc
        subst hc
        decide)
    simpa using this
  have hGm : matchField 'G' ("(R=".toList ++ r ++ ",G=".toList ++ g ++ ",B=".toList ++ b ++
      ")".toList) = some g := by
    have := matchField_here 'G' ("(R=".toList ++ r ++ [',']) g
      (",B=".toList ++ b ++ ")".toList)
      (by
        intro c hc
        simp at hc
        rcases hc with h | h | h | h | h
        · subst h; decide
        · subst h; decide
        · subst h; decide
        · exact ne_of_isNumChar (by decide) (hrc c h)
        · subst h; decide) hg hgc (by
        intro c hc
        simp at hc
        subst hc
        decide)
    simpa using this
  have hBm : matchField 'B' ("(R=".toList ++ r ++ ",G=".toList ++ g ++ ",B=".toList ++ b ++
      ")".toList) = some b := by
    have := matchField_here 'B' ("(R=".toList ++ r ++ ",G=".toList ++ g ++ [',']) b
      (")".toList)
      (by
        intro c hc
        simp at hc
        rcases hc with h | h | h | h | h | h | h | h | h
        · subst h; decide
        · subst h; decide
        · subst h; decide
        · exact ne_of_isNumChar (by decide) (hrc c h)
        · subst h; decide
        · subst h; decide
        · subst h; decide
        · exact ne_of_isNumChar (by decide) (hgc c h)
        · subst h; decide) hb hbc (by
        intro c hc
        simp at hc
        subst hc
        decide)
    simpa using this
  have hAm : matchField 'A' ("(R=".toList ++ r ++ ",G=".toList ++ g ++ ",B=".toList ++ b ++
      ")".toList) = none := by
    apply matchField_none_of_ne
    intro c hc
    simp at hc
    rcases hc with h | h | h | h | h | h | h | h | h | h | h | h | h
    · subst h; decide
    · subst h; decide
    · subst h; decide
    · exact ne_of_isNumChar (by decide) (hrc c h)
    · subst h; decide
    · subst h; decide
    · subst h; decide
    · exact ne_of_isNumChar (by decide) (hgc c h)
    · subst h; decide
    · subst h; decide
    · subst h; decide
    · exact ne_of_isNumChar (by decide) (hbc c h)
    · subst h; decide
  apply parseUnrealColor_of_fields _ r g b _ _ _ hRm hGm hBm
  · rw [hAm]
  · simp [startsWith, List.isPrefixOf]
  · simp [endsWith, List.isPrefixOf]

theorem literalOne_value : literalOne.value = 1 := by
  have h : numeralValue 10 ((literalOne.intDigits ++ literalOne.fraction.getD []).map
      Char.toNat) = 1000000 := by decide
  have hl : (literalOne.fraction.getD []).length = 6 := by decide
  rw [DecimalLiteral.value, h, hl]
  norm_num

theorem literalZero_value : literalZero.value = 0 := by
  have h : numeralValue 10 ((literalZero.intDigits ++ literalZero.fraction.getD []).map
      Char.toNat) = 0 := by decide
  rw [DecimalLiteral.value, h]
  norm_num

/-! ## Claims on the struct-string form of `parseUnrealColor` -/

theorem literalNought_value : literalNought.value = 0 := by
  have h : numeralValue 10 ((literalNought.intDigits ++ literalNought.fraction.getD []).map
      Char.toNat) = 0 := by decide
  rw [DecimalLiteral.value, h]
  norm_num

theorem literalHalf_value : literalHalf.value = 1 / 2 := by
  have h : numeralValue 10 ((literalHalf.intDigits ++ literalHalf.fraction.getD []).map
      Char.toNat) = 5 := by decide
  have hl : (literalHalf.fraction.getD []).length = 1 := by decide
  rw [DecimalLiteral.value, h, hl]
  norm_num

theorem literalBelowHalf_value :
    literalBelowHalf.value = 4999999999999999999 / 10 ^ 19 := by
  have h : numeralValue 10
      ((literalBelowHalf.intDigits ++ literalBelowHalf.fraction.getD []).map Char.toNat) =
      4999999999999999999 := by decide
  have hl : (literalBelowHalf.fraction.getD []).length = 19 := by decide
  rw [DecimalLiteral.value, h, hl]
  norm_num

theorem literalThird_value :
    literalThird.value = 3333333333333333333 / 10 ^ 19 := by
  have h : numeralValue 10
      ((literalThird.intDigits ++ literalThird.fraction.getD []).map Char.toNat) =
      3333333333333333333 := by decide
  have hl : (literalThird.fraction.getD []).length = 19 := by decide
  rw [DecimalLiteral.value, h, hl]
  norm_num

/-- The literal `0.3333333333333333333` reads as the binary64 number nearest to
one third. -/
theorem toDouble_literalThird :
    toDouble literalThird.value = .fin (6004799503160661 / 18014398509481984) := by
  rw [literalThird_value,
    toDouble_eq_of_bounds _ (-2) 6004799503160661 (by norm_num) (by norm_num) (by norm_num)
      (by norm_num) (by norm_num) (by norm_num) (by norm_num)]
  norm_num

theorem DecimalLiteral.value_nonneg (d : DecimalLiteral) : 0 ≤ d.value := by
  unfold DecimalLiteral.value
  positivity

theorem mul255_half : JSNum.mul (.fin (1 / 2)) (.fin 255) = .fin (255 / 2) := by
  show toDouble (1 / 2 * 255) = _
  have h2 := toDouble_mul_zpow 255 (-1) (by norm_num) (by norm_num) (by norm_num)
  have e : ((255 : ℕ) : ℚ) * 2 ^ (-1 : ℤ) = 1 / 2 * 255 := by norm_num
  rw [e] at h2
  rw [h2]
  norm_num

theorem mul255_zero : JSNum.mul (.fin 0) (.fin 255) = .fin 0 := by
  show toDouble (0 * 255) = _
  rw [zero_mul]
  exact toDouble_zero

theorem mul255_one : JSNum.mul (.fin 1) (.fin 255) = .fin 255 := by
  show toDouble (1 * 255) = _
  rw [one_mul]
  have h2 := toDouble_natCast 255 (by norm_num)
  simpa using h2

theorem channel_half : numberToString (JSNum.mul (.fin (1 / 2)) (.fin 255)).round =
    "128".toList := by
  have hround : (JSNum.fin (255 / 2)).round = .fin ((128 : ℕ) : ℚ) := by
    rw [round_fin]
    norm_num
  rw [mul255_half, hround, numberToString_natCast 128 (by norm_num)]
  rfl

theorem channel_zero : numberToString (JSNum.mul (.fin 0) (.fin 255)).round = "0".toList := by
  have hround : (JSNum.fin 0).round = .fin ((0 : ℕ) : ℚ) := by
    rw [round_fin]
    norm_num
  rw [mul255_zero, hround, numberToString_natCast 0 (by norm_num)]
  rfl

theorem channel_one : numberToString (JSNum.mul (.fin 1) (.fin 255)).round = "255".toList := by
  have hround : (JSNum.fin 255).round = .fin ((255 : ℕ) : ℚ) := by
    rw [round_fin]
    norm_num
  rw [mul255_one, hround, numberToString_natCast 255 (by norm_num)]
  rfl

/-- The literal `0.4999999999999999999` reads as the binary64 number 0.5. -/
theorem toDouble_literalBelowHalf : toDouble literalBelowHalf.value = .fin (1 / 2) := by
  rw [literalBelowHalf_value,
    toDouble_eq_of_bounds _ (-2) 9007199254740992 (by norm_num) (by norm_num) (by norm_num)
      (by norm_num) (by norm_num) (by norm_num) (by norm_num)]
  norm_num

/-- A channel literal of value at most 1: its binary64 reading `y`, the
binary64 product `p` of `y` with 255, and the byte nearest to `p`. -/
theorem struct_channel (d : DecimalLiteral) (h : d.value ≤ 1) :
    ∃ (n : ℕ) (p y : ℚ), toDouble d.value = .fin y ∧ |y - d.value| ≤ 1 / 2 ^ (53 : ℕ) ∧
      JSNum.mul (toDouble d.value) (.fin 255) = .fin p ∧
      |p - 255 * d.value| ≤ 1 / 2 ^ (44 : ℕ) ∧ p - 1 / 2 < (n : ℚ) ∧ (n : ℚ) ≤ p + 1 / 2 ∧
      n ≤ 255 ∧
      numberToString (JSNum.mul (toDouble d.value) (.fin 255)).round = Nat.toDigits 10 n := by
  have h0 := d.value_nonneg
  obtain ⟨y, hy, hy0, hy1⟩ := toDouble_between d.value 0 1 (by simpa using h0)
    (by simpa using h) (by norm_num)
  obtain ⟨y', hy', -, hyerr⟩ := toDouble_abs_error d.value 0 h0
    (by
      have : (2 : ℚ) ^ ((0 : ℤ) + 1) = 2 := by norm_num
      rw [this]
      linarith) (by norm_num) (by norm_num)
  have hyy : y' = y := by
    rw [hy] at hy'
    injection hy' with h
    exact h.symm
  subst hyy
  simp only [Nat.cast_zero, Nat.cast_one] at hy0 hy1
  have e53 : (2 : ℚ) ^ ((0 : ℤ) - 53) = 1 / 2 ^ (53 : ℕ) := by norm_num
  rw [e53] at hyerr
  obtain ⟨n, p, hp, hch, hstr, hn255, hperr, hlo, hhi⟩ := channel_byte y' hy0 hy1
  refine ⟨n, p, y', hy, hyerr, ?_, ?_, hlo, hhi, hn255, ?_⟩
  · rw [hy]
    exact hp
  · have h1 : |p - 255 * d.value| ≤ |p - 255 * y'| + |255 * y' - 255 * d.value| :=
      abs_sub_le _ _ _
    have h2 : |255 * y' - 255 * d.value| = 255 * |y' - d.value| := by
      rw [← mul_sub, abs_mul]
      norm_num
    have h3 : (1 : ℚ) / 2 ^ (46 : ℕ) + 255 * (1 / 2 ^ (53 : ℕ)) ≤ 1 / 2 ^ (44 : ℕ) := by
      norm_num
    rw [h2] at h1
    linarith
  · rw [hy]
    have : (JSNum.mul (.fin y') (.fin 255)).round = .fin (n : ℚ) := by
      have h4 := channelOfValue_num y'
      rw [hch] at h4
      injection h4 with h4
      exact h4.symm
    rw [this, hstr]

/-- C3 (counterexample).  In `(R=0.4999999999999999999,G=0,B=0)` the literal of
`R` has a value below one half, 255 times it rounds to 127, but the result has
128: `parseFloat` reads the literal as the binary64 number 0.5. -/
theorem parseUnrealColor_struct_rounds_literal :
    "(R=".toList ++ literalBelowHalf.text ++ ",G=".toList ++ literalNought.text ++
        ",B=".toList ++ literalNought.text ++ ")".toList =
        "(R=0.4999999999999999999,G=0,B=0)".toList ∧
      literalBelowHalf.value = 4999999999999999999 / 10 ^ 19 ∧
      ⌊255 * literalBelowHalf.value + 1 / 2⌋ = 127 ∧
      parseUnrealColor (.str "(R=0.4999999999999999999,G=0,B=0)".toList) =
        .ok "rgba(128, 0, 0, 1)".toList := by
  have e : "(R=".toList ++ literalBelowHalf.text ++ ",G=".toList ++ literalNought.text ++
      ",B=".toList ++ literalNought.text ++ ")".toList =
      "(R=0.4999999999999999999,G=0,B=0)".toList := by decide
  refine ⟨e, literalBelowHalf_value, ?_, ?_⟩
  · rw [literalBelowHalf_value, Int.floor_eq_iff]
    constructor <;> norm_num
  · rw [← e, parseUnrealColor_struct_without_alpha literalBelowHalf.text literalNought.text
      literalNought.text literalBelowHalf.text_ne_nil literalNought.text_ne_nil
      literalNought.text_ne_nil literalBelowHalf.text_all_numChar
      literalNought.text_all_numChar literalNought.text_all_numChar,
      channelOfMatch_text, channelOfMatch_text, toDouble_literalBelowHalf,
      literalNought_value, toDouble_zero, channel_half, channel_zero, numberToString_one]
    decide

/-- C3 (amended).  For a struct string `(R=r,G=g,B=b,A=a)` of non-negative
decimal literals the result is `rgba(R', G', B', a')`: each channel is
`Math.round` of the binary64 product with 255 of the binary64 number nearest to
the literal, and the alpha is the binary64 number nearest to `a`, unscaled, as
the runtime prints it; without the `A` field the alpha is 1.  For a literal of
value at most 1 the reading is within `2^(-53)` of the literal, the product
within `2^(-44)` of 255 times the literal, and the channel is the byte nearest
to the product (a half going up).  The string
`(R=1.000000,G=0.000000,B=0.000000,A=1.000000)` gives `rgba(255, 0, 0, 1)`. -/
theorem parseUnrealColor_struct (r g b a : DecimalLiteral) :
    parseUnrealColor (.str ("(R=".toList ++ r.text ++ ",G=".toList ++ g.text ++
        ",B=".toList ++ b.text ++ ",A=".toList ++ a.text ++ ")".toList)) =
      .ok (rgbaString (numberToString (JSNum.mul (toDouble r.value) (.fin 255)).round)
        (numberToString (JSNum.mul (toDouble g.value) (.fin 255)).round)
        (numberToString (JSNum.mul (toDouble b.value) (.fin 255)).round)
        (numberToString (toDouble a.value))) ∧
    parseUnrealColor (.str ("(R=".toList ++ r.text ++ ",G=".toList ++ g.text ++
        ",B=".toList ++ b.text ++ ")".toList)) =
      .ok (rgbaString (numberToString (JSNum.mul (toDouble r.value) (.fin 255)).round)
        (numberToString (JSNum.mul (toDouble g.value) (.fin 255)).round)
        (numberToString (JSNum.mul (toDouble b.value) (.fin 255)).round) "1".toList) ∧
    (∀ d : DecimalLiteral, d.value ≤ 1 →
      ∃ (n : ℕ) (p y : ℚ), toDouble d.value = .fin y ∧ |y - d.value| ≤ 1 / 2 ^ (53 : ℕ) ∧
        JSNum.mul (toDouble d.value) (.fin 255) = .fin p ∧
        |p - 255 * d.value| ≤ 1 / 2 ^ (44 : ℕ) ∧ p - 1 / 2 < (n : ℚ) ∧ (n : ℚ) ≤ p + 1 / 2 ∧
        n ≤ 255 ∧
        numberToString (JSNum.mul (toDouble d.value) (.fin 255)).round = Nat.toDigits 10 n) ∧
    parseUnrealColor (.str "(R=1.000000,G=0.000000,B=0.000000,A=1.000000)".toList) =
      .ok "rgba(255, 0, 0, 1)".toList := by
  have general : ∀ r g b a : DecimalLiteral,
      parseUnrealColor (.str ("(R=".toList ++ r.text ++ ",G=".toList ++ g.text ++
        ",B=".toList ++ b.text ++ ",A=".toList ++ a.text ++ ")".toList)) =
      .ok (rgbaString (numberToString (JSNum.mul (toDouble r.value) (.fin 255)).round)
        (numberToString (JSNum.mul (toDouble g.value) (.fin 255)).round)
        (numberToString (JSNum.mul (toDouble b.value) (.fin 255)).round)
        (numberToString (toDouble a.value))) := by
    intro r g b a
    rw [parseUnrealColor_struct_with_alpha r.text g.text b.text a.text r.text_ne_nil
      g.text_ne_nil b.text_ne_nil a.text_ne_nil r.text_all_numChar g.text_all_numChar
      b.text_all_numChar a.text_all_numChar, channelOfMatch_text, channelOfMatch_text,
      channelOfMatch_text, parseFloat_text]
  refine ⟨general r g b a, ?_, struct_channel, ?_⟩
  · rw [parseUnrealColor_struct_without_alpha r.text g.text b.text r.text_ne_nil
      g.text_ne_nil b.text_ne_nil r.text_all_numChar g.text_all_numChar
      b.text_all_numChar, channelOfMatch_text, channelOfMatch_text,
      channelOfMatch_text, numberToString_one]
  · have h := general literalOne literalZero literalZero literalOne
    have e : "(R=".toList ++ literalOne.text ++ ",G=".toList ++ literalZero.text ++
        ",B=".toList ++ literalZero.text ++ ",A=".toList ++ literalOne.text ++ ")".toList =
        "(R=1.000000,G=0.000000,B=0.000000,A=1.000000)".toList := by decide
    rw [e, literalOne_value, literalZero_value, toDouble_one, toDouble_zero, channel_one,
      channel_zero, numberToString_one] at h
    rw [h]
    decide

/-- Witness for C3 (amended): `(R=0.5,G=0.000000,B=1.000000,A=0.5)` gives
`rgba(128, 0, 255, 0.5)`; an alpha of nineteen digits 3 comes out with the 16
digits that the binary64 number nearest to it prints with; and the literal
`0.5` has a value at most 1. -/
theorem parseUnrealColor_struct_witness :
    parseUnrealColor (.str "(R=0.5,G=0.000000,B=1.000000,A=0.5)".toList) =
        .ok "rgba(128, 0, 255, 0.5)".toList ∧
      parseUnrealColor
          (.str "(R=1.000000,G=0.000000,B=0.000000,A=0.3333333333333333333)".toList) =
        .ok "rgba(255, 0, 0, 0.3333333333333333)".toList ∧
      literalHalf.value ≤ 1 ∧
      ∃ (n : ℕ) (p y : ℚ), toDouble literalHalf.value = .fin y ∧
        |y - literalHalf.value| ≤ 1 / 2 ^ (53 : ℕ) ∧
        JSNum.mul (toDouble literalHalf.value) (.fin 255) = .fin p ∧
        |p - 255 * literalHalf.value| ≤ 1 / 2 ^ (44 : ℕ) ∧ p - 1 / 2 < (n : ℚ) ∧
        (n : ℚ) ≤ p + 1 / 2 ∧ n ≤ 255 ∧
        numberToString (JSNum.mul (toDouble literalHalf.value) (.fin 255)).round =
          Nat.toDigits 10 n := by
  have hle : literalHalf.value ≤ 1 := by
    rw [literalHalf_value]
    norm_num
  refine ⟨?_, ?_, hle,
    (parseUnrealColor_struct literalHalf literalZero literalOne literalHalf).2.2.1
      literalHalf hle⟩
  · have h := (parseUnrealColor_struct literalHalf literalZero literalOne literalHalf).1
    have e : "(R=".toList ++ literalHalf.text ++ ",G=".toList ++ literalZero.text ++
        ",B=".toList ++ literalOne.text ++ ",A=".toList ++ literalHalf.text ++ ")".toList =
        "(R=0.5,G=0.000000,B=1.000000,A=0.5)".toList := by decide
    rw [e, literalHalf_value, literalZero_value, literalOne_value, toDouble_half,
      toDouble_zero, toDouble_one, channel_half, channel_zero, channel_one,
      numberToString_half] at h
    rw [h]
    decide
  · have h := (parseUnrealColor_struct literalOne literalZero literalZero literalThird).1
    have e : "(R=".toList ++ literalOne.text ++ ",G=".toList ++ literalZero.text ++
        ",B=".toList ++ literalZero.text ++ ",A=".toList ++ literalThird.text ++ ")".toList =
        "(R=1.000000,G=0.000000,B=0.000000,A=0.3333333333333333333)".toList := by decide
    rw [e, toDouble_literalThird, literalZero_value, literalOne_value,
      toDouble_zero, toDouble_one, channel_zero, channel_one, numberToString_third] at h
    rw [h]
    decide

/-! ## Claims on the functional and fallback forms of `formatColorForUnreal` -/

/-- Evaluation of `parseFloat` on an unsigned literal without leading
whitespace, from the digits `decimalParts` reads. -/
theorem parseFloat_of_parts (s r : JSString) (m : ℕ) (e : ℤ)
    (h1 : trimStart s = s) (h2 : splitSign s = (false, s))
    (h3 : "Infinity".toList.isPrefixOf s = false)
    (h4 : decimalParts s = some (m, e, r)) :
    parseFloat s = toDouble ((m : ℚ) * (10 : ℚ) ^ e) := by
  simp only [parseFloat, h1, decimalLiteral, h2, h3, unsignedDecimal, h4]
  simp

theorem formatColorString_rgb (s p0 p1 p2 : JSString) (rest : List JSString)
    (hrgb : startsWith s "rgb".toList = true)
    (hparts : matchAllNumbers s = p0 :: p1 :: p2 :: rest) :
    formatColorString s =
      colorObject (JSNum.div (parseFloat p0) (.fin 255)) (JSNum.div (parseFloat p1) (.fin 255))
        (JSNum.div (parseFloat p2) (.fin 255))
        (match rest.head? with
          | some p3 => parseFloat p3
          | none => .fin 1) := by
  have hhash : startsWith s ['#'] = false := by
    cases s with
    | nil => rfl
    | cons c t =>
      have hc : c = 'r' := by
        have : "rgb".toList = 'r' :: "gb".toList := rfl
        rw [this] at hrgb
        simp [startsWith, List.isPrefixOf] at hrgb
        exact hrgb.1.symm
      subst hc
      rfl
  unfold formatColorString
  rw [hhash]
  simp only [Bool.false_eq_true, if_false, hrgb, if_true, hparts]
  cases rest <;> rfl

/-- C11.  For a string that begins with `rgb` and has at least three numeric
substrings (maximal runs of `[0-9.]`), `R`, `G`, `B` are the first three
divided by 255 and `A` is the fourth as it is, not divided, or 1 when there
is no fourth. -/
theorem formatColorForUnreal_rgb (s p0 p1 p2 : JSString) (rest : List JSString)
    (hrgb : startsWith s "rgb".toList = true)
    (hparts : matchAllNumbers s = p0 :: p1 :: p2 :: rest) :
    formatColorForUnreal (.str s) =
      .ok (colorObject (JSNum.div (parseFloat p0) (.fin 255))
        (JSNum.div (parseFloat p1) (.fin 255)) (JSNum.div (parseFloat p2) (.fin 255))
        (match rest.head? with
          | some p3 => parseFloat p3
          | none => .fin 1)) := by
  cases s with
  | nil => simp [startsWith, List.isPrefixOf] at hrgb
  | cons c t =>
    rw [formatColorForUnreal_str, formatColorString_rgb (c :: t) p0 p1 p2 rest hrgb hparts]

/-- Witness for C11: `rgba(255, 0, 0, 0.5)` gives `{R: 1, G: 0, B: 0, A: 0.5}`. -/
theorem formatColorForUnreal_rgb_witness :
    formatColorForUnreal (.str "rgba(255, 0, 0, 0.5)".toList) =
      .ok (colorObject (.fin 1) (.fin 0) (.fin 0) (.fin (1 / 2))) := by
  have h := formatColorForUnreal_rgb "rgba(255, 0, 0, 0.5)".toList "255".toList "0".toList
    "0".toList ["0.5".toList] (by decide) (by decide)
  have h255 : parseFloat "255".toList = .fin 255 := by
    rw [parseFloat_of_parts "255".toList [] 255 0 (by decide) (by decide) (by decide)
      (by decide)]
    have := toDouble_natCast 255 (by norm_num)
    simpa using this
  have h0 : parseFloat "0".toList = .fin 0 := by
    rw [parseFloat_of_parts "0".toList [] 0 0 (by decide) (by decide) (by decide)
      (by decide)]
    have := toDouble_zero
    simpa using this
  have h05 : parseFloat "0.5".toList = .fin (1 / 2) := by
    rw [parseFloat_of_parts "0.5".toList [] 5 (-1) (by decide) (by decide) (by decide)
      (by decide)]
    have e : ((5 : ℕ) : ℚ) * (10 : ℚ) ^ (-1 : ℤ) = 1 / 2 := by norm_num
    rw [e]
    exact toDouble_half
  have hone : JSNum.div (.fin 255) (.fin 255) = .fin 1 := by
    have e : JSNum.div (.fin 255) (.fin 255) = toDouble (255 / 255) := by
      simp [JSNum.div]
    rw [e]
    have e2 : (255 : ℚ) / 255 = 1 := by norm_num
    rw [e2]
    exact toDouble_one
  have hzero : JSNum.div (.fin 0) (.fin 255) = .fin 0 := by
    have e : JSNum.div (.fin 0) (.fin 255) = toDouble (0 / 255) := by
      simp [JSNum.div]
    rw [e, zero_div]
    exact toDouble_zero
  rw [h, h255, h0, hone, hzero]
  simp only [List.head?_cons, h05]

/-- The colour `#12`, evaluated: the hex branch is taken for any string that
begins with `#`, and bytes that cannot be read are `NaN`. -/
theorem formatColorString_hash12 :
    formatColorString "#12".toList =
      colorObject (toDouble (18 / 255)) .nan .nan (.fin 1) := by
  have hs : startsWith "#12".toList ['#'] = true := by decide
  have hu : codeUnits (List.drop 1 "#12".toList) = [49, 50] := by decide
  have h1 : parseIntCore [49, 50] 16 = some 18 := by decide
  have h2 : parseIntCore [] 16 = none := by decide
  have h18 : toDouble 18 = .fin 18 := by
    have := toDouble_natCast 18 (by norm_num)
    simpa using this
  simp only [formatColorString, hs, hu, if_true]
  simp [hexByte, parseInt, h1, h2, h18, JSNum.div]

/-- C12 (counterexample).  The string `#12` is not `#` followed by 3, 6 or 8
hex digits and does not begin with `rgb`, yet the result is not the neutral
default: it is `{R: 18/255, G: NaN, B: NaN, A: 1}`. -/
theorem formatColorForUnreal_hash12_not_default :
    isMarkedHex "#12".toList = false ∧ startsWith "#12".toList "rgb".toList = false ∧
      formatColorForUnreal (.str "#12".toList) =
        .ok (colorObject (toDouble (18 / 255)) .nan .nan (.fin 1)) ∧
      formatColorForUnreal (.str "#12".toList) ≠ .ok neutralColor := by
  have h : formatColorForUnreal (.str "#12".toList) =
      .ok (colorObject (toDouble (18 / 255)) .nan .nan (.fin 1)) := by
    have e : formatColorForUnreal (.str "#12".toList) =
        .ok (formatColorString "#12".toList) := formatColorForUnreal_str _ _
    rw [e, formatColorString_hash12]
  refine ⟨by decide, by decide, h, ?_⟩
  rw [h]
  intro hEq
  simp [neutralColor, colorObject] at hEq

/-- C12 (amended).  A string that begins neither with `#` nor with `rgb` gives
the neutral default `{R: 1, G: 1, B: 1, A: 1}`, and so do the empty string
and the absent input (`null`, `undefined`). -/
theorem formatColorForUnreal_default (s : JSString)
    (hhash : startsWith s ['#'] = false) (hrgb : startsWith s "rgb".toList = false) :
    formatColorForUnreal (.str s) = .ok neutralColor ∧
      formatColorForUnreal (.str []) = .ok neutralColor ∧
      formatColorForUnreal .null = .ok neutralColor ∧
      formatColorForUnreal .undefined = .ok neutralColor := by
  refine ⟨?_, rfl, rfl, rfl⟩
  cases s with
  | nil => rfl
  | cons c t =>
    rw [formatColorForUnreal_str]
    unfold formatColorString
    rw [hhash, hrgb]
    rfl

/-- Witness for C12 (amended): the named colour `red`. -/
theorem formatColorForUnreal_default_witness :
    formatColorForUnreal (.str "red".toList) = .ok neutralColor :=
  (formatColorForUnreal_default "red".toList (by decide) (by decide)).1

/-- C13 (counterexample).  On a number, and on an rgba quadruple object, the
call raises a `TypeError` instead of returning a colour. -/
theorem formatColorForUnreal_throws_on_non_string :
    formatColorForUnreal (.num (.fin 5)) = .error .typeError ∧
      formatColorForUnreal (.obj [(['r'], .num (.fin 255)), (['g'], .num (.fin 0)),
        (['b'], .num (.fin 0)), (['a'], .num (.fin 1))]) = .error .typeError := by
  constructor
  · simp [formatColorForUnreal, toBoolean]
  · simp [formatColorForUnreal, toBoolean]

/-- C13 (amended).  On every string, and on every falsy value, the call
returns an object `{R, G, B, A}` of four numbers without raising an error; a
falsy value gives the neutral default. -/
theorem formatColorForUnreal_total_on_strings :
    (∀ s : JSString, ∃ r g b a : JSNum,
        formatColorForUnreal (.str s) = .ok (colorObject r g b a)) ∧
      (∀ v : JSValue, toBoolean v = false → formatColorForUnreal v = .ok neutralColor) := by
  constructor
  · intro s
    cases s with
    | nil => exact ⟨_, _, _, _, rfl⟩
    | cons c t =>
      rw [formatColorForUnreal_str]
      unfold formatColorString
      by_cases hhash : startsWith (c :: t) ['#'] = true
      · rw [if_pos hhash]
        by_cases h3 : ((codeUnits (List.drop 1 (c :: t))).length == 3) = true
        · simp only [h3, if_true]
          exact ⟨_, _, _, _, rfl⟩
        · simp only [h3, if_false]
          exact ⟨_, _, _, _, rfl⟩
      · rw [if_neg hhash]
        split
        · exact ⟨_, _, _, _, rfl⟩
        · exact ⟨_, _, _, _, rfl⟩
  · intro v hv
    simp [formatColorForUnreal, hv, neutralColor]

/-- Witness for C13 (amended): the number 0 is falsy and gives the default. -/
theorem formatColorForUnreal_total_on_strings_witness :
    formatColorForUnreal (.num (.fin 0)) = .ok neutralColor :=
  formatColorForUnreal_total_on_strings.2 (.num (.fin 0)) (by simp [toBoolean])

/-! ## The round trip from hex to components and back -/

/-- The 6-digit hex form, evaluated. -/
theorem formatColorForUnreal_hex6_eval (d1 d2 d3 d4 d5 d6 : Char)
    (h1 : isHexDigit d1 = true) (h2 : isHexDigit d2 = true) (h3 : isHexDigit d3 = true)
    (h4 : isHexDigit d4 = true) (h5 : isHexDigit d5 = true) (h6 : isHexDigit d6 = true) :
    formatColorForUnreal (.str ['#', d1, d2, d3, d4, d5, d6]) =
      .ok (colorObject (toDouble ((byteValue d1 d2 : ℚ) / 255))
        (toDouble ((byteValue d3 d4 : ℚ) / 255)) (toDouble ((byteValue d5 d6 : ℚ) / 255))
        (.fin 1)) := by
  have hu6 : codeUnits [d1, d2, d3, d4, d5, d6] =
      [d1.toNat, d2.toNat, d3.toNat, d4.toNat, d5.toNat, d6.toNat] := by
    rw [codeUnits_of_all_hex (by simp [h1, h2, h3, h4, h5, h6])]
    rfl
  rw [formatColorForUnreal_str]
  simp only [formatColorString, startsWith, List.isPrefixOf, List.drop_succ_cons,
    List.drop_zero, hu6]
  simp [hexByte_pair h1 h2, hexByte_pair h3 h4, hexByte_pair h5 h6]

/-- The binary64 quotient `n/255` of a byte `n`, multiplied by 255 in binary64
and rounded, is `n` again: the two rounding errors stay below one half. -/
theorem channel_of_byte (n : ℕ) (h : n ≤ 255) :
    ∃ y : ℚ, toDouble ((n : ℚ) / 255) = .fin y ∧
      channelOfValue (.num (.fin y)) = .ok (.fin (n : ℚ)) := by
  have hn0 : (0 : ℚ) ≤ (n : ℚ) / 255 := by positivity
  have hn255 : (n : ℚ) ≤ 255 := by exact_mod_cast h
  have hn1 : (n : ℚ) / 255 ≤ 1 := by
    rw [div_le_one (by norm_num)]
    exact hn255
  obtain ⟨y, hy, hy0, hy1⟩ := toDouble_between ((n : ℚ) / 255) 0 1 (by simpa using hn0)
    (by simpa using hn1) (by norm_num)
  obtain ⟨y', hy', -, hyerr⟩ := toDouble_abs_error ((n : ℚ) / 255) 0 hn0
    (by
      have : (2 : ℚ) ^ ((0 : ℤ) + 1) = 2 := by norm_num
      rw [this]
      linarith) (by norm_num) (by norm_num)
  have hyy : y' = y := by
    rw [hy] at hy'
    injection hy' with h
    exact h.symm
  subst hyy
  simp only [Nat.cast_zero, Nat.cast_one] at hy0 hy1
  have e53 : (2 : ℚ) ^ ((0 : ℤ) - 53) = 1 / 2 ^ (53 : ℕ) := by norm_num
  rw [e53] at hyerr
  obtain ⟨r, p, hp, hch, -, -, hperr, hlo, hhi⟩ := channel_byte y' hy0 hy1
  refine ⟨y', hy, ?_⟩
  rw [hch]
  have hclose : |p - (n : ℚ)| < 1 / 2 := by
    have h1 : |p - (n : ℚ)| ≤ |p - 255 * y'| + |255 * y' - (n : ℚ)| := abs_sub_le _ _ _
    have h2 : |255 * y' - (n : ℚ)| = 255 * |y' - (n : ℚ) / 255| := by
      have : 255 * y' - (n : ℚ) = 255 * (y' - (n : ℚ) / 255) := by ring
      rw [this, abs_mul]
      norm_num
    have h3 : (1 : ℚ) / 2 ^ (46 : ℕ) + 255 * (1 / 2 ^ (53 : ℕ)) < 1 / 2 := by norm_num
    rw [h2] at h1
    linarith
  rw [abs_lt] at hclose
  have hrn : r = n := by
    have a : (r : ℚ) < (n : ℚ) + 1 := by linarith [hclose.2]
    have b : (n : ℚ) - 1 < (r : ℚ) := by linarith [hclose.1]
    have a' : r < n + 1 := by exact_mod_cast a
    have b' : (n : ℤ) - 1 < (r : ℤ) := by exact_mod_cast b
    omega
  rw [hrn]

/-- The translator on a component object of three bytes over 255, alpha 1. -/
theorem parseUnrealColor_byte_object (r g b : ℕ) (hr : r ≤ 255) (hg : g ≤ 255)
    (hb : b ≤ 255) :
    parseUnrealColor (colorObject (toDouble ((r : ℚ) / 255)) (toDouble ((g : ℚ) / 255))
        (toDouble ((b : ℚ) / 255)) (.fin 1)) =
      .ok (rgbaString (Nat.toDigits 10 r) (Nat.toDigits 10 g) (Nat.toDigits 10 b)
        "1".toList) := by
  obtain ⟨yr, hyr, hcr⟩ := channel_of_byte r hr
  obtain ⟨yg, hyg, hcg⟩ := channel_of_byte g hg
  obtain ⟨yb, hyb, hcb⟩ := channel_of_byte b hb
  rw [hyr, hyg, hyb]
  rw [show colorObject (.fin yr) (.fin yg) (.fin yb) (.fin 1) =
    .obj [(['R'], .num (.fin yr)), (['G'], .num (.fin yg)), (['B'], .num (.fin yb)),
      (['A'], .num (.fin 1))] from rfl]
  rw [parseUnrealColor_of_channels
    [(['R'], .num (.fin yr)), (['G'], .num (.fin yg)), (['B'], .num (.fin yb)),
      (['A'], .num (.fin 1))] (.fin (r : ℚ)) (.fin (g : ℚ)) (.fin (b : ℚ)) rfl rfl rfl
    hcr hcg hcb]
  have hA : getProperty ['A'] (.obj [(['R'], .num (.fin yr)), (['G'], .num (.fin yg)),
      (['B'], .num (.fin yb)), (['A'], .num (.fin 1))]) = .num (.fin 1) := rfl
  rw [hA]
  simp only [isDefined, if_true, toStringJS, numberToString_one,
    numberToString_natCast r (by omega), numberToString_natCast g (by omega),
    numberToString_natCast b (by omega)]

/-- C14.  Round trip: for every six hex digits with bytes `(r, g, b)` the
component object of `#` followed by the digits goes back through
`parseUnrealColor` to `rgba(r, g, b, 1)`: each channel is reconstructed
exactly. -/
theorem roundTrip_hex6 (d1 d2 d3 d4 d5 d6 : Char)
    (h1 : isHexDigit d1 = true) (h2 : isHexDigit d2 = true) (h3 : isHexDigit d3 = true)
    (h4 : isHexDigit d4 = true) (h5 : isHexDigit d5 = true) (h6 : isHexDigit d6 = true) :
    ∃ v : JSValue, formatColorForUnreal (.str ['#', d1, d2, d3, d4, d5, d6]) = .ok v ∧
      parseUnrealColor v =
        .ok (rgbaString (Nat.toDigits 10 (byteValue d1 d2)) (Nat.toDigits 10 (byteValue d3 d4))
          (Nat.toDigits 10 (byteValue d5 d6)) "1".toList) := by
  refine ⟨_, formatColorForUnreal_hex6_eval d1 d2 d3 d4 d5 d6 h1 h2 h3 h4 h5 h6, ?_⟩
  exact parseUnrealColor_byte_object _ _ _ (byteValue_le h1 h2) (byteValue_le h3 h4)
    (byteValue_le h5 h6)

/-- Witness for C14: `#FF8000` goes to `rgba(255, 128, 0, 1)`. -/
theorem roundTrip_hex6_witness :
    ∃ v : JSValue, formatColorForUnreal (.str "#FF8000".toList) = .ok v ∧
      parseUnrealColor v = .ok "rgba(255, 128, 0, 1)".toList :=
  roundTrip_hex6 'F' 'F' '8' '0' '0' '0' (by decide) (by decide) (by decide) (by decide)
    (by decide) (by decide)

/-! ## Claims on the countdown state holder -/

/-- What `updateTimer` does to the critical flag and the colour of the label
when the comparison with the threshold gives `c`: the flag is `c`; the colour
is the low colour when critical, else the normal colour when that is not
empty, else the colour the label had. -/
theorem updateTimer_label (x : JSNum) (st : State) (c : Bool)
    (hc : leValue x st.config.lowTimeThreshold = .ok c) :
    (updateTimer (.num x) st).state.label.critical = c ∧
      (updateTimer (.num x) st).error = none ∧
      (c = true → (updateTimer (.num x) st).state.label.color = st.config.lowTimeColor) ∧
      (c = false → st.config.timerColor ≠ [] →
        (updateTimer (.num x) st).state.label.color = st.config.timerColor) ∧
      (c = false → st.config.timerColor = [] →
        (updateTimer (.num x) st).state.label.color = st.label.color) := by
  cases c with
  | true =>
    refine ⟨?_, ?_, ?_, ?_, ?_⟩ <;> simp [updateTimer, updateDisplay, parseFloatValue, hc]
  | false =>
    refine ⟨?_, ?_, ?_, ?_, ?_⟩
    · simp [updateTimer, updateDisplay, parseFloatValue, hc]
    · simp [updateTimer, updateDisplay, parseFloatValue, hc]
    · simp
    · intro _ hne
      simp [updateTimer, updateDisplay, parseFloatValue, hc, hne]
    · intro _ he
      simp [updateTimer, updateDisplay, parseFloatValue, hc, he]

/-- C15 (failing input).  After `startCountdown(60, '{"timerColor":" "}')` the
configured normal colour is the empty string; `updateTimer(10)` turns the
label to the low colour `red`, and `updateTimer(50)`, above the threshold 30,
clears the critical flag but leaves the label `red`: the colour does not go
back to `config.timerColor`. -/
theorem updateTimer_keeps_low_color :
    (run (initialState pageLabel)
        [.startCountdown (.num (.fin 60))
          (.parsed (.obj [("timerColor".toList, .str " ".toList)])),
         .updateTimer (.num (.fin 10)),
         .updateTimer (.num (.fin 50))]).label.color = "red".toList ∧
      (run (initialState pageLabel)
        [.startCountdown (.num (.fin 60))
          (.parsed (.obj [("timerColor".toList, .str " ".toList)])),
         .updateTimer (.num (.fin 10)),
         .updateTimer (.num (.fin 50))]).label.critical = false ∧
      (run (initialState pageLabel)
        [.startCountdown (.num (.fin 60))
          (.parsed (.obj [("timerColor".toList, .str " ".toList)])),
         .updateTimer (.num (.fin 10)),
         .updateTimer (.num (.fin 50))]).config.timerColor = [] ∧
      (run (initialState pageLabel)
        [.startCountdown (.num (.fin 60))
          (.parsed (.obj [("timerColor".toList, .str " ".toList)])),
         .updateTimer (.num (.fin 10)),
         .updateTimer (.num (.fin 50))]).config.lowTimeColor = "red".toList := by
  decide

/-- A field of the label that is a natural number below `2^53` is that number
zero-padded to two digits. -/
theorem padField_natCast (n : ℕ) (h : n < 2 ^ 53) : padField (.fin (n : ℚ)) = pad2 n := by
  unfold padField pad2
  rw [numberToString_natCast n h]
  by_cases h10 : n < 10
  · have : ((n : ℚ) < 10) := by exact_mod_cast h10
    simp [JSNum.lt, this, h10]
  · have : ¬ ((n : ℚ) < 10) := by
      intro hlt
      apply h10
      exact_mod_cast hlt
    simp [JSNum.lt, this, h10]

theorem pad2_length (s : ℕ) (h : s < 60) : (pad2 s).length = 2 := by
  interval_cases s <;> rfl

/-- The text of the label for a stored value that is not negative: the whole
part of the binary64 quotient by 60, and the whole part of the remainder. -/
theorem displayText_of_quotient (u y : ℚ) (hu : 0 ≤ u) (hy : toDouble (u / 60) = .fin y) :
    displayText (.fin u) =
      padField (.fin ((⌊y⌋ : ℤ) : ℚ)) ++
        ':' :: padField (.fin ((⌊u - 60 * (⌊u / 60⌋ : ℤ)⌋ : ℤ) : ℚ)) := by
  have hclamp : (if JSNum.lt (.fin 0) (.fin u) then JSNum.fin u else .fin 0) = .fin u := by
    by_cases h : 0 < u
    · simp [JSNum.lt, h]
    · have : u = 0 := le_antisymm (not_lt.mp h) hu
      simp [JSNum.lt, this]
  have hnonneg : 0 ≤ u / 60 := div_nonneg hu (by norm_num)
  unfold displayText
  simp only [hclamp]
  have hdiv : JSNum.div (.fin u) (.fin 60) = .fin y := by
    rw [← hy]
    simp [JSNum.div]
  have hmod : JSNum.mod (.fin u) (.fin 60) = .fin (u - 60 * (⌊u / 60⌋ : ℤ)) := by
    simp [JSNum.mod, hnonneg]
  rw [hdiv, hmod]
  rfl

/-- A stored value that is not positive displays as if it were 0. -/
theorem displayText_of_nonpos (t : ℚ) (h : t ≤ 0) :
    displayText (.fin t) = displayText (.fin 0) := by
  have h1 : JSNum.lt (.fin 0) (.fin t) = false := by simp [JSNum.lt, h]
  have h2 : JSNum.lt (.fin 0) (.fin 0) = false := by simp [JSNum.lt]
  unfold displayText
  simp only [h1, h2, Bool.false_eq_true, if_false]

/-- The label for a binary64 value below `2^53` whose clamped value lies in
`[60 m + s, 60 m + s + 1)` with `s < 60`: minutes `m`, seconds `s`. -/
theorem displayText_of_bounds (t : ℚ) (m s : ℕ) (hd : toDouble t = .fin t)
    (ht : t < 2 ^ (53 : ℕ)) (hlo : (m : ℚ) * 60 + s ≤ max t 0)
    (hhi : max t 0 < (m : ℚ) * 60 + s + 1) (hs : s < 60) :
    displayText (.fin t) = pad2 m ++ ':' :: pad2 s := by
  have hu0 : 0 ≤ max t 0 := le_max_right t 0
  have hud : toDouble (max t 0) = .fin (max t 0) := by
    rcases le_total t 0 with h | h
    · rw [max_eq_right h]
      exact toDouble_zero
    · rw [max_eq_left h]
      exact hd
  have hult : max t 0 < 2 ^ (53 : ℕ) := max_lt ht (by norm_num)
  have htext : displayText (.fin t) = displayText (.fin (max t 0)) := by
    rcases le_total t 0 with h | h
    · rw [max_eq_right h]
      exact displayText_of_nonpos t h
    · rw [max_eq_left h]
  obtain ⟨y, hy, hfloor⟩ := floor_toDouble_div_sixty (max t 0) hu0 hult hud
  have hsq : (s : ℚ) + 1 ≤ 60 := by
    have : s + 1 ≤ 60 := hs
    exact_mod_cast this
  have hs0 : (0 : ℚ) ≤ s := Nat.cast_nonneg s
  have hm0 : (0 : ℚ) ≤ m := Nat.cast_nonneg m
  have hM : ⌊max t 0 / 60⌋ = (m : ℤ) := by
    rw [Int.floor_eq_iff]
    constructor
    · rw [le_div_iff₀ (by norm_num)]
      push_cast
      linarith
    · rw [div_lt_iff₀ (by norm_num)]
      push_cast
      linarith
  have hS : ⌊max t 0 - 60 * ((m : ℤ) : ℚ)⌋ = (s : ℤ) := by
    rw [Int.floor_eq_iff]
    constructor
    · push_cast
      linarith
    · push_cast
      linarith
  have hmlt : m < 2 ^ 53 := by
    have h1 : (m : ℚ) < 2 ^ (53 : ℕ) := by linarith
    have h2 : (m : ℚ) < ((2 ^ 53 : ℕ) : ℚ) := by
      push_cast
      exact h1
    exact_mod_cast h2
  rw [htext, displayText_of_quotient (max t 0) y hu0 hy, hfloor, hM, hS]
  have e1 : (((m : ℤ)) : ℚ) = (m : ℚ) := by norm_cast
  have e2 : (((s : ℤ)) : ℚ) = (s : ℚ) := by norm_cast
  rw [e1, e2, padField_natCast s (by omega), padField_natCast m hmlt]

/-- Minutes and seconds exist for every finite stored value. -/
theorem exists_minutes_seconds (t : ℚ) :
    ∃ m s : ℕ, (m : ℚ) * 60 + s ≤ max t 0 ∧ max t 0 < (m : ℚ) * 60 + s + 1 ∧ s < 60 := by
  have hu : 0 ≤ max t 0 := le_max_right t 0
  have hM0 : 0 ≤ ⌊max t 0 / 60⌋ := Int.floor_nonneg.mpr (div_nonneg hu (by norm_num))
  have hMle : ((⌊max t 0 / 60⌋ : ℤ) : ℚ) ≤ max t 0 / 60 := Int.floor_le _
  have hMlt : max t 0 / 60 < ((⌊max t 0 / 60⌋ : ℤ) : ℚ) + 1 := Int.lt_floor_add_one _
  rw [le_div_iff₀ (by norm_num)] at hMle
  rw [div_lt_iff₀ (by norm_num)] at hMlt
  have hS0 : 0 ≤ ⌊max t 0 - 60 * ((⌊max t 0 / 60⌋ : ℤ) : ℚ)⌋ :=
    Int.floor_nonneg.mpr (by linarith)
  have hSle := Int.floor_le (max t 0 - 60 * ((⌊max t 0 / 60⌋ : ℤ) : ℚ))
  have hSlt := Int.lt_floor_add_one (max t 0 - 60 * ((⌊max t 0 / 60⌋ : ℤ) : ℚ))
  have hS60 : ⌊max t 0 - 60 * ((⌊max t 0 / 60⌋ : ℤ) : ℚ)⌋ < 60 := by
    have : max t 0 - 60 * ((⌊max t 0 / 60⌋ : ℤ) : ℚ) < ((60 : ℤ) : ℚ) := by
      push_cast
      linarith
    exact Int.floor_lt.mpr this
  refine ⟨⌊max t 0 / 60⌋.toNat, ⌊max t 0 - 60 * ((⌊max t 0 / 60⌋ : ℤ) : ℚ)⌋.toNat, ?_, ?_, ?_⟩
  · have e1 : ((⌊max t 0 / 60⌋.toNat : ℕ) : ℚ) = ((⌊max t 0 / 60⌋ : ℤ) : ℚ) := by
      have := Int.toNat_of_nonneg hM0
      exact_mod_cast this
    have e2 : ((⌊max t 0 - 60 * ((⌊max t 0 / 60⌋ : ℤ) : ℚ)⌋.toNat : ℕ) : ℚ) =
        ((⌊max t 0 - 60 * ((⌊max t 0 / 60⌋ : ℤ) : ℚ)⌋ : ℤ) : ℚ) := by
      have := Int.toNat_of_nonneg hS0
      exact_mod_cast this
    rw [e1, e2]
    linarith
  · have e1 : ((⌊max t 0 / 60⌋.toNat : ℕ) : ℚ) = ((⌊max t 0 / 60⌋ : ℤ) : ℚ) := by
      have := Int.toNat_of_nonneg hM0
      exact_mod_cast this
    have e2 : ((⌊max t 0 - 60 * ((⌊max t 0 / 60⌋ : ℤ) : ℚ)⌋.toNat : ℕ) : ℚ) =
        ((⌊max t 0 - 60 * ((⌊max t 0 / 60⌋ : ℤ) : ℚ)⌋ : ℤ) : ℚ) := by
      have := Int.toNat_of_nonneg hS0
      exact_mod_cast this
    rw [e1, e2]
    linarith
  · omega

/-- The quotient of 68385005153695256 by 60, in binary64: the whole number
1139750085894921, one more than the whole part of the exact quotient. -/
theorem toDouble_large_quotient :
    toDouble (68385005153695256 / 60) = .fin 1139750085894921 := by
  rw [toDouble_eq_of_bounds _ 50 4559000343579684 (by norm_num) (by norm_num) (by norm_num)
    (by norm_num) (by norm_num) (by norm_num) (by norm_num)]
  norm_num

/-- C16 (counterexample).  For the stored value `Infinity` the label is
`Infinity:NaN`: the seconds field is not two digits in `00..59`.  And for the
stored binary64 value 68385005153695256 the minutes field is
1139750085894921, not the whole part 1139750085894920 of `t/60`: the quotient
is rounded to binary64 before `Math.floor`. -/
theorem updateTimer_infinity_label :
    (updateTimer (.num (.inf false)) (initialState pageLabel)).state.timeLeft = .inf false ∧
      (updateTimer (.num (.inf false)) (initialState pageLabel)).state.label.innerText =
        "Infinity:NaN".toList ∧
      displayText (.fin 68385005153695256) = "1139750085894921:56".toList ∧
      ⌊(68385005153695256 : ℚ) / 60⌋ = 1139750085894920 := by
  refine ⟨by decide, by decide, ?_, ?_⟩
  · rw [displayText_of_quotient 68385005153695256 1139750085894921 (by norm_num)
      toDouble_large_quotient]
    have hM : ⌊(68385005153695256 : ℚ) / 60⌋ = 1139750085894920 := by
      rw [Int.floor_eq_iff]
      constructor <;> norm_num
    have hY : ⌊(1139750085894921 : ℚ)⌋ = 1139750085894921 := by
      rw [Int.floor_eq_iff]
      constructor <;> norm_num
    rw [hM, hY]
    have hS : ⌊(68385005153695256 : ℚ) - 60 * ((1139750085894920 : ℤ) : ℚ)⌋ = 56 := by
      rw [Int.floor_eq_iff]
      constructor <;> norm_num
    rw [hS]
    have e1 : (((1139750085894921 : ℤ)) : ℚ) = ((1139750085894921 : ℕ) : ℚ) := by norm_cast
    have e2 : (((56 : ℤ)) : ℚ) = ((56 : ℕ) : ℚ) := by norm_cast
    rw [e1, e2, padField_natCast 56 (by norm_num),
      padField_natCast 1139750085894921 (by norm_num)]
    decide
  · rw [Int.floor_eq_iff]
    constructor <;> norm_num

/-- C16 (amended).  For every stored `timeLeft` that is a binary64 number below
`2^53` the label is `MM:SS` computed from the value clamped at 0: `MM` the
whole minutes, `SS` the whole seconds left over, each zero-padded to two
digits, `SS` always two digits of `00..59`; `NaN` and -5 display `00:00`, 125
displays `02:05`; `updateTimer` stores its argument unclamped. -/
theorem updateDisplay_finite (t : ℚ) (hd : toDouble t = .fin t) (ht : t < 2 ^ (53 : ℕ)) :
    (∃ m s : ℕ, (m : ℚ) * 60 + s ≤ max t 0 ∧ max t 0 < (m : ℚ) * 60 + s + 1 ∧ s < 60 ∧
        displayText (.fin t) = pad2 m ++ ':' :: pad2 s ∧ (pad2 s).length = 2) ∧
      displayText .nan = "00:00".toList ∧
      displayText (.fin (-5)) = "00:00".toList ∧
      displayText (.fin 125) = "02:05".toList ∧
      (∀ st : State, (updateDisplay st).label.innerText = displayText st.timeLeft) ∧
      (∀ (x : JSNum) (st : State), (updateTimer (.num x) st).state.timeLeft = x) ∧
      (∀ (x : JSNum) (st : State) (c : Bool), leValue x st.config.lowTimeThreshold = .ok c →
        (updateTimer (.num x) st).state.label.innerText = displayText x) := by
  have h0 : displayText (.fin 0) = "00:00".toList := by
    rw [displayText_of_bounds 0 0 0 toDouble_zero (by norm_num) (by norm_num) (by norm_num)
      (by norm_num)]
    rfl
  refine ⟨?_, ?_, ?_, ?_, fun _ => rfl, ?_, ?_⟩
  · obtain ⟨m, s, hlo, hhi, hs⟩ := exists_minutes_seconds t
    exact ⟨m, s, hlo, hhi, hs, displayText_of_bounds t m s hd ht hlo hhi hs, pad2_length s hs⟩
  · have e : displayText .nan = displayText (.fin 0) := by
      simp [displayText, JSNum.lt]
    rw [e, h0]
  · rw [displayText_of_nonpos (-5) (by norm_num), h0]
  · have h125 : toDouble 125 = .fin 125 := by
      have := toDouble_natCast 125 (by norm_num)
      simpa using this
    rw [displayText_of_bounds 125 2 5 h125 (by norm_num) (by norm_num) (by norm_num)
      (by norm_num)]
    rfl
  · intro x st
    unfold updateTimer
    simp only [parseFloatValue]
    cases hc : leValue x st.config.lowTimeThreshold with
    | error e => rfl
    | ok c => cases c <;> rfl
  · intro x st c hc
    unfold updateTimer
    simp only [parseFloatValue, hc]
    cases c <;> rfl

/-- Witness for C16 (amended): the stored value 3599.5 displays `59:59`. -/
theorem updateDisplay_finite_witness : displayText (.fin (7199 / 2)) = "59:59".toList := by
  have hd : toDouble (7199 / 2) = .fin (7199 / 2) := by
    have h := toDouble_mul_zpow 7199 (-1) (by norm_num) (by norm_num) (by norm_num)
    have e : ((7199 : ℕ) : ℚ) * 2 ^ (-1 : ℤ) = 7199 / 2 := by norm_num
    rw [e] at h
    exact h
  obtain ⟨m, s, hlo, hhi, hs, htext, _⟩ :=
    (updateDisplay_finite (7199 / 2) hd (by norm_num)).1
  have hmax : max (7199 / 2 : ℚ) 0 = 7199 / 2 := max_eq_left (by norm_num)
  rw [hmax] at hlo hhi
  have h1 : ((m * 60 + s : ℕ) : ℚ) < 3600 := by
    push_cast
    linarith
  have h2 : (3598 : ℚ) < ((m * 60 + s : ℕ) : ℚ) := by
    push_cast
    linarith
  have h1' : m * 60 + s < 3600 := by exact_mod_cast h1
  have h2' : 3598 < m * 60 + s := by exact_mod_cast h2
  have hm : m = 59 := by omega
  have hs' : s = 59 := by omega
  rw [htext, hm, hs']
  rfl

/-! ## Claims on `startCountdown` -/

/-- What `startCountdown` leaves when `parseFloat(duration)` returns `x`. -/
theorem startCountdown_of_duration (d : JSValue) (x : JSNum) (o : OptionsJson) (st : State)
    (hd : parseFloatValue d = .ok x) :
    (startCountdown d o st).state.timeLeft = durationOrDefault x ∧
      (startCountdown d o st).state.config = parseOptions o st.config ∧
      (startCountdown d o st).error = none := by
  unfold startCountdown
  rw [hd]
  exact ⟨rfl, rfl, rfl⟩

/-- An exception that leaves `startCountdown` is that of `parseFloat(duration)`. -/
theorem startCountdown_error (d : JSValue) (o : OptionsJson) (st : State) (e : JSError)
    (h : (startCountdown d o st).error = some e) : parseFloatValue d = .error e := by
  unfold startCountdown at h
  cases hd : parseFloatValue d with
  | error e2 =>
    cases e2
    cases e
    rfl
  | ok x =>
    rw [hd] at h
    cases h

/-- The call `parseFloat` does not throw on a primitive value. -/
theorem parseFloatValue_of_primitive (d : JSValue) (h : isPrimitive d = true) :
    ∃ x : JSNum, parseFloatValue d = .ok x := by
  cases d with
  | undefined => exact ⟨_, rfl⟩
  | null => exact ⟨_, rfl⟩
  | bool b => cases b <;> exact ⟨_, rfl⟩
  | num x => exact ⟨_, rfl⟩
  | str s => exact ⟨_, rfl⟩
  | arr items => cases h
  | obj fields => cases h

/-- C17 (counterexample).  With the duration `Infinity` and no options the
stored `timeLeft` is `Infinity`, not the default 60. -/
theorem startCountdown_infinity_kept :
    (startCountdown (.num (.inf false)) .absent (initialState pageLabel)).state.timeLeft =
        .inf false ∧
      (startCountdown (.num (.inf false)) .absent (initialState pageLabel)).state.timeLeft ≠
        DEFAULT_DURATION := by
  decide

/-- C17 (amended).  After `startCountdown(d, null)` the stored `timeLeft` is
`parseFloat(d)` when that is a positive number, `+Infinity` included, and the
default 60 when it is `NaN`, zero, negative or `-Infinity`; `parseFloat(d)`
returns a number for every primitive `d`, for a number `d` it is `d`, and
`startCountdown(NaN, null)` stores 60. -/
theorem startCountdown_timeLeft (d : JSValue) (st : State) :
    (∀ q : ℚ, parseFloatValue d = .ok (.fin q) → 0 < q →
        (startCountdown d .absent st).state.timeLeft = .fin q) ∧
      (parseFloatValue d = .ok (.inf false) →
        (startCountdown d .absent st).state.timeLeft = .inf false) ∧
      (∀ q : ℚ, parseFloatValue d = .ok (.fin q) → q ≤ 0 →
        (startCountdown d .absent st).state.timeLeft = .fin 60) ∧
      (parseFloatValue d = .ok (.inf true) →
        (startCountdown d .absent st).state.timeLeft = .fin 60) ∧
      (parseFloatValue d = .ok .nan →
        (startCountdown d .absent st).state.timeLeft = .fin 60) ∧
      (∀ x : JSNum, parseFloatValue (.num x) = .ok x) ∧
      (isPrimitive d = true → ∃ x : JSNum, parseFloatValue d = .ok x) ∧
      (startCountdown (.num .nan) .absent st).state.timeLeft = .fin 60 := by
  refine ⟨?_, ?_, ?_, ?_, ?_, fun _ => rfl, parseFloatValue_of_primitive d, rfl⟩
  · intro q hq hpos
    rw [(startCountdown_of_duration d _ .absent st hq).1]
    simp [durationOrDefault, JSNum.isNaN, JSNum.le, not_le.mpr hpos]
  · intro hq
    rw [(startCountdown_of_duration d _ .absent st hq).1]
    simp [durationOrDefault, JSNum.isNaN, JSNum.le]
  · intro q hq hle
    rw [(startCountdown_of_duration d _ .absent st hq).1]
    simp [durationOrDefault, JSNum.isNaN, JSNum.le, hle, DEFAULT_DURATION]
  · intro hq
    rw [(startCountdown_of_duration d _ .absent st hq).1]
    simp [durationOrDefault, JSNum.isNaN, JSNum.le, DEFAULT_DURATION]
  · intro hq
    rw [(startCountdown_of_duration d _ .absent st hq).1]
    simp [durationOrDefault, JSNum.isNaN, DEFAULT_DURATION]

/-- Witness for C17 (amended): the durations 90, `"12abc"` (read as 12) and 0. -/
theorem startCountdown_timeLeft_witness :
    (startCountdown (.num (.fin 90)) .absent (initialState pageLabel)).state.timeLeft =
        .fin 90 ∧
      (startCountdown (.str "12abc".toList) .absent (initialState pageLabel)).state.timeLeft =
        .fin 12 ∧
      (startCountdown (.num (.fin 0)) .absent (initialState pageLabel)).state.timeLeft =
        .fin 60 :=
  ⟨(startCountdown_timeLeft (.num (.fin 90)) (initialState pageLabel)).1 90 rfl
      (by norm_num),
    (startCountdown_timeLeft (.str "12abc".toList) (initialState pageLabel)).1 12
      (by
        show Except.ok (parseFloat "12abc".toList) = .ok (.fin 12)
        rw [parseFloat_of_parts "12abc".toList "abc".toList 12 0 (by decide) (by decide)
          (by decide) (by decide)]
        have := toDouble_natCast 12 (by norm_num)
        simpa using this)
      (by norm_num),
    (startCountdown_timeLeft (.num (.fin 0)) (initialState pageLabel)).2.2.1 0 rfl
      (le_refl 0)⟩

/-- C18.  When the options payload fails to parse (`JSON.parse` throws, or the
parsed value is `null` and the first property read throws), the three config
fields keep their prior values, whatever the duration; no exception of the
payload reaches the caller (an exception that leaves `startCountdown` is that
of `parseFloat(duration)`, which does not throw on a primitive value); and
`timeLeft` is set from the duration. -/
theorem startCountdown_malformed_options (d : JSValue) (st : State) :
    (startCountdown d .malformed st).state.config = st.config ∧
      (startCountdown d .malformed st).state.config.lowTimeThreshold =
        st.config.lowTimeThreshold ∧
      (startCountdown d .malformed st).state.config.timerColor = st.config.timerColor ∧
      (startCountdown d .malformed st).state.config.lowTimeColor = st.config.lowTimeColor ∧
      (startCountdown d (.parsed .null) st).state.config = st.config ∧
      (∀ x : JSNum, parseFloatValue d = .ok x →
        (startCountdown d .malformed st).state.timeLeft = durationOrDefault x ∧
        (startCountdown d .malformed st).error = none ∧
        (startCountdown d (.parsed .null) st).state.timeLeft = durationOrDefault x ∧
        (startCountdown d (.parsed .null) st).error = none) ∧
      (isPrimitive d = true → ∃ x : JSNum, parseFloatValue d = .ok x) ∧
      (∀ e : JSError, (startCountdown d .malformed st).error = some e →
        parseFloatValue d = .error e) := by
  have hcfg : ∀ o : OptionsJson, parseOptions o st.config = st.config →
      (startCountdown d o st).state.config = st.config := by
    intro o ho
    unfold startCountdown
    cases hd : parseFloatValue d with
    | error e => rfl
    | ok x =>
      show parseOptions o st.config = st.config
      exact ho
  have hm := hcfg .malformed rfl
  refine ⟨hm, ?_, ?_, ?_, hcfg (.parsed .null) rfl, ?_, parseFloatValue_of_primitive d,
    fun e he => startCountdown_error d .malformed st e he⟩
  · rw [hm]
  · rw [hm]
  · rw [hm]
  · intro x hx
    exact ⟨(startCountdown_of_duration d x .malformed st hx).1,
      (startCountdown_of_duration d x .malformed st hx).2.2,
      (startCountdown_of_duration d x (.parsed .null) st hx).1,
      (startCountdown_of_duration d x (.parsed .null) st hx).2.2⟩

/-- Witness for C18: the duration 90 with a payload that fails to parse, from
the state when the script has loaded. -/
theorem startCountdown_malformed_options_witness :
    (startCountdown (.num (.fin 90)) .malformed (initialState pageLabel)).state.timeLeft =
        .fin 90 ∧
      (startCountdown (.num (.fin 90)) .malformed (initialState pageLabel)).error = none ∧
      (startCountdown (.num (.fin 90)) .malformed (initialState pageLabel)).state.config.lowTimeColor
        = "red".toList ∧
      ∃ x : JSNum, parseFloatValue (.str "abc".toList) = .ok x := by
  have h := (startCountdown_malformed_options (.num (.fin 90)) (initialState pageLabel)).2.2.2.2.2.1
    (.fin 90) rfl
  refine ⟨?_, h.2.1,
    (startCountdown_malformed_options (.num (.fin 90)) (initialState pageLabel)).2.2.2.1,
    (startCountdown_malformed_options (.str "abc".toList) (initialState pageLabel)).2.2.2.2.2.2.1
      rfl⟩
  rw [h.1]
  decide

/-- C19 (counterexample).  With the payload `{"lowTimeColor": ""}` the low
colour keeps its prior value `red`; it does not become
`parseUnrealColor("")`, which is `white`. -/
theorem startCountdown_skips_empty_color :
    (startCountdown (.num (.fin 60))
        (.parsed (.obj [("lowTimeColor".toList, .str [])]))
        (initialState pageLabel)).state.config.lowTimeColor = "red".toList ∧
      parseUnrealColor (.str []) = .ok "white".toList ∧
      .ok (startCountdown (.num (.fin 60))
        (.parsed (.obj [("lowTimeColor".toList, .str [])]))
        (initialState pageLabel)).state.config.lowTimeColor ≠ parseUnrealColor (.str []) := by
  decide

/-- The `try` block on a parsed object: the three assignments in order, the
block being left at the first exception. -/
theorem applyOptions_obj (fields : List (JSString × JSValue)) (config : Config) :
    applyOptions (.obj fields) config =
      match suppliedColor (getProperty "timerColor".toList (.obj fields)) config.timerColor with
      | .error e =>
        ({ config with
            lowTimeThreshold :=
              if isDefined (getProperty "lowTimeThreshold".toList (.obj fields)) then
                getProperty "lowTimeThreshold".toList (.obj fields)
              else config.lowTimeThreshold }, some e)
      | .ok tc =>
        match suppliedColor (getProperty "lowTimeColor".toList (.obj fields))
            config.lowTimeColor with
        | .error e =>
          ({ lowTimeThreshold :=
              if isDefined (getProperty "lowTimeThreshold".toList (.obj fields)) then
                getProperty "lowTimeThreshold".toList (.obj fields)
              else config.lowTimeThreshold
             timerColor := tc
             lowTimeColor := config.lowTimeColor }, some e)
        | .ok lc =>
          ({ lowTimeThreshold :=
              if isDefined (getProperty "lowTimeThreshold".toList (.obj fields)) then
                getProperty "lowTimeThreshold".toList (.obj fields)
              else config.lowTimeThreshold
             timerColor := tc
             lowTimeColor := lc }, none) := by
  unfold applyOptions
  simp only
  by_cases h : isDefined (getProperty "lowTimeThreshold".toList (.obj fields)) = true
  · simp only [h, if_true]
  · have hb : isDefined (getProperty "lowTimeThreshold".toList (.obj fields)) = false := by
      simpa using h
    simp only [hb, Bool.false_eq_true, if_false]

theorem suppliedColor_truthy (v : JSValue) (prior : JSString) (h : toBoolean v = true) :
    suppliedColor v prior = parseUnrealColor v := by
  simp only [suppliedColor, h, if_true]

theorem suppliedColor_falsy (v : JSValue) (prior : JSString) (h : toBoolean v = false) :
    suppliedColor v prior = .ok prior := by
  simp only [suppliedColor, h, Bool.false_eq_true, if_false]

/-- C19 (amended).  For a payload that parses to an object, when
`parseFloat(duration)` does not throw: `lowTimeThreshold` becomes the supplied
value when the payload has one and is unchanged when the field is absent; each
colour becomes `parseUnrealColor` of the supplied value when that value is
truthy and no translation before the assignment has thrown, and is unchanged
when the field is absent or its value is empty or otherwise falsy.  When a
translation throws, the exception is caught: the colour it was for and the
assignments after it are not made, those before it stay, and no error reaches
the caller. -/
theorem startCountdown_options (d : JSValue) (x : JSNum)
    (fields : List (JSString × JSValue)) (st : State) (hd : parseFloatValue d = .ok x) :
    (∀ v, getProperty "lowTimeThreshold".toList (.obj fields) = v → v ≠ .undefined →
        (startCountdown d (.parsed (.obj fields)) st).state.config.lowTimeThreshold = v) ∧
      (hasProperty "lowTimeThreshold".toList (.obj fields) = false →
        (startCountdown d (.parsed (.obj fields)) st).state.config.lowTimeThreshold =
          st.config.lowTimeThreshold) ∧
      (∀ c : JSString, toBoolean (getProperty "timerColor".toList (.obj fields)) = true →
        parseUnrealColor (getProperty "timerColor".toList (.obj fields)) = .ok c →
        (startCountdown d (.parsed (.obj fields)) st).state.config.timerColor = c) ∧
      (toBoolean (getProperty "timerColor".toList (.obj fields)) = false →
        (startCountdown d (.parsed (.obj fields)) st).state.config.timerColor =
          st.config.timerColor) ∧
      (∀ c : JSString, toBoolean (getProperty "lowTimeColor".toList (.obj fields)) = true →
        parseUnrealColor (getProperty "lowTimeColor".toList (.obj fields)) = .ok c →
        (toBoolean (getProperty "timerColor".toList (.obj fields)) = false ∨
          ∃ c2, parseUnrealColor (getProperty "timerColor".toList (.obj fields)) = .ok c2) →
        (startCountdown d (.parsed (.obj fields)) st).state.config.lowTimeColor = c) ∧
      (toBoolean (getProperty "lowTimeColor".toList (.obj fields)) = false →
        (startCountdown d (.parsed (.obj fields)) st).state.config.lowTimeColor =
          st.config.lowTimeColor) ∧
      (∀ e : JSError, toBoolean (getProperty "timerColor".toList (.obj fields)) = true →
        parseUnrealColor (getProperty "timerColor".toList (.obj fields)) = .error e →
        (startCountdown d (.parsed (.obj fields)) st).state.config.timerColor =
            st.config.timerColor ∧
          (startCountdown d (.parsed (.obj fields)) st).state.config.lowTimeColor =
            st.config.lowTimeColor) ∧
      (∀ e : JSError, toBoolean (getProperty "lowTimeColor".toList (.obj fields)) = true →
        parseUnrealColor (getProperty "lowTimeColor".toList (.obj fields)) = .error e →
        (startCountdown d (.parsed (.obj fields)) st).state.config.lowTimeColor =
          st.config.lowTimeColor) ∧
      (startCountdown d (.parsed (.obj fields)) st).error = none := by
  have hcfg : (startCountdown d (.parsed (.obj fields)) st).state.config =
      (applyOptions (.obj fields) st.config).1 :=
    (startCountdown_of_duration d x _ st hd).2.1
  have herr := (startCountdown_of_duration d x (.parsed (.obj fields)) st hd).2.2
  rw [hcfg, applyOptions_obj]
  refine ⟨?_, ?_, ?_, ?_, ?_, ?_, ?_, ?_, herr⟩
  · intro v hv hne
    subst hv
    have hdef : isDefined (getProperty "lowTimeThreshold".toList (.obj fields)) = true :=
      isDefined_of_ne hne
    cases suppliedColor (getProperty "timerColor".toList (.obj fields)) st.config.timerColor with
    | error e => simp only [hdef, if_true]
    | ok tc =>
      cases suppliedColor (getProperty "lowTimeColor".toList (.obj fields))
        st.config.lowTimeColor <;> simp only [hdef, if_true]
  · intro h
    rw [getProperty_of_not_hasProperty h]
    cases suppliedColor (getProperty "timerColor".toList (.obj fields)) st.config.timerColor with
    | error e => rfl
    | ok tc =>
      cases suppliedColor (getProperty "lowTimeColor".toList (.obj fields))
        st.config.lowTimeColor <;> rfl
  · intro c ht hc
    rw [suppliedColor_truthy _ _ ht, hc]
    cases suppliedColor (getProperty "lowTimeColor".toList (.obj fields))
      st.config.lowTimeColor <;> rfl
  · intro ht
    rw [suppliedColor_falsy _ _ ht]
    cases suppliedColor (getProperty "lowTimeColor".toList (.obj fields))
      st.config.lowTimeColor <;> rfl
  · intro c hl hc hT
    have hsup : ∃ c2, suppliedColor (getProperty "timerColor".toList (.obj fields))
        st.config.timerColor = .ok c2 := by
      rcases hT with hf | ⟨c2, hc2⟩
      · exact ⟨st.config.timerColor, suppliedColor_falsy _ _ hf⟩
      · by_cases ht : toBoolean (getProperty "timerColor".toList (.obj fields)) = true
        · exact ⟨c2, by rw [suppliedColor_truthy _ _ ht, hc2]⟩
        · exact ⟨st.config.timerColor, suppliedColor_falsy _ _ (Bool.eq_false_iff.mpr ht)⟩
    obtain ⟨c2, hc2⟩ := hsup
    rw [hc2, suppliedColor_truthy _ _ hl, hc]
  · intro hl
    rw [suppliedColor_falsy _ st.config.lowTimeColor hl]
    cases suppliedColor (getProperty "timerColor".toList (.obj fields)) st.config.timerColor with
    | error e => rfl
    | ok tc => rfl
  · intro e ht he
    rw [suppliedColor_truthy _ _ ht, he]
    exact ⟨rfl, rfl⟩
  · intro e hl he
    rw [suppliedColor_truthy _ st.config.lowTimeColor hl, he]
    cases suppliedColor (getProperty "timerColor".toList (.obj fields)) st.config.timerColor with
    | error e2 => rfl
    | ok tc => rfl

/-- Witness for C19 (amended): the payload
`{"lowTimeThreshold": "soon", "timerColor": "00FF00", "lowTimeColor": ""}`, and
the payload `{"lowTimeThreshold": 5, "timerColor": {"R": {"toString": 0},
"G": 0, "B": 0}, "lowTimeColor": "blue"}`, whose first colour makes the
translator throw: the threshold is assigned, both colours keep their prior
values. -/
theorem startCountdown_options_witness :
    (startCountdown (.num (.fin 60))
        (.parsed (.obj [("lowTimeThreshold".toList, .str "soon".toList),
          ("timerColor".toList, .str "00FF00".toList), ("lowTimeColor".toList, .str [])]))
        (initialState pageLabel)).state.config.lowTimeThreshold = .str "soon".toList ∧
      (startCountdown (.num (.fin 60))
        (.parsed (.obj [("lowTimeThreshold".toList, .str "soon".toList),
          ("timerColor".toList, .str "00FF00".toList), ("lowTimeColor".toList, .str [])]))
        (initialState pageLabel)).state.config.timerColor = "#00FF00".toList ∧
      (startCountdown (.num (.fin 60))
        (.parsed (.obj [("lowTimeThreshold".toList, .str "soon".toList),
          ("timerColor".toList, .str "00FF00".toList), ("lowTimeColor".toList, .str [])]))
        (initialState pageLabel)).state.config.lowTimeColor = "red".toList ∧
      (startCountdown (.num (.fin 60))
        (.parsed (.obj [("lowTimeThreshold".toList, .num (.fin 5)),
          ("timerColor".toList, .obj [(['R'], .obj [("toString".toList, .num (.fin 0))]),
            (['G'], .num (.fin 0)), (['B'], .num (.fin 0))]),
          ("lowTimeColor".toList, .str "blue".toList)]))
        (initialState pageLabel)).state.config.lowTimeThreshold = .num (.fin 5) ∧
      (startCountdown (.num (.fin 60))
        (.parsed (.obj [("lowTimeThreshold".toList, .num (.fin 5)),
          ("timerColor".toList, .obj [(['R'], .obj [("toString".toList, .num (.fin 0))]),
            (['G'], .num (.fin 0)), (['B'], .num (.fin 0))]),
          ("lowTimeColor".toList, .str "blue".toList)]))
        (initialState pageLabel)).state.config.timerColor = "white".toList ∧
      (startCountdown (.num (.fin 60))
        (.parsed (.obj [("lowTimeThreshold".toList, .num (.fin 5)),
          ("timerColor".toList, .obj [(['R'], .obj [("toString".toList, .num (.fin 0))]),
            (['G'], .num (.fin 0)), (['B'], .num (.fin 0))]),
          ("lowTimeColor".toList, .str "blue".toList)]))
        (initialState pageLabel)).state.config.lowTimeColor = "red".toList :=
  ⟨(startCountdown_options (.num (.fin 60)) (.fin 60) _ _ rfl).1 _ rfl (by intro h; cases h),
    (startCountdown_options (.num (.fin 60)) (.fin 60) _ _ rfl).2.2.1 "#00FF00".toList (by decide)
      (by decide),
    (startCountdown_options (.num (.fin 60)) (.fin 60) _ _ rfl).2.2.2.2.2.1 (by decide),
    (startCountdown_options (.num (.fin 60)) (.fin 60) _ _ rfl).1 _ rfl (by intro h; cases h),
    ((startCountdown_options (.num (.fin 60)) (.fin 60) _ _ rfl).2.2.2.2.2.2.1 .typeError (by decide)
      (by decide)).1,
    ((startCountdown_options (.num (.fin 60)) (.fin 60) _ _ rfl).2.2.2.2.2.2.1 .typeError (by decide)
      (by decide)).2⟩

/-! ## Outputs of the translator are fixed points -/

theorem not_of_head?_dropWhile {p : Char → Bool} {l : List Char} {c : Char}
    (h : (l.dropWhile p).head? = some c) : p c = false := by
  have := List.head?_dropWhile_not p l
  rw [h] at this
  exact this

theorem trim_head {s : JSString} {c : Char} (h : (trim s).head? = some c) :
    isWhiteSpace c = false := by
  unfold trim at h
  have hsuf : List.dropWhile isWhiteSpace (List.dropWhile isWhiteSpace s).reverse <:+
      (List.dropWhile isWhiteSpace s).reverse := List.dropWhile_suffix _
  have hpre : (List.dropWhile isWhiteSpace (List.dropWhile isWhiteSpace s).reverse).reverse <+:
      List.dropWhile isWhiteSpace s := by
    have := List.reverse_prefix.mpr hsuf
    simpa using this
  obtain ⟨z, hz⟩ := hpre
  cases hy : (List.dropWhile isWhiteSpace (List.dropWhile isWhiteSpace s).reverse).reverse with
  | nil =>
    rw [hy] at h
    simp at h
  | cons d w =>
    rw [hy] at h hz
    simp at h
    subst h
    apply not_of_head?_dropWhile (l := s)
    rw [← hz]
    rfl

theorem trim_getLast {s : JSString} {c : Char} (h : (trim s).getLast? = some c) :
    isWhiteSpace c = false := by
  unfold trim at h
  rw [List.getLast?_reverse] at h
  exact not_of_head?_dropWhile h

theorem trim_trim (s : JSString) : trim (trim s) = trim s :=
  trim_eq_self (fun _ hc => trim_head hc) (fun _ hc => trim_getLast hc)

/-- The template string is a fixed point of the translator. -/
theorem parseUnrealColor_rgbaString (r g b a : JSString) :
    parseUnrealColor (.str (rgbaString r g b a)) = .ok (rgbaString r g b a) := by
  obtain ⟨x, hx⟩ : ∃ x, rgbaString r g b a = 'r' :: (x ++ [')']) :=
    ⟨"gba(".toList ++ r ++ ", ".toList ++ g ++ ", ".toList ++ b ++ ", ".toList ++ a, by
      simp [rgbaString]⟩
  rw [hx]
  have htrim : trim ('r' :: (x ++ [')'])) = 'r' :: (x ++ [')']) := by
    apply trim_eq_self
    · intro c hc
      simp at hc
      subst hc
      decide
    · intro c hc
      have : ('r' :: (x ++ [')'])).getLast? = some ')' := by
        rw [← List.cons_append, List.getLast?_append]
        simp
      rw [this] at hc
      simp at hc
      subst hc
      decide
  rw [parseUnrealColor_str (by simp), htrim,
    parseStruct_eq_none_of_not_paren (by simp [startsWith, List.isPrefixOf])]
  apply congrArg Except.ok
  apply hexOrPassThrough_of_not_bareHex
  simp [isBareHex, isHexDigit]

theorem parseStruct_eq_rgbaString {t css : JSString} (h : parseStruct t = some css) :
    ∃ r g b a, css = rgbaString r g b a := by
  unfold parseStruct at h
  split_ifs at h
  split at h
  · simp only [Option.some.injEq] at h
    exact ⟨_, _, _, _, h.symm⟩
  · simp at h

/-- What steps 3 and 4 return is a fixed point, when it is not empty. -/
theorem parseUnrealColor_hexOrPassThrough (s : JSString)
    (hstruct : parseStruct (trim s) = none) (hne : hexOrPassThrough (trim s) ≠ []) :
    parseUnrealColor (.str (hexOrPassThrough (trim s))) =
      .ok (hexOrPassThrough (trim s)) := by
  by_cases hb : isBareHex (trim s) = true
  · rw [hexOrPassThrough_of_bareHex hb]
    have hall : (trim s).all isHexDigit = true := by
      simp only [isBareHex, Bool.and_eq_true] at hb
      exact hb.1
    have htne : trim s ≠ [] := by
      intro h
      rw [h] at hb
      simp [isBareHex] at hb
    have htrim : trim ('#' :: trim s) = '#' :: trim s := by
      apply trim_eq_self
      · intro c hc
        simp at hc
        subst hc
        decide
      · intro c hc
        cases ht : trim s with
        | nil => exact absurd ht htne
        | cons e w =>
          rw [ht, List.getLast?_cons_cons, ← ht] at hc
          exact trim_getLast hc
    rw [parseUnrealColor_str (by simp), htrim,
      parseStruct_eq_none_of_not_paren (by simp [startsWith, List.isPrefixOf])]
    apply congrArg Except.ok
    apply hexOrPassThrough_of_not_bareHex
    simp [isBareHex, isHexDigit]
  · have hb2 : isBareHex (trim s) = false := by simpa using hb
    rw [hexOrPassThrough_of_not_bareHex hb2] at hne ⊢
    rw [parseUnrealColor_str hne, trim_trim, hstruct]
    exact congrArg Except.ok (hexOrPassThrough_of_not_bareHex hb2)

/-- The three shapes of a string that `parseUnrealColor` returns. -/
theorem parseUnrealColor_shapes (x : JSValue) (out : JSString)
    (h : parseUnrealColor x = .ok out) :
    out = "white".toList ∨ (∃ r g b a, out = rgbaString r g b a) ∨
      (∃ s, parseStruct (trim s) = none ∧ out = hexOrPassThrough (trim s)) := by
  unfold parseUnrealColor at h
  by_cases h1 : (!toBoolean x) = true
  · rw [if_pos h1] at h
    exact Or.inl (Except.ok.inj h).symm
  · rw [if_neg h1] at h
    by_cases h2 : (isObject x && (hasProperty ['R'] x && hasProperty ['G'] x &&
        hasProperty ['B'] x)) = true
    · rw [if_pos h2] at h
      unfold parseObject at h
      cases hr : channelOfValue (getProperty ['R'] x) with
      | error e =>
        rw [hr] at h
        cases h
      | ok r =>
        cases hg : channelOfValue (getProperty ['G'] x) with
        | error e =>
          rw [hr, hg] at h
          cases h
        | ok g =>
          cases hb : channelOfValue (getProperty ['B'] x) with
          | error e =>
            rw [hr, hg, hb] at h
            cases h
          | ok b =>
            cases ha : toStringJS (if isDefined (getProperty ['A'] x) then
                getProperty ['A'] x else .num (.fin 1)) with
            | error e =>
              rw [hr, hg, hb] at h
              simp only [ha] at h
              cases h
            | ok a =>
              rw [hr, hg, hb] at h
              simp only [ha] at h
              exact Or.inr (Or.inl ⟨_, _, _, _, (Except.ok.inj h).symm⟩)
    · rw [if_neg h2] at h
      cases x with
      | str s =>
        cases hp : parseStruct (trim s) with
        | none =>
          simp only [hp] at h
          exact Or.inr (Or.inr ⟨s, hp, (Except.ok.inj h).symm⟩)
        | some css =>
          simp only [hp] at h
          obtain ⟨r, g, b, a, hcss⟩ := parseStruct_eq_rgbaString hp
          exact Or.inr (Or.inl ⟨r, g, b, a, by rw [← Except.ok.inj h, hcss]⟩)
      | undefined => exact Or.inl (Except.ok.inj h).symm
      | null => exact Or.inl (Except.ok.inj h).symm
      | bool _ => exact Or.inl (Except.ok.inj h).symm
      | num _ => exact Or.inl (Except.ok.inj h).symm
      | arr _ => exact Or.inl (Except.ok.inj h).symm
      | obj _ => exact Or.inl (Except.ok.inj h).symm

/-- C20.  A non-empty string that `parseUnrealColor` returns is a fixed point
of `parseUnrealColor`: translating it again gives it back, so a config colour
that has passed through `startCountdown` is not changed by normalising it
again. -/
theorem parseUnrealColor_fixed_point (x : JSValue) (out : JSString)
    (h : parseUnrealColor x = .ok out) (hne : out ≠ []) :
    parseUnrealColor (.str out) = .ok out := by
  rcases parseUnrealColor_shapes x out h with hw | ⟨r, g, b, a, hrgba⟩ | ⟨s, hstruct, hs⟩
  · rw [hw]
    decide
  · rw [hrgba]
    exact parseUnrealColor_rgbaString r g b a
  · rw [hs] at hne ⊢
    exact parseUnrealColor_hexOrPassThrough s hstruct hne

/-- Witness for C20: the result `#abc` of the input ` abc `. -/
theorem parseUnrealColor_fixed_point_witness :
    parseUnrealColor (.str " abc ".toList) = .ok "#abc".toList ∧
      parseUnrealColor (.str "#abc".toList) = .ok "#abc".toList :=
  ⟨by decide, parseUnrealColor_fixed_point (.str " abc ".toList) "#abc".toList (by decide)
    (by decide)⟩

end Timer
